import Mathlib

/-!
# qualifier-api: the `POST /bfhl` dispatcher and its numeric library

A shallow embedding of `src/app.js`.

JavaScript Numbers are IEEE-754 doubles.  A finite double is represented by its exact
rational value; every arithmetic operation that rounds in JavaScript (`+`, `*`, `/`)
rounds here as well (`fl`: 53 significant bits, round to nearest, ties to even, gradual
underflow, overflow to an infinity), and the operations that are exact in IEEE-754
(`%`, `Math.abs`, comparisons) are exact here.  The sign of zero is not represented: no
path of the program observes it.

Loops whose termination depends on the values computed (`gcd`, `isPrime`) take a `fuel`
argument bounding the number of loop tests and return `none` when it is exhausted.

The handler takes the AI gateway as a function from the question to its outcome.  The
gateway itself (`aiSingleWord`) takes the network as a function from requests to
replies and returns, with its outcome, the list of the calls of `fetch` it made.  The
conversion to a string of a Number, an array or an object (in `join` and in template
literals) is a parameter `conv`.  Strings are sequences of Unicode characters.
-/

namespace Bfhl

/-! ## JavaScript Numbers -/

/-- A JavaScript Number: a finite double (given by its exact value), an infinity, or NaN. -/
inductive JSNum where
  | fin (q : ℚ)
  | posInf
  | negInf
  | nan
deriving DecidableEq, Repr

/-- Rounding of a rational to the nearest integer, ties going to the even one. -/
def roundHalfEven (x : ℚ) : Int :=
  let f := ⌊x⌋
  let r := x - f
  if r < 1 / 2 then f else if 1 / 2 < r then f + 1 else if f % 2 = 0 then f else f + 1

/-- The double nearest to the real number `q` (round to nearest, ties to even): the
significand has 53 bits, the exponent is at least `-1022` (subnormals below), and a
result of magnitude `2^1024` or more is an infinity. -/
def fl (q : ℚ) : JSNum :=
  if q = 0 then .fin 0 else
  let e := max (Int.log 2 |q|) (-1022)
  let u : ℚ := 2 ^ (e - 52)
  let r := roundHalfEven (q / u) * u
  if 2 ^ 1024 ≤ |r| then (if 0 < q then .posInf else .negInf) else .fin r

/-- Truncation toward zero. -/
def truncQ (x : ℚ) : Int := if 0 ≤ x then ⌊x⌋ else ⌈x⌉

namespace JSNum

/-- The infinity of the given sign. -/
def ofSign (positive : Bool) : JSNum := if positive then posInf else negInf

/-- JavaScript `a + b` on Numbers. -/
def add : JSNum → JSNum → JSNum
  | fin a, fin b => fl (a + b)
  | nan, _ => nan
  | _, nan => nan
  | posInf, negInf => nan
  | negInf, posInf => nan
  | posInf, _ => posInf
  | _, posInf => posInf
  | negInf, _ => negInf
  | _, negInf => negInf

/-- JavaScript `a * b` on Numbers. -/
def mul : JSNum → JSNum → JSNum
  | fin a, fin b => fl (a * b)
  | nan, _ => nan
  | _, nan => nan
  | fin a, posInf => if a = 0 then nan else ofSign (decide (0 < a))
  | fin a, negInf => if a = 0 then nan else ofSign (decide (a < 0))
  | posInf, fin b => if b = 0 then nan else ofSign (decide (0 < b))
  | negInf, fin b => if b = 0 then nan else ofSign (decide (b < 0))
  | posInf, posInf => posInf
  | negInf, negInf => posInf
  | posInf, negInf => negInf
  | negInf, posInf => negInf

/-- JavaScript `a / b` on Numbers (a zero divisor counts as `+0`). -/
def div : JSNum → JSNum → JSNum
  | fin a, fin b =>
    if b = 0 then (if a = 0 then nan else ofSign (decide (0 < a))) else fl (a / b)
  | nan, _ => nan
  | _, nan => nan
  | fin _, _ => fin 0
  | posInf, fin b => ofSign (decide (0 ≤ b))
  | negInf, fin b => ofSign (decide (b < 0))
  | _, _ => nan

/-- JavaScript `a % b` on Numbers: the remainder has the sign of the dividend and is
computed exactly. -/
def mod : JSNum → JSNum → JSNum
  | fin a, fin b => if b = 0 then nan else fin (a - b * truncQ (a / b))
  | fin a, posInf => fin a
  | fin a, negInf => fin a
  | _, _ => nan

/-- JavaScript `Math.abs` on Numbers. -/
def abs : JSNum → JSNum
  | fin a => fin |a|
  | posInf => posInf
  | negInf => posInf
  | nan => nan

/-- JavaScript `a <= b` on Numbers. -/
def le : JSNum → JSNum → Bool
  | nan, _ => false
  | _, nan => false
  | fin a, fin b => decide (a ≤ b)
  | negInf, _ => true
  | _, posInf => true
  | _, _ => false

/-- JavaScript `a < b` on Numbers. -/
def lt : JSNum → JSNum → Bool
  | nan, _ => false
  | _, nan => false
  | fin a, fin b => decide (a < b)
  | posInf, _ => false
  | _, negInf => false
  | _, _ => true

/-- JavaScript `a === b` on Numbers. -/
def strictEq : JSNum → JSNum → Bool
  | nan, _ => false
  | _, nan => false
  | a, b => decide (a = b)

/-- JavaScript `Number.isInteger` on Numbers. -/
def isInteger : JSNum → Bool
  | fin a => decide (a.den = 1)
  | _ => false

/-- The Number with integral value `z`. -/
def ofInt (z : Int) : JSNum := fin (z : ℚ)

/-- The rational `q` is the exact value of a double. -/
def IsDouble (q : ℚ) : Prop := fl q = fin q

instance (q : ℚ) : Decidable (IsDouble q) := by
  unfold IsDouble
  exact inferInstance

end JSNum

/-! ## Numeric library -/

/-- The loop of `fibSeries`: `while (series.length < n) series.push(...)`. -/
def fibWhile (n : Int) (series : List JSNum) : List JSNum :=
  if (series.length : Int) < n then
    let len := series.length
    fibWhile n (series ++
      [JSNum.add (series.getD (len - 1) JSNum.nan) (series.getD (len - 2) JSNum.nan)])
  else series
termination_by (n - series.length).toNat
decreasing_by
  simp only [List.length_append, List.length_singleton]
  omega

/-- The function `fibSeries(n)` of `src/app.js`, for an integral `n`. -/
def fibSeries (n : Int) : List JSNum :=
  if n ≤ 0 then []
  else (fibWhile n [JSNum.fin 0, JSNum.fin 1]).take n.toNat

/-- The `for` loop of `isPrime`: `for (let i = 5; i * i <= n; i += 6)`. -/
def isPrimeLoop : Nat → JSNum → JSNum → Option Bool
  | 0, _, _ => none
  | fuel + 1, n, i =>
    if JSNum.le (JSNum.mul i i) n then
      if JSNum.strictEq (JSNum.mod n i) (JSNum.fin 0)
          || JSNum.strictEq (JSNum.mod n (JSNum.add i (JSNum.fin 2))) (JSNum.fin 0) then
        some false
      else isPrimeLoop fuel n (JSNum.add i (JSNum.fin 6))
    else some true

/-- The function `isPrime(n)` of `src/app.js`. -/
def isPrime (fuel : Nat) (n : JSNum) : Option Bool :=
  if JSNum.le n (JSNum.fin 1) then some false
  else if JSNum.le n (JSNum.fin 3) then some true
  else if JSNum.strictEq (JSNum.mod n (JSNum.fin 2)) (JSNum.fin 0)
      || JSNum.strictEq (JSNum.mod n (JSNum.fin 3)) (JSNum.fin 0) then some false
  else isPrimeLoop fuel n (JSNum.fin 5)

/-- The call `arr.filter(isPrime)`: the elements on which `isPrime` returns `true`, in
order. -/
def filterPrime (fuel : Nat) : List JSNum → Option (List JSNum)
  | [] => some []
  | n :: rest =>
    match isPrime fuel n, filterPrime fuel rest with
    | some b, some ps => some (if b then n :: ps else ps)
    | _, _ => none

/-- The loop of `gcd`: `while (y !== 0) { const t = x % y; x = y; y = t; }`. -/
def gcdLoop : Nat → JSNum → JSNum → Option JSNum
  | 0, _, _ => none
  | fuel + 1, x, y =>
    if !JSNum.strictEq y (JSNum.fin 0) then gcdLoop fuel y (JSNum.mod x y) else some x

/-- The function `gcd(a, b)` of `src/app.js`. -/
def gcd (fuel : Nat) (a b : JSNum) : Option JSNum :=
  gcdLoop fuel (JSNum.abs a) (JSNum.abs b)

/-- The function `lcm(a, b)` of `src/app.js`. -/
def lcm (fuel : Nat) (a b : JSNum) : Option JSNum :=
  if JSNum.strictEq a (JSNum.fin 0) || JSNum.strictEq b (JSNum.fin 0) then some (JSNum.fin 0)
  else (gcd fuel a b).map (fun g => JSNum.div (JSNum.abs (JSNum.mul a b)) g)

/-- The function `lcmList(arr)` of `src/app.js`; `arr[0]` of an empty array is
`undefined`, whose `Math.abs` is NaN. -/
def lcmList (fuel : Nat) (arr : List JSNum) : Option JSNum :=
  (arr.drop 1).foldlM (fun result x => lcm fuel result (JSNum.abs x))
    (JSNum.abs (arr.headD JSNum.nan))

/-- The function `hcfList(arr)` of `src/app.js`. -/
def hcfList (fuel : Nat) (arr : List JSNum) : Option JSNum :=
  (arr.drop 1).foldlM (fun result x => gcd fuel result (JSNum.abs x))
    (JSNum.abs (arr.headD JSNum.nan))

/-! ## JavaScript values, configuration, responses -/

/-- A JavaScript value as decoded from JSON (plus `undefined`).  The fields of an object
are its own properties, the first entry of a key being its value. -/
inductive JVal where
  | undefined
  | null
  | bool (b : Bool)
  | num (x : JSNum)
  | str (s : String)
  | arr (elems : List JVal)
  | obj (fields : List (String × JVal))

namespace JVal

/-- JavaScript truthiness. -/
def truthy : JVal → Bool
  | undefined => false
  | null => false
  | bool b => b
  | num (JSNum.fin q) => decide (q ≠ 0)
  | num JSNum.nan => false
  | num _ => true
  | str s => decide (s ≠ "")
  | arr _ => true
  | obj _ => true

/-- `Object.prototype.hasOwnProperty.call(v, k)` for a key `k` that is neither `length`
nor an index: only an object can have it as own property. -/
def hasOwn (v : JVal) (k : String) : Bool :=
  match v with
  | obj fields => fields.any (fun kv => kv.1 == k)
  | _ => false

/-- Property read `v[k]` of an own property of an object. -/
def get (v : JVal) (k : String) : JVal :=
  match v with
  | obj fields => (fields.lookup k).getD undefined
  | _ => undefined

/-- The elements of an array (no elements for any other value). -/
def items : JVal → List JVal
  | arr xs => xs
  | _ => []

/-- The value of `v` when `Number.isInteger(v)` holds. -/
def asInteger : JVal → Option Int
  | num (JSNum.fin q) => if q.den = 1 then some q.num else none
  | _ => none

end JVal

/-- The configuration constants read from the environment at start-up (each numeric
limit is the integer that `parseInt` returned). -/
structure Config where
  OFFICIAL_EMAIL : String
  MAX_ARRAY_LEN : Int
  MAX_ABS_VALUE : Int
  MAX_FIB_N : Int
  MAX_AI_QUESTION_LEN : Int

/-- The defaults of `src/app.js`. -/
def defaultConfig : Config :=
  { OFFICIAL_EMAIL := "YOUR CHITKARA EMAIL"
    MAX_ARRAY_LEN := 1000
    MAX_ABS_VALUE := 1000000
    MAX_FIB_N := 10000
    MAX_AI_QUESTION_LEN := 500 }

/-- An HTTP response: the status and the fields of the JSON envelope (`data` holds the
JavaScript value handed to `res.json`). -/
structure Response where
  status : Nat
  is_success : Bool
  official_email : String
  data : Option JVal
  error : Option String

/-- The function `errorResponse(res, status, message)` of `src/app.js`. -/
def errorResponse (cfg : Config) (status : Nat) (message : String) : Response :=
  { status := status
    is_success := false
    official_email := cfg.OFFICIAL_EMAIL
    data := none
    error := some message }

/-- The success envelope built at the end of the handler (`res.json` answers 200). -/
def successResponse (cfg : Config) (data : JVal) : Response :=
  { status := 200
    is_success := true
    official_email := cfg.OFFICIAL_EMAIL
    data := some data
    error := none }

/-! ## Validator -/

/-- The test `!Number.isInteger(n) || Math.abs(n) > MAX_ABS_VALUE` on an array element. -/
def elementOutOfBounds (cfg : Config) (n : JVal) : Bool :=
  match n with
  | JVal.num x =>
    !JSNum.isInteger x || JSNum.lt (JSNum.ofInt cfg.MAX_ABS_VALUE) (JSNum.abs x)
  | _ => true

/-- The `for (const n of arr)` loop of `validateArray`. -/
def validateItems (cfg : Config) : List JVal → Option String
  | [] => none
  | n :: rest =>
    if elementOutOfBounds cfg n then some "array value out of bounds"
    else validateItems cfg rest

/-- The function `validateArray(arr, label)` of `src/app.js`: `none` is `null`. -/
def validateArray (cfg : Config) (arr : JVal) (label : String) : Option String :=
  match arr with
  | JVal.arr items =>
    if items.length = 0 then some (label ++ " array must be non-empty")
    else if cfg.MAX_ARRAY_LEN < (items.length : Int) then some "array length out of bounds"
    else validateItems cfg items
  | _ => some (label ++ " array must be non-empty")

/-- The Numbers among the elements of an array. -/
def numbersOf (items : List JVal) : List JSNum :=
  items.filterMap (fun v => match v with
    | JVal.num x => some x
    | _ => none)

/-! ## Dispatcher -/

/-- Code points removed by `String.prototype.trim` (WhiteSpace and LineTerminator). -/
def isTrimSpace (c : Char) : Bool :=
  let n := c.toNat
  (0x09 ≤ n && n ≤ 0x0D) || n == 0x20 || n == 0xA0 || n == 0x1680
    || (0x2000 ≤ n && n ≤ 0x200A) || n == 0x2028 || n == 0x2029 || n == 0x202F
    || n == 0x205F || n == 0x3000 || n == 0xFEFF

/-- JavaScript `s.trim()`. -/
def jsTrim (s : String) : String :=
  String.mk ((s.toList.dropWhile isTrimSpace).reverse.dropWhile isTrimSpace).reverse

/-- JavaScript `s.length`: the number of UTF-16 code units. -/
def jsLength (s : String) : Nat :=
  (s.toList.map (fun c => if c.toNat < 0x10000 then 1 else 2)).sum

/-- What `await aiSingleWord(trimmed)` does: it resolves to a value or it throws. -/
inductive AIOutcome where
  | returned (word : JVal)
  | threw

/-- The recognised operation names, in the order of the handler. -/
def keys : List String := ["fibonacci", "prime", "lcm", "hcf", "AI"]

/-- The recognised keys that are own properties of the body, in the order of `keys`. -/
def activeKeys (body : JVal) : List String :=
  keys.filter (fun k => body.hasOwn k)

/-- The handler of `POST /bfhl` in `src/app.js`.  `reqBody` is `req.body`, `ai` is the
AI gateway; the result is `none` when a loop of the numeric library does not finish
within `fuel` tests. -/
def handler (cfg : Config) (fuel : Nat) (ai : String → AIOutcome) (reqBody : JVal) :
    Option Response :=
  let body := if reqBody.truthy then reqBody else JVal.obj []
  let active := activeKeys body
  if active.length ≠ 1 then
    some (errorResponse cfg 400 "request must contain exactly one key")
  else
    let key := active.headD ""
    if key = "fibonacci" then
      match (body.get "fibonacci").asInteger with
      | none => some (errorResponse cfg 400 "fibonacci must be between 0 and MAX_FIB_N")
      | some n =>
        if n < 0 ∨ cfg.MAX_FIB_N < n then
          some (errorResponse cfg 400 "fibonacci must be between 0 and MAX_FIB_N")
        else some (successResponse cfg (JVal.arr ((fibSeries n).map JVal.num)))
    else if key = "prime" then
      match validateArray cfg (body.get "prime") "prime" with
      | some err => some (errorResponse cfg 400 err)
      | none =>
        (filterPrime fuel (numbersOf (body.get "prime").items)).map
          (fun ps => successResponse cfg (JVal.arr (ps.map JVal.num)))
    else if key = "lcm" then
      match validateArray cfg (body.get "lcm") "lcm" with
      | some err => some (errorResponse cfg 400 err)
      | none =>
        (lcmList fuel (numbersOf (body.get "lcm").items)).map
          (fun r => successResponse cfg (JVal.num r))
    else if key = "hcf" then
      match validateArray cfg (body.get "hcf") "hcf" with
      | some err => some (errorResponse cfg 400 err)
      | none =>
        (hcfList fuel (numbersOf (body.get "hcf").items)).map
          (fun r => successResponse cfg (JVal.num r))
    else if key = "AI" then
      match body.get "AI" with
      | JVal.str q =>
        let trimmed := jsTrim q
        if trimmed = "" then some (errorResponse cfg 400 "AI question must be non-empty")
        else if cfg.MAX_AI_QUESTION_LEN < (jsLength trimmed : Int) then
          some (errorResponse cfg 400 "AI question too long")
        else
          match ai trimmed with
          | AIOutcome.returned word => some (successResponse cfg word)
          | AIOutcome.threw => some (errorResponse cfg 500 "Internal server error")
      | _ => some (errorResponse cfg 400 "AI question must be a string")
    else some (errorResponse cfg 400 "unknown key")

/-! ## AI gateway -/

/-- The provider settings read from the environment at start-up. -/
structure AIConfig where
  AI_PROVIDER : String
  GEMINI_API_KEY : String
  OPENAI_API_KEY : String
  OPENAI_MODEL : String

/-- An outbound call `fetch(url, options)`; `body` is the payload handed to
`JSON.stringify`. -/
structure FetchRequest where
  url : String
  method : String
  headers : List (String × String)
  body : JVal

/-- What the network does with a call: `fetch` rejects, or it resolves to a response
with its `ok` flag, its status and the result of `resp.json()`, which rejects when the
body is not JSON. -/
inductive FetchReply where
  | failed (message : String)
  | replied (ok : Bool) (status : Nat) (json : Except String JVal)

/-- A run of the gateway: the value it resolves to or the message of the error it
throws, and the calls of `fetch` it made, in order. -/
structure GatewayRun where
  outcome : Except String JVal
  fetches : List FetchRequest

/-- The character class `[A-Za-z0-9]`. -/
def isWordChar (c : Char) : Bool :=
  let n := c.toNat
  (0x41 ≤ n && n ≤ 0x5A) || (0x61 ≤ n && n ≤ 0x7A) || (0x30 ≤ n && n ≤ 0x39)

/-- The function `firstWord(text)` of `src/app.js` on a string: the match of
`/[A-Za-z0-9]+/` in the trimmed text is the longest run that starts at the first
character of the class. -/
def firstWord (text : String) : String :=
  match (jsTrim text).toList.dropWhile (fun c => !isWordChar c) with
  | [] => ""
  | c :: rest => String.mk ((c :: rest).takeWhile isWordChar)

namespace JVal

/-- JavaScript `v || d`. -/
def orElse (v d : JVal) : JVal := if v.truthy then v else d

/-- Property read `v.k` for a key that is neither inherited, nor `length`, nor an index:
a TypeError on `null` and `undefined`, the own property of an object, `undefined` on
any other value. -/
def prop (v : JVal) (k : String) : Except String JVal :=
  match v with
  | undefined => Except.error "TypeError"
  | null => Except.error "TypeError"
  | obj fields => Except.ok ((fields.lookup k).getD undefined)
  | _ => Except.ok undefined

/-- Optional chaining `v?.k` for such a key: it never throws. -/
def optProp (v : JVal) (k : String) : JVal :=
  match v with
  | obj fields => (fields.lookup k).getD undefined
  | _ => undefined

/-- The property `v.length` of a value that is neither `null` nor `undefined`. -/
def lengthOf : JVal → JVal
  | arr xs => num (JSNum.ofInt xs.length)
  | str s => num (JSNum.ofInt (jsLength s))
  | obj fields => (fields.lookup "length").getD undefined
  | _ => undefined

/-- The element `v[0]` of a value that is neither `null` nor `undefined` (of a string:
its first character, a string). -/
def first : JVal → JVal
  | arr xs => xs.headD undefined
  | str s =>
    match s.toList with
    | [] => undefined
    | c :: _ => str (String.singleton c)
  | obj fields => (fields.lookup "0").getD undefined
  | _ => undefined

/-- The values a `for (... of v)` loop runs over: the elements of an array, the
characters of a string, a TypeError on a value that is not iterable. -/
def iterate : JVal → Except String (List JVal)
  | arr xs => Except.ok xs
  | str s => Except.ok (s.toList.map (fun c => str (String.singleton c)))
  | _ => Except.error "TypeError"

/-- The test `v === 'output_text'`. -/
def isOutputText : JVal → Bool
  | str s => decide (s = "output_text")
  | _ => false

end JVal

/-- The string that `t || ''` becomes in a template literal or in `join`: a string is
itself, `true` is `"true"`, and the conversion of a Number, an array or an object is
the parameter `conv` (it may throw). -/
def textString (conv : JVal → Except String String) (t : JVal) : Except String String :=
  if t.truthy then
    match t with
    | JVal.str s => Except.ok s
    | JVal.bool _ => Except.ok "true"
    | v => conv v
  else Except.ok ""

/-- The call `parts.map((p) => p.text || '')` followed by the conversions of `join`. -/
def geminiPartTexts (conv : JVal → Except String String) :
    List JVal → Except String (List String)
  | [] => Except.ok []
  | p :: rest =>
    match p.prop "text" with
    | Except.error e => Except.error e
    | Except.ok t =>
      match textString conv t, geminiPartTexts conv rest with
      | Except.ok s, Except.ok ss => Except.ok (s :: ss)
      | Except.error e, _ => Except.error e
      | _, Except.error e => Except.error e

/-- The `try` block of `extractGeminiText(data)`. -/
def extractGeminiTextTry (conv : JVal → Except String String) (data : JVal) :
    Except String String :=
  match data.prop "candidates" with
  | Except.error e => Except.error e
  | Except.ok c =>
    let candidates := c.orElse (JVal.arr [])
    if !candidates.lengthOf.truthy then Except.ok ""
    else
      match candidates.first.prop "content" with
      | Except.error e => Except.error e
      | Except.ok content =>
        match (content.optProp "parts").orElse (JVal.arr []) with
        | JVal.arr ps =>
          match geminiPartTexts conv ps with
          | Except.ok ss => Except.ok (" ".intercalate ss)
          | Except.error e => Except.error e
        | _ => Except.error "TypeError"

/-- The function `extractGeminiText(data)` of `src/app.js`: the `catch` returns `''`. -/
def extractGeminiText (conv : JVal → Except String String) (data : JVal) : String :=
  match extractGeminiTextTry conv data with
  | Except.ok s => s
  | Except.error _ => ""

/-- The loop `for (const block of content)` of `aiOpenAI`, from the text built so far. -/
def openaiBlocks (conv : JVal → Except String String) :
    List JVal → String → Except String String
  | [], text => Except.ok text
  | block :: rest, text =>
    match block.prop "type" with
    | Except.error e => Except.error e
    | Except.ok t =>
      if t.isOutputText then
        match block.prop "text" with
        | Except.error e => Except.error e
        | Except.ok x =>
          match textString conv x with
          | Except.error e => Except.error e
          | Except.ok s => openaiBlocks conv rest (text ++ s ++ " ")
      else openaiBlocks conv rest text

/-- The loop `for (const item of output)` of `aiOpenAI`, from the text built so far. -/
def openaiItems (conv : JVal → Except String String) :
    List JVal → String → Except String String
  | [], text => Except.ok text
  | item :: rest, text =>
    match item.prop "content" with
    | Except.error e => Except.error e
    | Except.ok c =>
      match (c.orElse (JVal.arr [])).iterate with
      | Except.error e => Except.error e
      | Except.ok blocks =>
        match openaiBlocks conv blocks text with
        | Except.error e => Except.error e
        | Except.ok text2 => openaiItems conv rest text2

/-- The extraction of the text in `aiOpenAI`: the lines between `resp.json()` and
`firstWord(text)`. -/
def openaiText (conv : JVal → Except String String) (data : JVal) : Except String String :=
  match data.prop "output" with
  | Except.error e => Except.error e
  | Except.ok o =>
    match (o.orElse (JVal.arr [])).iterate with
    | Except.error e => Except.error e
    | Except.ok items => openaiItems conv items ""

/-- The request that `aiGemini(question)` sends. -/
def geminiRequest (acfg : AIConfig) (question : String) : FetchRequest :=
  { url := "https://generativelanguage.googleapis.com/v1beta/models/" ++
      "gemini-1.5-flash:generateContent?key=" ++ acfg.GEMINI_API_KEY
    method := "POST"
    headers := [("Content-Type", "application/json")]
    body := JVal.obj [("contents", JVal.arr [JVal.obj [("role", JVal.str "user"),
      ("parts", JVal.arr [JVal.obj [("text", JVal.str question)]])]])] }

/-- The function `aiGemini(question)` of `src/app.js`. -/
def aiGemini (acfg : AIConfig) (conv : JVal → Except String String)
    (net : FetchRequest → FetchReply) (question : String) : GatewayRun :=
  let req := geminiRequest acfg question
  match net req with
  | FetchReply.failed msg => { outcome := Except.error msg, fetches := [req] }
  | FetchReply.replied ok status json =>
    if !ok then
      { outcome := Except.error ("AI provider error: " ++ toString status), fetches := [req] }
    else
      match json with
      | Except.error msg => { outcome := Except.error msg, fetches := [req] }
      | Except.ok data =>
        { outcome := Except.ok (JVal.str (firstWord (extractGeminiText conv data)))
          fetches := [req] }

/-- The request that `aiOpenAI(question)` sends. -/
def openaiRequest (acfg : AIConfig) (question : String) : FetchRequest :=
  { url := "https://api.openai.com/v1/responses"
    method := "POST"
    headers := [("Content-Type", "application/json"),
      ("Authorization", "Bearer " ++ acfg.OPENAI_API_KEY)]
    body := JVal.obj [("model", JVal.str acfg.OPENAI_MODEL), ("input", JVal.str question),
      ("max_output_tokens", JVal.num (JSNum.fin 16))] }

/-- The function `aiOpenAI(question)` of `src/app.js`. -/
def aiOpenAI (acfg : AIConfig) (conv : JVal → Except String String)
    (net : FetchRequest → FetchReply) (question : String) : GatewayRun :=
  let req := openaiRequest acfg question
  match net req with
  | FetchReply.failed msg => { outcome := Except.error msg, fetches := [req] }
  | FetchReply.replied ok status json =>
    if !ok then
      { outcome := Except.error ("AI provider error: " ++ toString status), fetches := [req] }
    else
      match json with
      | Except.error msg => { outcome := Except.error msg, fetches := [req] }
      | Except.ok data =>
        match openaiText conv data with
        | Except.error e => { outcome := Except.error e, fetches := [req] }
        | Except.ok text => { outcome := Except.ok (JVal.str (firstWord text)), fetches := [req] }

/-- The function `aiSingleWord(question)` of `src/app.js`. -/
def aiSingleWord (acfg : AIConfig) (conv : JVal → Except String String)
    (net : FetchRequest → FetchReply) (question : String) : GatewayRun :=
  if acfg.AI_PROVIDER = "openai" then
    if acfg.OPENAI_API_KEY = "" then
      { outcome := Except.error "OPENAI_API_KEY not configured", fetches := [] }
    else aiOpenAI acfg conv net question
  else if acfg.GEMINI_API_KEY = "" then
    { outcome := Except.error "GEMINI_API_KEY not configured", fetches := [] }
  else aiGemini acfg conv net question

/-- What the handler sees of a run of the gateway: `catch (err)` does not look at the
error. -/
def GatewayRun.toOutcome (r : GatewayRun) : AIOutcome :=
  match r.outcome with
  | Except.ok word => AIOutcome.returned word
  | Except.error _ => AIOutcome.threw

/-- The gateway as the handler calls it. -/
def gateway (acfg : AIConfig) (conv : JVal → Except String String)
    (net : FetchRequest → FetchReply) : String → AIOutcome :=
  fun question => (aiSingleWord acfg conv net question).toOutcome

/-- Provider settings selecting `gemini`, with the given key. -/
def geminiSettings (key : String) : AIConfig :=
  { AI_PROVIDER := "gemini"
    GEMINI_API_KEY := key
    OPENAI_API_KEY := ""
    OPENAI_MODEL := "gpt-4o-mini" }

/-- Provider settings selecting `openai`, with the given key. -/
def openaiSettings (key : String) : AIConfig :=
  { AI_PROVIDER := "openai"
    GEMINI_API_KEY := ""
    OPENAI_API_KEY := key
    OPENAI_MODEL := "gpt-4o-mini" }

/-- An array of 53 primes below 1000000, within the default limits: the running product
of `lcmList` overflows to `Infinity` at the 52nd. -/
def overflowArray : List ℤ :=
  [999983, 999979, 999961, 999959, 999953, 999931, 999917, 999907, 999883, 999863,
    999853, 999809, 999773, 999769, 999763, 999749, 999727, 999721, 999683, 999671,
    999667, 999653, 999631, 999623, 999613, 999611, 999599, 999563, 999553, 999541,
    999529, 999521, 999499, 999491, 999451, 999437, 999433, 999431, 999389, 999377,
    999371, 999359, 999331, 999329, 999307, 999287, 999269, 999239, 999233, 999221,
    999217, 999199, 999181]

/-! ## Specification vocabulary -/

/-- The spec's wording of "n is a prime number". -/
def TrialPrime (n : ℤ) : Prop := 2 ≤ n ∧ ∀ d : ℤ, 2 ≤ d → d * d ≤ n → ¬ d ∣ n

/-- The Fibonacci recurrence carried out in double arithmetic, as `fibSeries` does. -/
def fibD : ℕ → JSNum
  | 0 => JSNum.fin 0
  | 1 => JSNum.fin 1
  | k + 2 => JSNum.add (fibD (k + 1)) (fibD k)

/-! ## Dispatcher: the exactly-one-key check -/

theorem validateItems_msg (cfg : Config) (xs : List JVal) (e : String)
    (h : validateItems cfg xs = some e) : e = "array value out of bounds" := by
  induction xs with
  | nil => simp [validateItems] at h
  | cons x rest ih =>
    simp only [validateItems] at h
    split at h
    · exact (Option.some.inj h).symm
    · exact ih h

theorem validateArray_msg (cfg : Config) (v : JVal) (label e : String)
    (h : validateArray cfg v label = some e) :
    e = label ++ " array must be non-empty" ∨ e = "array length out of bounds"
      ∨ e = "array value out of bounds" := by
  unfold validateArray at h
  split at h
  · split at h
    · exact Or.inl (Option.some.inj h).symm
    · split at h
      · exact Or.inr (Or.inl (Option.some.inj h).symm)
      · exact Or.inr (Or.inr (validateItems_msg cfg _ e h))
  · exact Or.inl (Option.some.inj h).symm

theorem activeKeys_of_not_truthy (v : JVal) (h : v.truthy = false) : activeKeys v = [] := by
  cases v <;> simp_all [activeKeys, JVal.hasOwn, JVal.truthy, keys]

theorem activeKeys_body (reqBody : JVal) :
    activeKeys (if reqBody.truthy then reqBody else JVal.obj []) = activeKeys reqBody := by
  cases h : reqBody.truthy
  · rw [activeKeys_of_not_truthy reqBody h]
    simp [activeKeys, JVal.hasOwn, keys]
  · simp

theorem errorResponse_ne_of_msg (cfg : Config) (s t : Nat) (m n : String) (h : m ≠ n) :
    (some (errorResponse cfg s m) : Option Response) ≠ some (errorResponse cfg t n) := by
  intro heq
  have h1 := congrArg (fun r => r.error) (Option.some.inj heq)
  simp only [errorResponse] at h1
  exact h (Option.some.inj h1)

theorem success_ne_error (cfg : Config) (d : JVal) (s : Nat) (m : String) :
    (some (successResponse cfg d) : Option Response) ≠ some (errorResponse cfg s m) := by
  intro heq
  have h1 := congrArg (fun r => r.is_success) (Option.some.inj heq)
  simp [successResponse, errorResponse] at h1

theorem map_success_ne_error {α : Type} (cfg : Config) (o : Option α) (f : α → JVal)
    (s : Nat) (m : String) :
    o.map (fun a => successResponse cfg (f a)) ≠ some (errorResponse cfg s m) := by
  intro heq
  cases o with
  | none => simp at heq
  | some a =>
    have h1 := congrArg (fun r => r.is_success) (Option.some.inj heq)
    simp [successResponse, errorResponse] at h1

/-- C1: the handler answers 400 "request must contain exactly one key" exactly when the
number of recognised keys that are own properties of the body differs from 1; the body
with both `fibonacci` and `prime` is rejected with that error. -/
theorem handler_exactly_one_key (cfg : Config) (fuel : Nat) (ai : String → AIOutcome)
    (reqBody : JVal) :
    (handler cfg fuel ai reqBody
        = some (errorResponse cfg 400 "request must contain exactly one key")
      ↔ (activeKeys reqBody).length ≠ 1)
    ∧ handler cfg fuel ai (JVal.obj [("fibonacci", JVal.num (JSNum.fin 5)),
          ("prime", JVal.arr [JVal.num (JSNum.fin 2)])])
        = some (errorResponse cfg 400 "request must contain exactly one key") := by
  refine ⟨?_, ?_⟩
  · constructor
    · intro h hlen
      rw [← activeKeys_body] at hlen
      unfold handler at h
      simp only [hlen, ne_eq, not_true_eq_false, if_false] at h
      revert h
      generalize (if reqBody.truthy then reqBody else JVal.obj []) = body
      split_ifs
      · split
        · exact errorResponse_ne_of_msg cfg _ _ _ _ (by decide)
        · split_ifs
          · exact errorResponse_ne_of_msg cfg _ _ _ _ (by decide)
          · exact success_ne_error cfg _ _ _
      · split
        · rename_i err herr
          rcases validateArray_msg cfg _ _ _ herr with h | h | h <;> subst h <;>
            exact errorResponse_ne_of_msg cfg _ _ _ _ (by decide)
        · exact map_success_ne_error cfg _ _ _ _
      · split
        · rename_i err herr
          rcases validateArray_msg cfg _ _ _ herr with h | h | h <;> subst h <;>
            exact errorResponse_ne_of_msg cfg _ _ _ _ (by decide)
        · exact map_success_ne_error cfg _ _ _ _
      · split
        · rename_i err herr
          rcases validateArray_msg cfg _ _ _ herr with h | h | h <;> subst h <;>
            exact errorResponse_ne_of_msg cfg _ _ _ _ (by decide)
        · exact map_success_ne_error cfg _ _ _ _
      · split
        · split_ifs
          · exact errorResponse_ne_of_msg cfg _ _ _ _ (by decide)
          · exact errorResponse_ne_of_msg cfg _ _ _ _ (by decide)
          · split
            · exact success_ne_error cfg _ _ _
            · exact errorResponse_ne_of_msg cfg _ _ _ _ (by decide)
        · exact errorResponse_ne_of_msg cfg _ _ _ _ (by decide)
      · exact errorResponse_ne_of_msg cfg _ _ _ _ (by decide)
    · intro hlen
      rw [← activeKeys_body] at hlen
      unfold handler
      simp only [hlen, ne_eq, not_false_eq_true, if_true]
  · unfold handler
    simp [JVal.truthy, activeKeys, keys, JVal.hasOwn]


/-! ## Facts about rounding -/

theorem roundHalfEven_intCast (m : ℤ) : roundHalfEven (m : ℚ) = m := by
  simp [roundHalfEven]

theorem floor_le_roundHalfEven (x : ℚ) : ⌊x⌋ ≤ roundHalfEven x := by
  unfold roundHalfEven
  simp only
  split_ifs <;> omega

theorem intLog_eq (q : ℚ) (e : ℤ) (h1 : (2 : ℚ) ^ e ≤ q) (h2 : q < (2 : ℚ) ^ (e + 1)) :
    Int.log 2 q = e := by
  have hpos : 0 < q := lt_of_lt_of_le (by positivity) h1
  apply le_antisymm
  · have := (Int.lt_zpow_iff_log_lt (b := 2) (by norm_num) hpos).mp (by exact_mod_cast h2)
    omega
  · exact (Int.zpow_le_iff_le_log (b := 2) (by norm_num) hpos).mp (by exact_mod_cast h1)

theorem fl_of_exact (q : ℚ) (m : ℤ) (hq : q ≠ 0) (he : -1022 ≤ Int.log 2 |q|)
    (hm : q / 2 ^ (Int.log 2 |q| - 52) = m) (hlt : |q| < 2 ^ 1024) : fl q = JSNum.fin q := by
  have hu : (2 : ℚ) ^ (Int.log 2 |q| - 52) ≠ 0 := by positivity
  have hr : (m : ℚ) * 2 ^ (Int.log 2 |q| - 52) = q := by
    rw [← hm, div_mul_cancel₀ _ hu]
  unfold fl
  simp only [hq, if_false, max_eq_left he, hm, roundHalfEven_intCast, hr]
  rw [if_neg (not_le.mpr hlt)]

theorem fl_intCast (z : ℤ) (h : |z| ≤ 2 ^ 53) : fl (z : ℚ) = JSNum.fin z := by
  by_cases hz : z = 0
  · subst hz
    simp [fl]
  have hq : (z : ℚ) ≠ 0 := by exact_mod_cast hz
  have hpos : 0 < |(z : ℚ)| := abs_pos.mpr hq
  have h1 : (1 : ℚ) ≤ |(z : ℚ)| := by
    have : (1 : ℤ) ≤ |z| := Int.one_le_abs hz
    exact_mod_cast this
  have hle : |(z : ℚ)| ≤ 2 ^ 53 := by exact_mod_cast h
  have he0 : 0 ≤ Int.log 2 |(z : ℚ)| :=
    (Int.zpow_le_iff_le_log (b := 2) (by norm_num) hpos).mp (by simpa using h1)
  have he1 : Int.log 2 |(z : ℚ)| < 54 :=
    (Int.lt_zpow_iff_log_lt (b := 2) (by norm_num) hpos).mp
      (lt_of_le_of_lt hle (by norm_num))
  have hlow := Int.zpow_log_le_self (b := 2) (by norm_num) hpos
  obtain ⟨e, hedef⟩ : ∃ e, Int.log 2 |(z : ℚ)| = e := ⟨_, rfl⟩
  rw [hedef] at he0 he1 hlow
  by_cases hk : e ≤ 52
  · obtain ⟨n, hn⟩ : ∃ n : ℕ, (52 - e) = n := ⟨(52 - e).toNat, by omega⟩
    refine fl_of_exact z (z * 2 ^ n) hq (by omega) ?_ (lt_of_le_of_lt hle (by norm_num))
    rw [hedef]
    have : e - 52 = -(n : ℤ) := by omega
    rw [this, zpow_neg, zpow_natCast]
    push_cast
    field_simp
  · have he : e = 53 := by omega
    subst he
    have habs : |(z : ℚ)| = 2 ^ 53 := by
      refine le_antisymm hle ?_
      have h53 : ((2 : ℕ) : ℚ) ^ (53 : ℤ) = 2 ^ 53 := by norm_num
      rw [← h53]
      exact hlow
    have habsz : |z| = 2 ^ 53 := by exact_mod_cast habs
    refine fl_of_exact z (z / 2) hq (by omega) ?_ (lt_of_le_of_lt hle (by norm_num))
    rw [hedef]
    have h2 : (2 : ℤ) ∣ z := by
      rcases abs_cases z with ⟨h', _⟩ | ⟨h', _⟩ <;> omega
    obtain ⟨c, hc⟩ := h2
    subst hc
    norm_num

theorem fl_ge (q : ℚ) (h : 2 ^ 53 ≤ q) :
    fl q = JSNum.posInf ∨ ∃ r, fl q = JSNum.fin r ∧ 2 ^ 53 ≤ r := by
  have hpos : 0 < q := lt_of_lt_of_le (by positivity) h
  have hq : q ≠ 0 := ne_of_gt hpos
  have habs : |q| = q := abs_of_pos hpos
  have he : 53 ≤ Int.log 2 q :=
    (Int.zpow_le_iff_le_log (b := 2) (by norm_num) hpos).mp (by
      have h53 : ((2 : ℕ) : ℚ) ^ (53 : ℤ) = 2 ^ 53 := by norm_num
      rw [h53]
      exact h)
  have hlow := Int.zpow_log_le_self (b := 2) (by norm_num) hpos
  unfold fl
  simp only [hq, if_false, habs, hpos, if_true]
  rw [max_eq_left (by omega)]
  split_ifs
  · exact Or.inl rfl
  · refine Or.inr ⟨_, rfl, ?_⟩
    obtain ⟨e, hedef⟩ : ∃ e, Int.log 2 q = e := ⟨_, rfl⟩
    rw [hedef] at he hlow ⊢
    have hu : (0 : ℚ) < 2 ^ (e - 52) := by positivity
    have hx : ((2 ^ 52 : ℤ) : ℚ) ≤ q / 2 ^ (e - 52) := by
      rw [le_div_iff₀ hu]
      have h52 : ((2 ^ 52 : ℤ) : ℚ) = (2 : ℚ) ^ (52 : ℤ) := by norm_num
      rw [h52, ← zpow_add₀ (by norm_num : (2 : ℚ) ≠ 0)]
      have : (52 : ℤ) + (e - 52) = e := by ring
      rw [this]
      simpa using hlow
    have hfl : (2 ^ 52 : ℤ) ≤ ⌊q / 2 ^ (e - 52)⌋ := Int.le_floor.mpr hx
    have hm := le_trans hfl (floor_le_roundHalfEven _)
    have hmq : ((2 ^ 52 : ℤ) : ℚ) ≤ (roundHalfEven (q / 2 ^ (e - 52)) : ℚ) := by
      exact_mod_cast hm
    calc (2 : ℚ) ^ 53 = 2 ^ 52 * 2 ^ (1 : ℤ) := by norm_num
      _ ≤ 2 ^ 52 * 2 ^ (e - 52) := by
          apply mul_le_mul_of_nonneg_left _ (by positivity)
          exact zpow_le_zpow_right₀ (by norm_num) (by omega)
      _ ≤ roundHalfEven (q / 2 ^ (e - 52)) * 2 ^ (e - 52) := by
          apply mul_le_mul_of_nonneg_right _ (le_of_lt hu)
          simpa using hmq

/-! ## Arithmetic on integral Numbers -/

theorem add_ofInt (a b : ℤ) (h : |a + b| ≤ 2 ^ 53) :
    JSNum.add (JSNum.ofInt a) (JSNum.ofInt b) = JSNum.ofInt (a + b) := by
  simp only [JSNum.ofInt, JSNum.add]
  rw [← Int.cast_add, fl_intCast _ h]

theorem mul_ofInt (a b : ℤ) (h : |a * b| ≤ 2 ^ 53) :
    JSNum.mul (JSNum.ofInt a) (JSNum.ofInt b) = JSNum.ofInt (a * b) := by
  simp only [JSNum.ofInt, JSNum.mul]
  rw [← Int.cast_mul, fl_intCast _ h]

theorem mod_ofInt (a b : ℤ) (ha : 0 ≤ a) (hb : 0 < b) :
    JSNum.mod (JSNum.ofInt a) (JSNum.ofInt b) = JSNum.ofInt (a % b) := by
  have hbq : (b : ℚ) ≠ 0 := by exact_mod_cast (ne_of_gt hb)
  have hnn : (0 : ℚ) ≤ (a : ℚ) / (b : ℚ) :=
    div_nonneg (by exact_mod_cast ha) (by exact_mod_cast (le_of_lt hb))
  have hfl : ⌊(a : ℚ) / (b : ℚ)⌋ = a / b := by
    obtain ⟨n, rfl⟩ := Int.eq_ofNat_of_zero_le (le_of_lt hb)
    exact_mod_cast Rat.floor_intCast_div_natCast a n
  simp only [JSNum.ofInt, JSNum.mod, hbq, if_false, truncQ, hnn, if_true, hfl]
  congr 1
  have := Int.emod_add_ediv a b
  have h2 : (a : ℚ) = ((a % b : ℤ) : ℚ) + (b : ℚ) * ((a / b : ℤ) : ℚ) := by exact_mod_cast this.symm
  linarith

theorem strictEq_ofInt (a b : ℤ) :
    JSNum.strictEq (JSNum.ofInt a) (JSNum.ofInt b) = decide (a = b) := by
  simp [JSNum.ofInt, JSNum.strictEq]

theorem le_ofInt (a b : ℤ) : JSNum.le (JSNum.ofInt a) (JSNum.ofInt b) = decide (a ≤ b) := by
  simp [JSNum.ofInt, JSNum.le]

theorem lt_ofInt (a b : ℤ) : JSNum.lt (JSNum.ofInt a) (JSNum.ofInt b) = decide (a < b) := by
  simp [JSNum.ofInt, JSNum.lt]

theorem abs_ofInt (a : ℤ) : JSNum.abs (JSNum.ofInt a) = JSNum.ofInt |a| := by
  simp [JSNum.ofInt, JSNum.abs]

/-- An integer that is the value of a double is at most `2^53` in magnitude, or even. -/
theorem isDouble_int (z : ℤ) (h : JSNum.IsDouble (z : ℚ)) : |z| ≤ 2 ^ 53 ∨ 2 ∣ z := by
  by_contra hcon
  push_neg at hcon
  obtain ⟨hbig, hodd⟩ := hcon
  have hz : (z : ℚ) ≠ 0 := by
    intro h0
    have : z = 0 := by exact_mod_cast h0
    subst this
    simp at hbig
  have hpos : 0 < |(z : ℚ)| := abs_pos.mpr hz
  have hbigq : (2 : ℚ) ^ 53 ≤ |(z : ℚ)| := by
    have : (2 : ℤ) ^ 53 ≤ |z| := le_of_lt hbig
    exact_mod_cast this
  have he : 53 ≤ Int.log 2 |(z : ℚ)| :=
    (Int.zpow_le_iff_le_log (b := 2) (by norm_num) hpos).mp (by
      have h53 : ((2 : ℕ) : ℚ) ^ (53 : ℤ) = 2 ^ 53 := by norm_num
      rw [h53]
      exact hbigq)
  unfold JSNum.IsDouble fl at h
  simp only [hz, if_false] at h
  rw [max_eq_left (by omega)] at h
  split_ifs at h
  obtain ⟨n, hn⟩ : ∃ n : ℕ, Int.log 2 |(z : ℚ)| - 52 = (n : ℤ) + 1 :=
    ⟨(Int.log 2 |(z : ℚ)| - 53).toNat, by omega⟩
  rw [hn] at h
  have h2 := JSNum.fin.inj h
  rw [zpow_add₀ (by norm_num : (2 : ℚ) ≠ 0), zpow_natCast, zpow_one] at h2
  generalize roundHalfEven ((z : ℚ) / (2 ^ n * 2)) = m at h2
  have h3 : m * 2 ^ n * 2 = z := by
    have : ((m * 2 ^ n * 2 : ℤ) : ℚ) = (z : ℚ) := by
      push_cast
      linarith
    exact_mod_cast this
  exact hodd ⟨m * 2 ^ n, by rw [← h3]; ring⟩

theorem isDouble_of_abs_le (z : ℤ) (h : |z| ≤ 2 ^ 53) : JSNum.IsDouble (z : ℚ) :=
  fl_intCast z h

/-- An integer that is the value of a double is a significand below `2^53` times a power
of two, and is below `2^1024` in magnitude. -/
theorem isDouble_int_repr (z : ℤ) (h : JSNum.IsDouble (z : ℚ)) :
    ∃ (m : ℤ) (k : ℕ), z = m * 2 ^ k ∧ |m| < 2 ^ 53 ∧ |(z : ℚ)| < 2 ^ 1024 := by
  by_cases hsmall : |z| < 2 ^ 53
  · refine ⟨z, 0, by simp, hsmall, ?_⟩
    have h1 : |(z : ℚ)| < 2 ^ 53 := by exact_mod_cast hsmall
    exact lt_trans h1 (by norm_num)
  · push_neg at hsmall
    have hz : (z : ℚ) ≠ 0 := by
      intro h0
      have : z = 0 := by exact_mod_cast h0
      subst this
      simp at hsmall
    have hpos : 0 < |(z : ℚ)| := abs_pos.mpr hz
    have hbigq : (2 : ℚ) ^ 53 ≤ |(z : ℚ)| := by exact_mod_cast hsmall
    have he : 53 ≤ Int.log 2 |(z : ℚ)| :=
      (Int.zpow_le_iff_le_log (b := 2) (by norm_num) hpos).mp (by
        have h53 : ((2 : ℕ) : ℚ) ^ (53 : ℤ) = 2 ^ 53 := by norm_num
        rw [h53]
        exact hbigq)
    have hup := Int.lt_zpow_succ_log_self (b := 2) (by norm_num) |(z : ℚ)|
    unfold JSNum.IsDouble fl at h
    simp only [hz, if_false] at h
    rw [max_eq_left (by omega)] at h
    split_ifs at h with hov
    obtain ⟨n, hn⟩ : ∃ n : ℕ, Int.log 2 |(z : ℚ)| - 52 = (n : ℤ) :=
      ⟨(Int.log 2 |(z : ℚ)| - 52).toNat, by omega⟩
    have hn1 : Int.log 2 |(z : ℚ)| + 1 = ((53 + n : ℕ) : ℤ) := by
      push_cast
      omega
    rw [hn] at h hov
    rw [hn1, zpow_natCast] at hup
    have h2 := JSNum.fin.inj h
    rw [h2] at hov
    rw [zpow_natCast] at h2
    generalize roundHalfEven ((z : ℚ) / 2 ^ n) = m at h2
    have h3 : m * 2 ^ n = z := by
      have : ((m * 2 ^ n : ℤ) : ℚ) = (z : ℚ) := by
        push_cast
        exact h2
      exact_mod_cast this
    refine ⟨m, n, h3.symm, ?_, not_le.mp hov⟩
    have hup2 : |z| < 2 ^ (53 + n) := by
      have : |(z : ℚ)| < ((2 ^ (53 + n) : ℤ) : ℚ) := by
        push_cast
        exact_mod_cast hup
      exact_mod_cast this
    rw [← h3, abs_mul, abs_of_pos (by positivity : (0 : ℤ) < 2 ^ n), pow_add] at hup2
    exact lt_of_mul_lt_mul_right hup2 (by positivity)

/-- A significand below `2^53` times a power of two is the value of a double, short of
overflow. -/
theorem isDouble_of_repr (m : ℤ) (k : ℕ) (hm : |m| < 2 ^ 53)
    (hlt : |((m * 2 ^ k : ℤ) : ℚ)| < 2 ^ 1024) : JSNum.IsDouble ((m * 2 ^ k : ℤ) : ℚ) := by
  by_cases hm0 : m = 0
  · subst hm0
    simp [JSNum.IsDouble, fl]
  have hz0 : m * 2 ^ k ≠ 0 := mul_ne_zero hm0 (by positivity)
  generalize hzdef : m * 2 ^ k = z at hz0 hlt ⊢
  have hz : (z : ℚ) ≠ 0 := by exact_mod_cast hz0
  have hpos : 0 < |(z : ℚ)| := abs_pos.mpr hz
  have h1 : (1 : ℚ) ≤ |(z : ℚ)| := by
    have : (1 : ℤ) ≤ |z| := Int.one_le_abs hz0
    exact_mod_cast this
  have he0 : 0 ≤ Int.log 2 |(z : ℚ)| :=
    (Int.zpow_le_iff_le_log (b := 2) (by norm_num) hpos).mp (by simpa using h1)
  have hub : |z| < 2 ^ (53 + k) := by
    rw [← hzdef, abs_mul, abs_of_pos (by positivity : (0 : ℤ) < 2 ^ k), pow_add]
    exact mul_lt_mul_of_pos_right hm (by positivity)
  have hubq : |(z : ℚ)| < ((2 : ℕ) : ℚ) ^ (((53 + k : ℕ)) : ℤ) := by
    have : |(z : ℚ)| < ((2 ^ (53 + k) : ℤ) : ℚ) := by exact_mod_cast hub
    rw [zpow_natCast]
    push_cast at this ⊢
    exact this
  have he1 : Int.log 2 |(z : ℚ)| < ((53 + k : ℕ) : ℤ) :=
    (Int.lt_zpow_iff_log_lt (b := 2) (by norm_num) hpos).mp hubq
  obtain ⟨e, hedef⟩ : ∃ e, Int.log 2 |(z : ℚ)| = e := ⟨_, rfl⟩
  rw [hedef] at he0 he1
  push_cast at he1
  obtain ⟨n, hn⟩ : ∃ n : ℕ, (k : ℤ) + 52 - e = n := ⟨((k : ℤ) + 52 - e).toNat, by omega⟩
  refine fl_of_exact z (m * 2 ^ n) hz (by omega) ?_ hlt
  rw [hedef]
  have hexp : e - 52 = (k : ℤ) - (n : ℤ) := by omega
  rw [hexp, zpow_sub₀ (by norm_num : (2 : ℚ) ≠ 0), zpow_natCast, zpow_natCast, ← hzdef]
  push_cast
  field_simp
  ring

theorem repr_of_mul_eq :
    ∀ (k : ℕ) (m g z : ℤ), g * z = m * 2 ^ k → |m| < 2 ^ 53 → g ≠ 0 →
      ∃ (w : ℤ) (j : ℕ), z = w * 2 ^ j ∧ |w| < 2 ^ 53 := by
  intro k
  induction k with
  | zero =>
    intro m g z h hm hg
    refine ⟨z, 0, by simp, ?_⟩
    by_cases hz : z = 0
    · subst hz
      simp
    · have hdvd : z ∣ m := ⟨g, by rw [pow_zero, mul_one] at h; rw [← h]; ring⟩
      have hm0 : m ≠ 0 := by
        rintro rfl
        simp at h
        rcases h with h | h
        · exact hg h
        · exact hz h
      have := Int.le_of_dvd (abs_pos.mpr hm0) ((dvd_abs z m).mpr hdvd)
      have h2 : |z| ≤ |m| := by
        rcases abs_cases z with ⟨h', _⟩ | ⟨h', _⟩
        · rw [h']; exact this
        · rw [h']
          exact Int.le_of_dvd (abs_pos.mpr hm0) ((dvd_abs (-z) m).mpr ((neg_dvd).mpr hdvd))
      exact lt_of_le_of_lt h2 hm
  | succ k ih =>
    intro m g z h hm hg
    have h2 : (2 : ℤ) ∣ g * z := ⟨m * 2 ^ k, by rw [h]; ring⟩
    rcases (Int.prime_two.dvd_or_dvd h2) with ⟨g', hg'⟩ | ⟨z', hz'⟩
    · subst hg'
      refine ih m g' z ?_ hm (by rintro rfl; simp at hg)
      have : (2 : ℤ) * (g' * z) = 2 * (m * 2 ^ k) := by rw [← mul_assoc, h]; ring
      exact mul_left_cancel₀ (by norm_num) this
    · subst hz'
      obtain ⟨w, j, hw, hwm⟩ := ih m g z' (by
        have : (2 : ℤ) * (g * z') = 2 * (m * 2 ^ k) := by
          rw [pow_succ] at h
          linarith
        exact mul_left_cancel₀ (by norm_num) this) hm hg
      exact ⟨w, j + 1, by rw [hw]; ring, hwm⟩

/-- The exact quotient of an integral double by a divisor is a double. -/
theorem isDouble_ediv (p g : ℤ) (hdvd : g ∣ p) (hg : g ≠ 0) (hp : JSNum.IsDouble (p : ℚ)) :
    JSNum.IsDouble ((p / g : ℤ) : ℚ) := by
  obtain ⟨m, k, hpk, hm, hlt⟩ := isDouble_int_repr p hp
  obtain ⟨z, hz⟩ := hdvd
  have hq : p / g = z := by rw [hz, Int.mul_ediv_cancel_left _ hg]
  rw [hq]
  obtain ⟨w, j, hw, hwm⟩ := repr_of_mul_eq k m g z (by rw [← hz, hpk]) hm hg
  rw [hw]
  refine isDouble_of_repr w j hwm ?_
  rw [← hw]
  refine lt_of_le_of_lt ?_ hlt
  have hzp : |z| ≤ |p| := by
    rw [hz, abs_mul]
    have : 1 ≤ |g| := Int.one_le_abs hg
    nlinarith [abs_nonneg z]
  exact_mod_cast hzp

theorem isDouble_abs (p : ℤ) (hp : JSNum.IsDouble (p : ℚ)) : JSNum.IsDouble ((|p| : ℤ) : ℚ) := by
  obtain ⟨m, k, hpk, hm, hlt⟩ := isDouble_int_repr p hp
  have h : |p| = |m| * 2 ^ k := by
    rw [hpk, abs_mul, abs_of_pos (by positivity : (0 : ℤ) < 2 ^ k)]
  rw [h]
  refine isDouble_of_repr |m| k (by rw [abs_abs]; exact hm) ?_
  rw [← h]
  push_cast
  rw [abs_abs]
  exact hlt

/-! ## Primality test -/

theorem trialPrime_iff_prime (n : ℤ) : TrialPrime n ↔ Nat.Prime n.toNat := by
  unfold TrialPrime
  rw [Nat.prime_def_le_sqrt]
  constructor
  · rintro ⟨h2, h⟩
    refine ⟨by omega, fun m hm hs hdvd => ?_⟩
    have hmm : m * m ≤ n.toNat := Nat.le_sqrt.mp hs
    refine h m (by exact_mod_cast hm) ?_ ?_
    · have : ((m * m : ℕ) : ℤ) ≤ (n.toNat : ℤ) := by exact_mod_cast hmm
      rw [Int.toNat_of_nonneg (by omega)] at this
      exact_mod_cast this
    · have : ((m : ℕ) : ℤ) ∣ (n.toNat : ℤ) := by exact_mod_cast hdvd
      rwa [Int.toNat_of_nonneg (by omega)] at this
  · rintro ⟨h2, h⟩
    have hn : 2 ≤ n := by omega
    refine ⟨hn, fun d hd hdd hdvd => ?_⟩
    obtain ⟨m, rfl⟩ := Int.eq_ofNat_of_zero_le (by omega : 0 ≤ d)
    refine h m (by exact_mod_cast hd) (Nat.le_sqrt.mpr ?_) ?_
    · have : ((m * m : ℕ) : ℤ) ≤ (n.toNat : ℤ) := by
        rw [Int.toNat_of_nonneg (by omega)]
        exact_mod_cast hdd
      exact_mod_cast this
    · have : ((m : ℕ) : ℤ) ∣ (n.toNat : ℤ) := by
        rwa [Int.toNat_of_nonneg (by omega)]
      exact_mod_cast this

/-- The loop test `i * i <= n` is exact for `n` below `2^53`, whatever `i` is. -/
theorem le_mul_self_ofInt (i n : ℤ) (hn : n < 2 ^ 53) :
    JSNum.le (JSNum.mul (JSNum.ofInt i) (JSNum.ofInt i)) (JSNum.ofInt n)
      = decide (i * i ≤ n) := by
  by_cases h : i * i ≤ 2 ^ 53
  · rw [mul_ofInt i i (by rw [abs_of_nonneg (mul_self_nonneg i)]; exact h), le_ofInt]
  · push_neg at h
    have hq : (2 : ℚ) ^ 53 ≤ (i : ℚ) * (i : ℚ) := by
      have : (2 : ℤ) ^ 53 ≤ i * i := le_of_lt h
      exact_mod_cast this
    have hnq : (n : ℚ) < 2 ^ 53 := by exact_mod_cast hn
    have hfalse : ¬ i * i ≤ n := by omega
    simp only [JSNum.ofInt, JSNum.mul, hfalse, decide_False]
    rcases fl_ge _ hq with h1 | ⟨r, h1, h2⟩
    · rw [h1]
      rfl
    · rw [h1]
      simp only [JSNum.le, decide_eq_false_iff_not, not_le]
      linarith

theorem isPrimeLoop_correct (n : ℤ) (hn5 : 5 ≤ n) (hnb : n < 2 ^ 53) (h2 : ¬ 2 ∣ n)
    (h3 : ¬ 3 ∣ n) :
    ∀ (fuel : ℕ) (i : ℤ), 5 ≤ i → i % 6 = 5 → (i = 5 ∨ (i - 6) * (i - 6) ≤ n) →
      (∀ d : ℤ, 2 ≤ d → d < i → ¬ d ∣ n) → n + 6 ≤ i + 6 * fuel →
      ∃ b, isPrimeLoop fuel (JSNum.ofInt n) (JSNum.ofInt i) = some b
        ∧ (b = true ↔ TrialPrime n) := by
  intro fuel
  induction fuel with
  | zero =>
    intro i hi5 _ hprev _ hfuel
    exfalso
    rcases hprev with h | h
    · omega
    · have : n ≤ i - 6 := by omega
      nlinarith
  | succ fuel ih =>
    intro i hi5 himod hprev hinv hfuel
    have e0 : JSNum.fin 0 = JSNum.ofInt 0 := by simp [JSNum.ofInt]
    have e2 : JSNum.fin 2 = JSNum.ofInt 2 := by simp [JSNum.ofInt]
    have e6 : JSNum.fin 6 = JSNum.ofInt 6 := by simp [JSNum.ofInt]
    unfold isPrimeLoop
    rw [le_mul_self_ofInt i n hnb]
    by_cases hsq : i * i ≤ n
    · have hi5n : 5 * i ≤ n := by nlinarith
      rw [e0, e2, e6, add_ofInt i 2 (by rw [abs_of_nonneg (by omega)]; omega),
        add_ofInt i 6 (by rw [abs_of_nonneg (by omega)]; omega),
        mod_ofInt n i (by omega) (by omega), mod_ofInt n (i + 2) (by omega) (by omega),
        strictEq_ofInt, strictEq_ofInt]
      simp only [hsq, decide_True, if_true]
      by_cases hdiv : n % i = 0 ∨ n % (i + 2) = 0
      · refine ⟨false, ?_, ?_⟩
        · rcases hdiv with h | h <;> simp [h]
        · simp only [Bool.false_eq_true, false_iff]
          rintro ⟨_, hall⟩
          rcases hdiv with h | h
          · exact hall i (by omega) hsq (Int.dvd_of_emod_eq_zero h)
          · obtain ⟨c, hc⟩ := Int.dvd_of_emod_eq_zero h
            have hc2 : 2 ≤ c := by
              by_contra hlt
              have : c ≤ 1 := by omega
              nlinarith
            refine hall c hc2 ?_ ⟨i + 2, by rw [hc]; ring⟩
            by_cases hbig : (i + 2) * (i + 2) ≤ n
            · exfalso
              exact hall (i + 2) (by omega) hbig (Int.dvd_of_emod_eq_zero h)
            · push_neg at hbig
              have : c < i + 2 := by
                by_contra hge
                push_neg at hge
                nlinarith
              nlinarith
      · push_neg at hdiv
        obtain ⟨hd1, hd2⟩ := hdiv
        simp only [hd1, hd2, decide_False, Bool.or_self, Bool.false_eq_true, if_false]
        refine ih (i + 6) (by omega) (by omega) (Or.inr (by simpa using hsq)) ?_ (by omega)
        intro d hd2' hdlt hdvd
        by_cases hlt : d < i
        · exact hinv d hd2' hlt hdvd
        · have hcases : d = i ∨ d = i + 1 ∨ d = i + 2 ∨ d = i + 3 ∨ d = i + 4 ∨ d = i + 5 := by
            omega
          rcases hcases with h | h | h | h | h | h
          · subst h
            exact hd1 (Int.emod_eq_zero_of_dvd hdvd)
          · exact h2 (dvd_trans (by omega) hdvd)
          · subst h
            exact hd2 (Int.emod_eq_zero_of_dvd hdvd)
          · exact h2 (dvd_trans (by omega) hdvd)
          · exact h3 (dvd_trans (by omega) hdvd)
          · exact h2 (dvd_trans (by omega) hdvd)
    · simp only [hsq, decide_False, Bool.false_eq_true, if_false]
      refine ⟨true, rfl, ?_⟩
      simp only [true_iff]
      refine ⟨by omega, fun d hd hdd hdvd => ?_⟩
      refine hinv d hd ?_ hdvd
      by_contra hge
      push_neg at hge
      push_neg at hsq
      nlinarith

theorem isPrime_ofInt (n : ℤ) (hd : JSNum.IsDouble (n : ℚ)) (fuel : ℕ)
    (hf : n.toNat ≤ fuel) :
    ∃ b, isPrime fuel (JSNum.ofInt n) = some b ∧ (b = true ↔ TrialPrime n) := by
  have e1 : JSNum.fin 1 = JSNum.ofInt 1 := by simp [JSNum.ofInt]
  have e3 : JSNum.fin 3 = JSNum.ofInt 3 := by simp [JSNum.ofInt]
  have e0 : JSNum.fin 0 = JSNum.ofInt 0 := by simp [JSNum.ofInt]
  have e2 : JSNum.fin 2 = JSNum.ofInt 2 := by simp [JSNum.ofInt]
  have e5 : JSNum.fin 5 = JSNum.ofInt 5 := by simp [JSNum.ofInt]
  unfold isPrime
  rw [e1, e3, e0, e2, e5, le_ofInt, le_ofInt]
  by_cases h1 : n ≤ 1
  · refine ⟨false, by simp [h1], ?_⟩
    simp only [Bool.false_eq_true, false_iff]
    rintro ⟨h, _⟩
    omega
  by_cases h3 : n ≤ 3
  · refine ⟨true, by simp [h1, h3], ?_⟩
    simp only [true_iff]
    refine ⟨by omega, fun d hd hdd _ => ?_⟩
    nlinarith
  rw [mod_ofInt n 2 (by omega) (by omega), mod_ofInt n 3 (by omega) (by omega),
    strictEq_ofInt, strictEq_ofInt]
  simp only [h1, h3, decide_False, Bool.false_eq_true, if_false]
  by_cases hdiv : n % 2 = 0 ∨ n % 3 = 0
  · refine ⟨false, ?_, ?_⟩
    · rcases hdiv with h | h <;> simp [h]
    · simp only [Bool.false_eq_true, false_iff]
      rintro ⟨_, hall⟩
      by_cases h2 : n % 2 = 0
      · exact hall 2 (by omega) (by omega) (Int.dvd_of_emod_eq_zero h2)
      · have h3' : n % 3 = 0 := by tauto
        exact hall 3 (by omega) (by omega) (Int.dvd_of_emod_eq_zero h3')
  · push_neg at hdiv
    obtain ⟨hd2, hd3⟩ := hdiv
    simp only [hd2, hd3, decide_False, Bool.or_self, Bool.false_eq_true, if_false]
    have hnd2 : ¬ (2 : ℤ) ∣ n := fun h => hd2 (Int.emod_eq_zero_of_dvd h)
    have hnd3 : ¬ (3 : ℤ) ∣ n := fun h => hd3 (Int.emod_eq_zero_of_dvd h)
    have hb : n < 2 ^ 53 := by
      rcases isDouble_int n hd with h | h
      · rw [abs_of_nonneg (by omega)] at h
        rcases lt_or_eq_of_le h with h' | h'
        · exact h'
        · exfalso
          apply hnd2
          rw [h']
          norm_num
      · exact absurd h hnd2
    refine isPrimeLoop_correct n (by omega) hb hnd2 hnd3 fuel 5 (by omega) (by omega)
      (Or.inl rfl) ?_ (by omega)
    intro d hd2' hdlt hdvd
    have hcases : d = 2 ∨ d = 3 ∨ d = 4 := by omega
    rcases hcases with h | h | h
    · exact hnd2 (h ▸ hdvd)
    · exact hnd3 (h ▸ hdvd)
    · exact hnd2 (dvd_trans (by omega) hdvd)

/-- C2: on every integer `n` that is a Number, `isPrime(n)` returns, and it returns
`true` exactly when `n` is prime (`n >= 2` and no `d` with `2 <= d`, `d*d <= n` divides
`n`): the trial division by `6k±1` misses no divisor. -/
theorem isPrime_iff_prime (n : ℤ) (hd : JSNum.IsDouble (n : ℚ)) (fuel : ℕ)
    (hf : n.toNat ≤ fuel) :
    ∃ b, isPrime fuel (JSNum.ofInt n) = some b
      ∧ (b = true ↔ (2 ≤ n ∧ ∀ d : ℤ, 2 ≤ d → d * d ≤ n → ¬ d ∣ n))
      ∧ (b = true ↔ Nat.Prime n.toNat) := by
  obtain ⟨b, hb, hiff⟩ := isPrime_ofInt n hd fuel hf
  exact ⟨b, hb, hiff, hiff.trans (trialPrime_iff_prime n)⟩

/-- Witness of C2: the theorem at `n = 97` with 97 loop tests allowed. -/
theorem isPrime_iff_prime_witness :
    ∃ b, isPrime 97 (JSNum.ofInt 97) = some b
      ∧ (b = true ↔ (2 ≤ (97 : ℤ) ∧ ∀ d : ℤ, 2 ≤ d → d * d ≤ 97 → ¬ d ∣ 97))
      ∧ (b = true ↔ Nat.Prime (97 : ℤ).toNat) :=
  isPrime_iff_prime 97 (fl_intCast 97 (by norm_num)) 97 (by decide)

/-! ## The prime branch -/

theorem isPrime_ofInt_eq (n : ℤ) (hd : JSNum.IsDouble (n : ℚ)) (fuel : ℕ)
    (hf : n.toNat ≤ fuel) :
    isPrime fuel (JSNum.ofInt n) = some (decide (Nat.Prime n.toNat)) := by
  obtain ⟨b, hb, hiff⟩ := isPrime_ofInt n hd fuel hf
  rw [hb]
  congr 1
  have := hiff.trans (trialPrime_iff_prime n)
  cases b <;> simp_all

theorem filterPrime_ofInt (fuel : ℕ) (arr : List ℤ)
    (h : ∀ z ∈ arr, JSNum.IsDouble (z : ℚ) ∧ z.toNat ≤ fuel) :
    filterPrime fuel (arr.map JSNum.ofInt)
      = some ((arr.filter (fun z => decide (Nat.Prime z.toNat))).map JSNum.ofInt) := by
  induction arr with
  | nil => rfl
  | cons z rest ih =>
    have hz := h z (List.mem_cons_self z rest)
    have hrest := ih (fun w hw => h w (List.mem_cons_of_mem z hw))
    simp only [List.map_cons, filterPrime, isPrime_ofInt_eq z hz.1 fuel hz.2, hrest]
    by_cases hp : Nat.Prime z.toNat <;> simp [List.filter_cons, hp]

theorem numbersOf_map (arr : List ℤ) :
    numbersOf (arr.map (fun z => JVal.num (JSNum.ofInt z))) = arr.map JSNum.ofInt := by
  induction arr with
  | nil => rfl
  | cons z rest ih =>
    simp only [numbersOf, List.map_cons, List.filterMap_cons] at ih ⊢
    rw [ih]

theorem elementOutOfBounds_ofInt (cfg : Config) (z : ℤ) :
    elementOutOfBounds cfg (JVal.num (JSNum.ofInt z)) = decide (cfg.MAX_ABS_VALUE < |z|) := by
  simp only [elementOutOfBounds, abs_ofInt, lt_ofInt]
  simp [JSNum.ofInt, JSNum.isInteger]

theorem validateItems_ofInt (cfg : Config) (arr : List ℤ)
    (h : validateItems cfg (arr.map (fun z => JVal.num (JSNum.ofInt z))) = none) :
    ∀ z ∈ arr, |z| ≤ cfg.MAX_ABS_VALUE := by
  induction arr with
  | nil => simp
  | cons w rest ih =>
    simp only [List.map_cons, validateItems, elementOutOfBounds_ofInt] at h
    split at h
    · exact absurd h (by simp)
    · rename_i hw
      intro z hz
      rcases List.mem_cons.mp hz with rfl | hz'
      · simpa using hw
      · exact ih h z hz'

theorem validateArray_ofInt (cfg : Config) (arr : List ℤ) (label : String)
    (h : validateArray cfg (JVal.arr (arr.map (fun z => JVal.num (JSNum.ofInt z)))) label
      = none) :
    arr ≠ [] ∧ (arr.length : ℤ) ≤ cfg.MAX_ARRAY_LEN ∧ ∀ z ∈ arr, |z| ≤ cfg.MAX_ABS_VALUE := by
  unfold validateArray at h
  simp only [List.length_map] at h
  split at h
  · exact absurd h (by simp)
  · rename_i hne
    split at h
    · exact absurd h (by simp)
    · rename_i hlen
      refine ⟨?_, by omega, validateItems_ofInt cfg arr h⟩
      rintro rfl
      simp at hne

theorem handler_single_key (k : String) (v : JVal) (hk : k ∈ keys) :
    activeKeys (if (JVal.obj [(k, v)]).truthy then JVal.obj [(k, v)] else JVal.obj []) = [k] := by
  simp only [keys, List.mem_cons, List.mem_singleton, List.not_mem_nil, or_false] at hk
  rcases hk with rfl | rfl | rfl | rfl | rfl <;>
    simp [JVal.truthy, activeKeys, keys, JVal.hasOwn]

/-- C3: for an array of integers that passes `validateArray`, the data returned for
`{"prime": arr}` is the list of the prime elements of `arr`, in their order and with
their multiplicity. -/
theorem handler_prime_filter (cfg : Config) (ai : String → AIOutcome) (arr : List ℤ)
    (hdbl : ∀ z ∈ arr, JSNum.IsDouble (z : ℚ))
    (hval : validateArray cfg (JVal.arr (arr.map (fun z => JVal.num (JSNum.ofInt z))))
      "prime" = none)
    (fuel : ℕ) (hf : cfg.MAX_ABS_VALUE.toNat ≤ fuel) :
    handler cfg fuel ai (JVal.obj [("prime",
        JVal.arr (arr.map (fun z => JVal.num (JSNum.ofInt z))))])
      = some (successResponse cfg (JVal.arr
          ((arr.filter (fun z => decide (Nat.Prime z.toNat))).map
            (fun z => JVal.num (JSNum.ofInt z))))) := by
  have hb := (validateArray_ofInt cfg arr "prime" hval).2.2
  have hfil := filterPrime_ofInt fuel arr (fun z hz => ⟨hdbl z hz, by
    have := hb z hz
    have h1 : z ≤ |z| := le_abs_self z
    omega⟩)
  unfold handler
  simp only [handler_single_key "prime" _ (by simp [keys])]
  simp [JVal.truthy, JVal.get, List.lookup, hval, JVal.items, numbersOf_map, hfil,
    Function.comp_def]

/-- Witness of C3: under the default limits `[4,7,9,11]` gives `[7,11]`. -/
theorem handler_prime_filter_witness :
    handler defaultConfig 1000000 (fun _ => AIOutcome.threw) (JVal.obj [("prime",
        JVal.arr (([4, 7, 9, 11] : List ℤ).map (fun z => JVal.num (JSNum.ofInt z))))])
      = some (successResponse defaultConfig (JVal.arr
          (([7, 11] : List ℤ).map (fun z => JVal.num (JSNum.ofInt z))))) := by
  have h := handler_prime_filter defaultConfig (fun _ => AIOutcome.threw) [4, 7, 9, 11]
    (by
      intro z hz
      simp only [List.mem_cons, List.mem_singleton, List.not_mem_nil, or_false] at hz
      rcases hz with rfl | rfl | rfl | rfl <;> exact fl_intCast _ (by norm_num))
    (by
      simp [validateArray, validateItems, elementOutOfBounds_ofInt, defaultConfig])
    1000000 (by decide)
  have hfilter : ([4, 7, 9, 11] : List ℤ).filter (fun z => decide (Nat.Prime z.toNat))
      = [7, 11] := by
    have h4 : ¬ Nat.Prime 4 := by norm_num
    have h7 : Nat.Prime 7 := by norm_num
    have h9 : ¬ Nat.Prime 9 := by norm_num
    have h11 : Nat.Prime 11 := by norm_num
    simp [List.filter_cons, h4, h7, h9, h11]
  rw [hfilter] at h
  exact h

/-! ## Fibonacci series -/

theorem fl_eval (q : ℚ) (e m : ℤ) (h1 : (2 : ℚ) ^ e ≤ |q|) (h2 : |q| < (2 : ℚ) ^ (e + 1))
    (he : -1022 ≤ e) (hm : roundHalfEven (q / 2 ^ (e - 52)) = m)
    (hlt : |(m : ℚ) * 2 ^ (e - 52)| < 2 ^ 1024) : fl q = JSNum.fin (m * 2 ^ (e - 52)) := by
  have hq : q ≠ 0 := by
    rintro rfl
    simp at h1
    exact absurd h1 (not_le.mpr (by positivity))
  have hlog : Int.log 2 |q| = e := intLog_eq |q| e h1 h2
  unfold fl
  simp only [hq, if_false, hlog, max_eq_left he, hm]
  rw [if_neg (not_le.mpr hlt)]

theorem getD_map_range (f : ℕ → JSNum) (k i : ℕ) (h : i < k) :
    ((List.range k).map f).getD i JSNum.nan = f i := by
  simp [List.getD_eq_getElem?_getD, List.getElem?_range h]

theorem fibWhile_range (n : ℤ) :
    ∀ (m k : ℕ), 2 ≤ k → (n - k).toNat = m →
      fibWhile n ((List.range k).map fibD) = (List.range (max k n.toNat)).map fibD := by
  intro m
  induction m with
  | zero =>
    intro k _ hm
    rw [fibWhile]
    simp only [List.length_map, List.length_range]
    rw [if_neg (by omega), max_eq_left (by omega)]
  | succ m ih =>
    intro k hk hm
    rw [fibWhile]
    simp only [List.length_map, List.length_range]
    rw [if_pos (by omega)]
    have hstep : (List.range k).map fibD ++
        [JSNum.add (((List.range k).map fibD).getD (k - 1) JSNum.nan)
          (((List.range k).map fibD).getD (k - 2) JSNum.nan)]
        = (List.range (k + 1)).map fibD := by
      rw [getD_map_range fibD k (k - 1) (by omega), getD_map_range fibD k (k - 2) (by omega),
        List.range_succ, List.map_append, List.map_singleton]
      obtain ⟨j, rfl⟩ : ∃ j, k = j + 2 := ⟨k - 2, by omega⟩
      simp [fibD]
    rw [hstep, ih (k + 1) (by omega) (by omega)]
    congr 2
    omega

theorem fibSeries_eq_map (n : ℤ) : fibSeries n = (List.range n.toNat).map fibD := by
  unfold fibSeries
  split_ifs with h
  · have : n.toNat = 0 := by omega
    simp [this]
  · have h2 : [JSNum.fin 0, JSNum.fin 1] = (List.range 2).map fibD := by
      simp [List.range_succ, fibD]
    rw [h2, fibWhile_range n _ 2 (le_refl 2) rfl, ← List.map_take, List.take_range]
    congr 2
    omega

theorem fib_le_of_le_78 (i : ℕ) (h : i ≤ 78) : (Nat.fib i : ℤ) ≤ 8944394323791464 := by
  have h1 : Nat.fib i ≤ Nat.fib 78 := Nat.fib_mono h
  have h2 : Nat.fib 78 = 8944394323791464 := by norm_num
  rw [h2] at h1
  exact_mod_cast h1

theorem fibD_eq_fib : ∀ i : ℕ, i ≤ 78 → fibD i = JSNum.ofInt (Nat.fib i)
  | 0, _ => by simp [fibD, JSNum.ofInt]
  | 1, _ => by simp [fibD, JSNum.ofInt]
  | k + 2, h => by
    have h1 := fibD_eq_fib (k + 1) (by omega)
    have h0 := fibD_eq_fib k (by omega)
    have hb := fib_le_of_le_78 (k + 2) h
    have hfib : (Nat.fib (k + 2) : ℤ) = (Nat.fib (k + 1) : ℤ) + (Nat.fib k : ℤ) := by
      rw [Nat.fib_add_two]
      push_cast
      ring
    rw [fibD, h1, h0, add_ofInt _ _ (by
      rw [← hfib, abs_of_nonneg (by positivity)]
      exact le_trans hb (by norm_num)), ← hfib]

theorem fibD_79 : fibD 79 = JSNum.ofInt 14472334024676220 := by
  have h78 : Nat.fib 78 = 8944394323791464 := by norm_num
  have h77 : Nat.fib 77 = 5527939700884757 := by norm_num
  rw [fibD, fibD_eq_fib 78 (by omega), fibD_eq_fib 77 (by omega), h78, h77]
  simp only [JSNum.ofInt, JSNum.add]
  have h := fl_eval (((8944394323791464 : ℕ) : ℤ) + ((5527939700884757 : ℕ) : ℤ) : ℚ) 53
    7236167012338110 (by norm_num) (by norm_num) (by norm_num)
    (by norm_num [roundHalfEven]) (by norm_num)
  rw [h]
  norm_num

/-- C4, as stated, fails: 80 is within the default `MAX_FIB_N`, and the last term of
`fibSeries(80)` is the double `14472334024676220`, not `F(79) = 14472334024676221`. -/
theorem fibSeries_80_not_canonical :
    (80 : ℤ) ≤ defaultConfig.MAX_FIB_N
      ∧ (fibSeries 80).getD 79 JSNum.nan = JSNum.ofInt 14472334024676220
      ∧ Nat.fib 79 = 14472334024676221
      ∧ fibSeries 80 ≠ (List.range (80 : ℤ).toNat).map (fun i => JSNum.ofInt (Nat.fib i)) := by
  have hget : (fibSeries 80).getD 79 JSNum.nan = JSNum.ofInt 14472334024676220 := by
    rw [fibSeries_eq_map, getD_map_range fibD _ 79 (by decide), fibD_79]
  have hfib : Nat.fib 79 = 14472334024676221 := by norm_num
  refine ⟨by decide, hget, hfib, fun heq => ?_⟩
  rw [heq, getD_map_range _ _ 79 (by decide), hfib] at hget
  simp [JSNum.ofInt] at hget

/-- C4, amended: for every integer `n` with `0 <= n <= MAX_FIB_N`, `fibSeries(n)` has
exactly `n` terms, every term at index `i >= 2` is the double-precision sum of the two
preceding terms, and every term at index `i <= 78` is the canonical Fibonacci number
`F(i)` (so that for `n <= 79` the result is `[F(0), ..., F(n-1)]`);
`fibSeries(0) = []`, `fibSeries(1) = [0]`, `fibSeries(2) = [0,1]` and
`fibSeries(5) = [0,1,1,2,3]`. -/
theorem fibSeries_terms (cfg : Config) (n : ℤ) :
    0 ≤ n → n ≤ cfg.MAX_FIB_N →
    (fibSeries n).length = n.toNat
      ∧ (∀ i : ℕ, i + 2 < n.toNat →
          (fibSeries n).getD (i + 2) JSNum.nan
            = JSNum.add ((fibSeries n).getD (i + 1) JSNum.nan)
                ((fibSeries n).getD i JSNum.nan))
      ∧ (∀ i : ℕ, i < n.toNat → i ≤ 78 →
          (fibSeries n).getD i JSNum.nan = JSNum.ofInt (Nat.fib i))
      ∧ (n ≤ 79 → fibSeries n = (List.range n.toNat).map (fun i => JSNum.ofInt (Nat.fib i)))
      ∧ fibSeries 0 = []
      ∧ fibSeries 1 = [JSNum.ofInt 0]
      ∧ fibSeries 2 = [JSNum.ofInt 0, JSNum.ofInt 1]
      ∧ fibSeries 5 = [JSNum.ofInt 0, JSNum.ofInt 1, JSNum.ofInt 1, JSNum.ofInt 2,
          JSNum.ofInt 3] := by
  intro h0 _
  have hsmall : ∀ k : ℤ, 0 ≤ k → k ≤ 79 →
      fibSeries k = (List.range k.toNat).map (fun i => JSNum.ofInt (Nat.fib i)) := by
    intro k _ hk
    rw [fibSeries_eq_map]
    apply List.map_congr_left
    intro i hi
    rw [List.mem_range] at hi
    exact fibD_eq_fib i (by omega)
  refine ⟨?_, ?_, ?_, hsmall n h0, ?_, ?_, ?_, ?_⟩
  · rw [fibSeries_eq_map]
    simp
  · intro i hi
    rw [fibSeries_eq_map, getD_map_range fibD _ _ hi, getD_map_range fibD _ _ (by omega),
      getD_map_range fibD _ _ (by omega), fibD]
  · intro i hi h78
    rw [fibSeries_eq_map, getD_map_range fibD _ _ hi, fibD_eq_fib i h78]
  · rw [hsmall 0 (by decide) (by decide)]
    rfl
  · rw [hsmall 1 (by decide) (by decide)]
    rfl
  · rw [hsmall 2 (by decide) (by decide)]
    rfl
  · rw [hsmall 5 (by decide) (by decide)]
    rfl

/-- Witness of C4 (amended): under the default limit, `fibSeries(7)` is
`[F(0), ..., F(6)]`. -/
theorem fibSeries_terms_witness :
    fibSeries 7 = (List.range (7 : ℤ).toNat).map (fun i => JSNum.ofInt (Nat.fib i)) :=
  (fibSeries_terms defaultConfig 7 (by decide) (by decide)).2.2.2.1 (by decide)

/-! ## Greatest common divisor -/

theorem gcdLoop_natCast (fuel : ℕ) :
    ∀ x y : ℕ, y < fuel →
      gcdLoop fuel (JSNum.ofInt x) (JSNum.ofInt y) = some (JSNum.ofInt (Nat.gcd x y)) := by
  induction fuel with
  | zero => intro x y h; omega
  | succ fuel ih =>
    intro x y h
    have e0 : JSNum.fin 0 = JSNum.ofInt 0 := by simp [JSNum.ofInt]
    unfold gcdLoop
    rw [e0, strictEq_ofInt]
    by_cases hy : y = 0
    · subst hy
      simp
    · have hy' : ¬ ((y : ℤ) = 0) := by exact_mod_cast hy
      have hpos : 0 < y := Nat.pos_of_ne_zero hy
      simp only [hy', decide_False, Bool.not_false, if_true]
      rw [mod_ofInt x y (by positivity) (by exact_mod_cast hpos), ← Int.natCast_mod,
        ih y (x % y) (by have := Nat.mod_lt x hpos; omega)]
      congr 3
      rw [Nat.gcd_comm x y, Nat.gcd_rec y x, Nat.gcd_comm]

theorem gcd_ofInt (fuel : ℕ) (a b : ℤ) (hf : b.natAbs < fuel) :
    gcd fuel (JSNum.ofInt a) (JSNum.ofInt b) = some (JSNum.ofInt (Int.gcd a b)) := by
  unfold gcd
  rw [abs_ofInt, abs_ofInt, Int.abs_eq_natAbs a, Int.abs_eq_natAbs b,
    gcdLoop_natCast fuel _ _ hf]
  rfl

/-- C5: for all integers `a` and `b`, `gcd(a, b)` terminates (the loop needs at most
`|b| + 1` tests) and returns the greatest common divisor of `|a|` and `|b|`: it is
non-negative, divides `a` and `b`, and every common divisor divides it; `gcd(0, 0) = 0`. -/
theorem gcd_is_greatest_common_divisor (a b : ℤ) (fuel : ℕ) (hf : b.natAbs < fuel) :
    (∃ g : ℤ, gcd fuel (JSNum.ofInt a) (JSNum.ofInt b) = some (JSNum.ofInt g)
        ∧ g = Int.gcd |a| |b| ∧ 0 ≤ g ∧ g ∣ a ∧ g ∣ b
        ∧ ∀ d : ℤ, d ∣ a → d ∣ b → d ∣ g)
      ∧ gcd fuel (JSNum.ofInt 0) (JSNum.ofInt 0) = some (JSNum.ofInt 0) := by
  refine ⟨⟨Int.gcd a b, gcd_ofInt fuel a b hf, ?_, ?_, Int.gcd_dvd_left, Int.gcd_dvd_right,
    fun d ha hb => Int.dvd_gcd ha hb⟩, ?_⟩
  · simp only [Int.gcd, Int.natAbs_abs]
  · positivity
  · rw [gcd_ofInt fuel 0 0 (by simp; omega)]
    simp

/-- Witness of C5: the theorem at `a = 4`, `b = -6`. -/
theorem gcd_is_greatest_common_divisor_witness :
    (∃ g : ℤ, gcd 7 (JSNum.ofInt 4) (JSNum.ofInt (-6)) = some (JSNum.ofInt g)
        ∧ g = Int.gcd |4| |(-6)| ∧ 0 ≤ g ∧ g ∣ 4 ∧ g ∣ (-6)
        ∧ ∀ d : ℤ, d ∣ 4 → d ∣ (-6) → d ∣ g)
      ∧ gcd 7 (JSNum.ofInt 0) (JSNum.ofInt 0) = some (JSNum.ofInt 0) :=
  gcd_is_greatest_common_divisor 4 (-6) 7 (by decide)

/-- C6: for all integers `a` and `b`, `gcd(a, b)` and `gcd(b, a)` return the same value,
and `gcd(a, 0) = |a|`. -/
theorem gcd_comm_and_zero (a b : ℤ) (fuel : ℕ) (ha : a.natAbs < fuel)
    (hb : b.natAbs < fuel) :
    gcd fuel (JSNum.ofInt a) (JSNum.ofInt b) = gcd fuel (JSNum.ofInt b) (JSNum.ofInt a)
      ∧ (∃ g : ℤ, gcd fuel (JSNum.ofInt a) (JSNum.ofInt b) = some (JSNum.ofInt g))
      ∧ gcd fuel (JSNum.ofInt a) (JSNum.ofInt 0) = some (JSNum.ofInt |a|) := by
  refine ⟨?_, ⟨_, gcd_ofInt fuel a b hb⟩, ?_⟩
  · rw [gcd_ofInt fuel a b hb, gcd_ofInt fuel b a ha, Int.gcd_comm]
  · rw [gcd_ofInt fuel a 0 (by simp; omega), Int.gcd_zero_right, Int.natCast_natAbs]

/-- Witness of C6: the theorem at `a = 12`, `b = -8`. -/
theorem gcd_comm_and_zero_witness :
    gcd 13 (JSNum.ofInt 12) (JSNum.ofInt (-8)) = gcd 13 (JSNum.ofInt (-8)) (JSNum.ofInt 12)
      ∧ (∃ g : ℤ, gcd 13 (JSNum.ofInt 12) (JSNum.ofInt (-8)) = some (JSNum.ofInt g))
      ∧ gcd 13 (JSNum.ofInt 12) (JSNum.ofInt 0) = some (JSNum.ofInt |12|) :=
  gcd_comm_and_zero 12 (-8) 13 (by decide) (by decide)

/-! ## Least common multiple -/

theorem div_ofInt_exact (p g : ℤ) (hg : g ≠ 0) (hdvd : g ∣ p) (hb : |p / g| ≤ 2 ^ 53) :
    JSNum.div (JSNum.ofInt p) (JSNum.ofInt g) = JSNum.ofInt (p / g) := by
  have hgq : (g : ℚ) ≠ 0 := by exact_mod_cast hg
  simp only [JSNum.ofInt, JSNum.div, hgq, if_false]
  rw [← Int.cast_div hdvd hgq, fl_intCast _ hb]

theorem abs_mul_div_gcd (a b : ℤ) : |a * b| / (Int.gcd a b : ℤ) = (Int.lcm a b : ℤ) := by
  rw [abs_mul, Int.abs_eq_natAbs, Int.abs_eq_natAbs, Int.lcm, Nat.lcm, Int.gcd]
  push_cast
  rfl

theorem lcm_ofInt_zero (fuel : ℕ) (a b : ℤ) (h : a = 0 ∨ b = 0) :
    lcm fuel (JSNum.ofInt a) (JSNum.ofInt b) = some (JSNum.ofInt 0) := by
  have e0 : JSNum.fin 0 = JSNum.ofInt 0 := by simp [JSNum.ofInt]
  unfold lcm
  rw [e0, strictEq_ofInt, strictEq_ofInt]
  rcases h with h | h <;> simp [h]

theorem lcm_ofInt (fuel : ℕ) (a b : ℤ) (hf : b.natAbs < fuel) (ha : a ≠ 0) (hb : b ≠ 0)
    (h : |a * b| ≤ 2 ^ 53) :
    lcm fuel (JSNum.ofInt a) (JSNum.ofInt b) = some (JSNum.ofInt (Int.lcm a b)) := by
  have e0 : JSNum.fin 0 = JSNum.ofInt 0 := by simp [JSNum.ofInt]
  have hg0 : (Int.gcd a b : ℤ) ≠ 0 := by
    have : Int.gcd a b ≠ 0 := by
      intro h0
      exact ha ((Int.gcd_eq_zero_iff.mp h0).1)
    exact_mod_cast this
  have hdvd : (Int.gcd a b : ℤ) ∣ |a * b| :=
    (dvd_abs _ _).mpr (Dvd.dvd.mul_right Int.gcd_dvd_left b)
  have hle : |(|a * b| / (Int.gcd a b : ℤ))| ≤ 2 ^ 53 := by
    rw [abs_mul_div_gcd, abs_of_nonneg (by positivity), ← abs_mul_div_gcd]
    refine le_trans (Int.ediv_le_self _ (abs_nonneg _)) h
  unfold lcm
  rw [e0, strictEq_ofInt, strictEq_ofInt]
  simp only [ha, hb, decide_False, Bool.or_self, Bool.false_eq_true, if_false]
  rw [gcd_ofInt fuel a b hf, mul_ofInt a b h, abs_ofInt, Option.map_some',
    div_ofInt_exact _ _ hg0 hdvd hle, abs_mul_div_gcd]

theorem div_ofInt_double (p g : ℤ) (hg : g ≠ 0) (hdvd : g ∣ p)
    (hq : JSNum.IsDouble ((p / g : ℤ) : ℚ)) :
    JSNum.div (JSNum.ofInt p) (JSNum.ofInt g) = JSNum.ofInt (p / g) := by
  have hgq : (g : ℚ) ≠ 0 := by exact_mod_cast hg
  simp only [JSNum.ofInt, JSNum.div, hgq, if_false]
  rw [← Int.cast_div hdvd hgq]
  exact hq

theorem lcm_ofInt_exact (fuel : ℕ) (a b : ℤ) (hf : b.natAbs < fuel) (ha : a ≠ 0) (hb : b ≠ 0)
    (h : JSNum.IsDouble ((a * b : ℤ) : ℚ)) :
    lcm fuel (JSNum.ofInt a) (JSNum.ofInt b) = some (JSNum.ofInt (Int.lcm a b)) := by
  have e0 : JSNum.fin 0 = JSNum.ofInt 0 := by simp [JSNum.ofInt]
  have hg0 : (Int.gcd a b : ℤ) ≠ 0 := by
    have : Int.gcd a b ≠ 0 := by
      intro h0
      exact ha ((Int.gcd_eq_zero_iff.mp h0).1)
    exact_mod_cast this
  have hdvd : (Int.gcd a b : ℤ) ∣ |a * b| :=
    (dvd_abs _ _).mpr (Dvd.dvd.mul_right Int.gcd_dvd_left b)
  have hmul : JSNum.mul (JSNum.ofInt a) (JSNum.ofInt b) = JSNum.ofInt (a * b) := by
    simp only [JSNum.ofInt, JSNum.mul]
    rw [← Int.cast_mul]
    exact h
  unfold lcm
  rw [e0, strictEq_ofInt, strictEq_ofInt]
  simp only [ha, hb, decide_False, Bool.or_self, Bool.false_eq_true, if_false]
  rw [gcd_ofInt fuel a b hf, hmul, abs_ofInt, Option.map_some',
    div_ofInt_double _ _ hg0 hdvd (isDouble_ediv _ _ hdvd hg0 (isDouble_abs _ h)),
    abs_mul_div_gcd]

theorem lcm_large_product (fuel : ℕ) (hf : (999961 : ℤ).natAbs < fuel) :
    lcm fuel (JSNum.ofInt 999962000357) (JSNum.ofInt 999961)
      = some (JSNum.ofInt 999923001838986112) := by
  have e0 : JSNum.fin 0 = JSNum.ofInt 0 := by simp [JSNum.ofInt]
  have hg : Int.gcd 999962000357 999961 = 1 := by norm_num
  unfold lcm
  rw [e0, strictEq_ofInt, strictEq_ofInt]
  simp only [show ¬ ((999962000357 : ℤ) = 0) by norm_num,
    show ¬ ((999961 : ℤ) = 0) by norm_num, decide_False, Bool.or_self, Bool.false_eq_true,
    if_false]
  rw [gcd_ofInt fuel _ _ hf, hg]
  have hmul : JSNum.mul (JSNum.ofInt 999962000357) (JSNum.ofInt 999961)
      = JSNum.ofInt 999923001838986112 := by
    simp only [JSNum.ofInt, JSNum.mul]
    have h := fl_eval (((999962000357 : ℤ) : ℚ) * ((999961 : ℤ) : ℚ)) 59
      7811898451867079 (by norm_num) (by norm_num) (by norm_num)
      (by norm_num [roundHalfEven]) (by norm_num)
    rw [h]
    norm_num
  have hdiv : JSNum.div (JSNum.ofInt 999923001838986112) (JSNum.ofInt ((1 : ℕ) : ℤ))
      = JSNum.ofInt 999923001838986112 := by
    have h1 : ((999923001838986112 : ℤ) : ℚ) / (((1 : ℕ) : ℤ) : ℚ)
        = ((999923001838986112 : ℤ) : ℚ) := by norm_num
    have h0 : ¬ ((((1 : ℕ) : ℤ) : ℚ) = 0) := by norm_num
    simp only [JSNum.ofInt, JSNum.div, h0, if_false, h1]
    have h := fl_eval ((999923001838986112 : ℤ) : ℚ) 59
      7811898451867079 (by norm_num) (by norm_num) (by norm_num)
      (by norm_num [roundHalfEven]) (by norm_num)
    rw [h]
    norm_num
  rw [hmul, abs_ofInt, Option.map_some', abs_of_nonneg (by norm_num), hdiv]

/-- C7, as stated, fails: `999962000357 * 999961` is not a double, so
`lcm(999962000357, 999961)` is `999923001838986112` while `|a*b| / gcd(a, b)` is
`999923001838986077`. -/
theorem lcm_rounds_large_product :
    lcm 1000000 (JSNum.ofInt 999962000357) (JSNum.ofInt 999961)
        = some (JSNum.ofInt 999923001838986112)
      ∧ |(999962000357 : ℤ) * 999961| / (Int.gcd 999962000357 999961 : ℤ)
        = 999923001838986077 := by
  have hg : Int.gcd 999962000357 999961 = 1 := by norm_num
  refine ⟨lcm_large_product 1000000 (by norm_num), ?_⟩
  rw [hg]
  norm_num

/-- C7, amended: `lcm(a, b) = 0` when `a = 0` or `b = 0`; otherwise, when `|a*b|` is at
most `2^53` (so that the product is computed exactly), `lcm(a, b) = |a*b| / gcd(a, b)`,
the division is exact, and `lcm(a, b) * gcd(a, b) = |a*b|`. -/
theorem lcm_exact_within_precision (a b : ℤ) (fuel : ℕ) (hf : b.natAbs < fuel) :
    ((a = 0 ∨ b = 0) → lcm fuel (JSNum.ofInt a) (JSNum.ofInt b) = some (JSNum.ofInt 0))
      ∧ (a ≠ 0 → b ≠ 0 → |a * b| ≤ 2 ^ 53 →
          ∃ l g : ℤ, lcm fuel (JSNum.ofInt a) (JSNum.ofInt b) = some (JSNum.ofInt l)
            ∧ gcd fuel (JSNum.ofInt a) (JSNum.ofInt b) = some (JSNum.ofInt g)
            ∧ l = |a * b| / g ∧ g ∣ |a * b| ∧ l * g = |a * b|) := by
  refine ⟨lcm_ofInt_zero fuel a b, fun ha hb h => ?_⟩
  have hdvd : (Int.gcd a b : ℤ) ∣ |a * b| :=
    (dvd_abs _ _).mpr (Dvd.dvd.mul_right Int.gcd_dvd_left b)
  refine ⟨Int.lcm a b, Int.gcd a b, lcm_ofInt fuel a b hf ha hb h, gcd_ofInt fuel a b hf,
    (abs_mul_div_gcd a b).symm, hdvd, ?_⟩
  rw [← abs_mul_div_gcd, Int.ediv_mul_cancel hdvd]

/-- Witness of C7 (amended): the theorem at `a = 4`, `b = -6`. -/
theorem lcm_exact_within_precision_witness :
    ∃ l g : ℤ, lcm 7 (JSNum.ofInt 4) (JSNum.ofInt (-6)) = some (JSNum.ofInt l)
      ∧ gcd 7 (JSNum.ofInt 4) (JSNum.ofInt (-6)) = some (JSNum.ofInt g)
      ∧ l = |4 * (-6)| / g ∧ g ∣ |4 * (-6)| ∧ l * g = |4 * (-6)| :=
  (lcm_exact_within_precision 4 (-6) 7 (by decide)).2 (by decide) (by decide) (by norm_num)

/-! ## Reduction of a list by `gcd` -/

theorem hcf_foldlM (fuel : ℕ) :
    ∀ (rest : List ℤ) (r : ℤ), (∀ z ∈ rest, z.natAbs < fuel) →
      (rest.map JSNum.ofInt).foldlM (fun result x => gcd fuel result (JSNum.abs x))
          (JSNum.ofInt r)
        = some (JSNum.ofInt (rest.foldl (fun acc x => (Int.gcd acc |x| : ℤ)) r)) := by
  intro rest
  induction rest with
  | nil => intro r _; rfl
  | cons x rest ih =>
    intro r h
    have hx := h x (List.mem_cons_self x rest)
    rw [List.map_cons, List.foldlM_cons, abs_ofInt,
      gcd_ofInt fuel r |x| (by rw [Int.natAbs_abs]; exact hx)]
    simp only [Option.some_bind, Option.bind_eq_bind, List.foldl_cons]
    exact ih _ (fun z hz => h z (List.mem_cons_of_mem x hz))

theorem foldl_gcd_spec :
    ∀ (rest : List ℤ) (r : ℤ), 0 ≤ r →
      0 ≤ rest.foldl (fun acc x => (Int.gcd acc |x| : ℤ)) r
        ∧ rest.foldl (fun acc x => (Int.gcd acc |x| : ℤ)) r ∣ r
        ∧ (∀ z ∈ rest, rest.foldl (fun acc x => (Int.gcd acc |x| : ℤ)) r ∣ z)
        ∧ ∀ d : ℤ, d ∣ r → (∀ z ∈ rest, d ∣ z) →
            d ∣ rest.foldl (fun acc x => (Int.gcd acc |x| : ℤ)) r := by
  intro rest
  induction rest with
  | nil => intro r hr; exact ⟨hr, dvd_refl r, by simp, fun d hd _ => hd⟩
  | cons x rest ih =>
    intro r _
    obtain ⟨h0, h1, h2, h3⟩ := ih (Int.gcd r |x| : ℤ) (by positivity)
    simp only [List.foldl_cons]
    refine ⟨h0, dvd_trans h1 Int.gcd_dvd_left, ?_, ?_⟩
    · intro z hz
      rcases List.mem_cons.mp hz with rfl | hz'
      · exact dvd_trans h1 (dvd_trans Int.gcd_dvd_right ((abs_dvd _ _).mpr (dvd_refl _)))
      · exact h2 z hz'
    · intro d hd hall
      refine h3 d (Int.dvd_gcd hd ((dvd_abs _ _).mpr (hall x (List.mem_cons_self x rest))))
        (fun z hz => hall z (List.mem_cons_of_mem x hz))

/-- C8: for every non-empty integer array, `hcfList(arr)` is the left fold of `gcd` over
the absolute values starting from `|arr[0]|`, and it is the greatest common divisor of
the array: non-negative, a divisor of every element, and divisible by every integer that
divides all elements; `hcfList([4,6]) = 2`. -/
theorem hcfList_is_gcd_of_array (arr : List ℤ) (hne : arr ≠ []) (fuel : ℕ)
    (hf : ∀ z ∈ arr, z.natAbs < fuel) :
    (∃ g : ℤ, hcfList fuel (arr.map JSNum.ofInt) = some (JSNum.ofInt g)
        ∧ g = arr.tail.foldl (fun acc x => (Int.gcd acc |x| : ℤ)) |arr.head hne|
        ∧ 0 ≤ g ∧ (∀ z ∈ arr, g ∣ z) ∧ ∀ d : ℤ, (∀ z ∈ arr, d ∣ z) → d ∣ g)
      ∧ (7 ≤ fuel → hcfList fuel [JSNum.ofInt 4, JSNum.ofInt 6] = some (JSNum.ofInt 2)) := by
  have key : ∀ (l : List ℤ) (hl : l ≠ []), (∀ z ∈ l, z.natAbs < fuel) →
      hcfList fuel (l.map JSNum.ofInt)
        = some (JSNum.ofInt (l.tail.foldl (fun acc x => (Int.gcd acc |x| : ℤ)) |l.head hl|)) := by
    intro l hl h
    cases l with
    | nil => exact absurd rfl hl
    | cons a rest =>
      unfold hcfList
      simp only [List.map_cons, List.drop_succ_cons, List.drop_zero, List.headD_cons,
        abs_ofInt, List.tail_cons, List.head_cons]
      exact hcf_foldlM fuel rest |a| (fun z hz => h z (List.mem_cons_of_mem a hz))
  refine ⟨⟨_, key arr hne hf, rfl, ?_⟩, ?_⟩
  · cases arr with
    | nil => exact absurd rfl hne
    | cons a rest =>
      obtain ⟨h0, h1, h2, h3⟩ := foldl_gcd_spec rest |a| (abs_nonneg a)
      simp only [List.tail_cons, List.head_cons]
      refine ⟨h0, ?_, ?_⟩
      · intro z hz
        rcases List.mem_cons.mp hz with rfl | hz'
        · exact dvd_trans h1 ((abs_dvd _ _).mpr (dvd_refl _))
        · exact h2 z hz'
      · intro d hall
        exact h3 d ((dvd_abs _ _).mpr (hall a (List.mem_cons_self a rest)))
          (fun z hz => hall z (List.mem_cons_of_mem a hz))
  · intro h7
    have := key [4, 6] (by simp) (by
      intro z hz
      simp only [List.mem_cons, List.mem_singleton, List.not_mem_nil, or_false] at hz
      rcases hz with rfl | rfl <;> simp <;> omega)
    simp only [List.map_cons, List.map_nil] at this
    rw [this]
    rfl

/-- Witness of C8: the theorem at `[12, -18, 30]`. -/
theorem hcfList_is_gcd_of_array_witness :
    ∃ g : ℤ, hcfList 31 (([12, -18, 30] : List ℤ).map JSNum.ofInt) = some (JSNum.ofInt g)
      ∧ g = ([12, -18, 30] : List ℤ).tail.foldl (fun acc x => (Int.gcd acc |x| : ℤ))
          |([12, -18, 30] : List ℤ).head (by simp)|
      ∧ 0 ≤ g ∧ (∀ z ∈ ([12, -18, 30] : List ℤ), g ∣ z)
      ∧ ∀ d : ℤ, (∀ z ∈ ([12, -18, 30] : List ℤ), d ∣ z) → d ∣ g :=
  (hcfList_is_gcd_of_array [12, -18, 30] (by simp) 31 (by
    intro z hz
    simp only [List.mem_cons, List.mem_singleton, List.not_mem_nil, or_false] at hz
    rcases hz with rfl | rfl | rfl <;> decide)).1

/-! ## Reduction of a list by `lcm` -/

theorem lcm_foldlM (fuel : ℕ) :
    ∀ (rest : List ℤ) (r : ℤ), 0 ≤ r → (∀ z ∈ rest, z.natAbs < fuel) →
      (∀ k : ℕ, k < rest.length →
        (rest.take k).foldl (fun acc x => (Int.lcm acc |x| : ℤ)) r ≠ 0 →
        rest.getD k 0 ≠ 0 →
        JSNum.IsDouble
          (((rest.take k).foldl (fun acc x => (Int.lcm acc |x| : ℤ)) r * |rest.getD k 0| : ℤ)
            : ℚ)) →
      (rest.map JSNum.ofInt).foldlM (fun result x => lcm fuel result (JSNum.abs x))
          (JSNum.ofInt r)
        = some (JSNum.ofInt (rest.foldl (fun acc x => (Int.lcm acc |x| : ℤ)) r)) := by
  intro rest
  induction rest with
  | nil => intro r _ _ _; rfl
  | cons x rest ih =>
    intro r hr h hexact
    have hx := h x (List.mem_cons_self x rest)
    have hstep : lcm fuel (JSNum.ofInt r) (JSNum.ofInt |x|)
        = some (JSNum.ofInt (Int.lcm r |x|)) := by
      by_cases hz : r = 0 ∨ |x| = 0
      · rw [lcm_ofInt_zero fuel r |x| hz]
        rcases hz with h0 | h0 <;> simp [h0]
      · push_neg at hz
        refine lcm_ofInt_exact fuel r |x| (by rw [Int.natAbs_abs]; exact hx) hz.1 hz.2 ?_
        have := hexact 0 (by simp) (by simpa using hz.1) (by simpa using hz.2)
        simpa using this
    rw [List.map_cons, List.foldlM_cons, abs_ofInt, hstep]
    simp only [Option.some_bind, Option.bind_eq_bind, List.foldl_cons]
    refine ih _ (by positivity) (fun z hz => h z (List.mem_cons_of_mem x hz)) ?_
    intro k hk h1 h2
    have := hexact (k + 1) (by simpa using hk) (by simpa using h1) (by simpa using h2)
    simpa using this

theorem foldl_lcm_dvd :
    ∀ (rest : List ℤ) (r : ℤ),
      r ∣ rest.foldl (fun acc x => (Int.lcm acc |x| : ℤ)) r
        ∧ (∀ z ∈ rest, z ∣ rest.foldl (fun acc x => (Int.lcm acc |x| : ℤ)) r)
        ∧ (∀ m : ℤ, r ∣ m → (∀ z ∈ rest, z ∣ m) →
            rest.foldl (fun acc x => (Int.lcm acc |x| : ℤ)) r ∣ m)
        ∧ (0 ≤ r → 0 ≤ rest.foldl (fun acc x => (Int.lcm acc |x| : ℤ)) r) := by
  intro rest
  induction rest with
  | nil => intro r; exact ⟨dvd_refl r, by simp, fun m hm _ => hm, fun h => h⟩
  | cons x rest ih =>
    intro r
    obtain ⟨h1, h2, h3, h4⟩ := ih (Int.lcm r |x| : ℤ)
    simp only [List.foldl_cons]
    refine ⟨dvd_trans (Int.dvd_lcm_left) h1, ?_, ?_, fun _ => h4 (by positivity)⟩
    · intro z hz
      rcases List.mem_cons.mp hz with rfl | hz'
      · exact dvd_trans ((dvd_abs _ _).mpr (dvd_refl _)) (dvd_trans Int.dvd_lcm_right h1)
      · exact h2 z hz'
    · intro m hm hall
      refine h3 m (Int.lcm_dvd hm ((abs_dvd _ _).mpr (hall x (List.mem_cons_self x rest))))
        (fun z hz => hall z (List.mem_cons_of_mem x hz))

theorem lcmList_ofInt (fuel : ℕ) (l : List ℤ) (hl : l ≠ [])
    (hf : ∀ z ∈ l, z.natAbs < fuel)
    (hexact : ∀ k : ℕ, k < l.tail.length →
      (l.tail.take k).foldl (fun acc x => (Int.lcm acc |x| : ℤ)) |l.head hl| ≠ 0 →
      l.tail.getD k 0 ≠ 0 →
      JSNum.IsDouble
        (((l.tail.take k).foldl (fun acc x => (Int.lcm acc |x| : ℤ)) |l.head hl|
            * |l.tail.getD k 0| : ℤ) : ℚ)) :
    lcmList fuel (l.map JSNum.ofInt)
      = some (JSNum.ofInt (l.tail.foldl (fun acc x => (Int.lcm acc |x| : ℤ)) |l.head hl|)) := by
  cases l with
  | nil => exact absurd rfl hl
  | cons a rest =>
    unfold lcmList
    simp only [List.map_cons, List.drop_succ_cons, List.drop_zero, List.headD_cons,
      abs_ofInt, List.tail_cons, List.head_cons]
    exact lcm_foldlM fuel rest |a| (abs_nonneg a)
      (fun z hz => hf z (List.mem_cons_of_mem a hz)) hexact

theorem lcm_zero_right (fuel : ℕ) (r : JSNum) :
    lcm fuel r (JSNum.fin 0) = some (JSNum.fin 0) := by
  unfold lcm
  have h : JSNum.strictEq (JSNum.fin 0) (JSNum.fin 0) = true := by simp [JSNum.strictEq]
  rw [h, Bool.or_true, if_pos rfl]

theorem lcm_zero_left (fuel : ℕ) (x : JSNum) :
    lcm fuel (JSNum.fin 0) x = some (JSNum.fin 0) := by
  unfold lcm
  cases x <;> simp [JSNum.strictEq]

theorem lcm_foldlM_from_zero (fuel : ℕ) (post : List JSNum) :
    post.foldlM (fun result x => lcm fuel result (JSNum.abs x)) (JSNum.fin 0)
      = some (JSNum.fin 0) := by
  induction post with
  | nil => rfl
  | cons x post ih =>
    rw [List.foldlM_cons, lcm_zero_left]
    simpa using ih

theorem lcmList_zero_element (fuel : ℕ) (pre post : List ℤ) :
    lcmList fuel ((pre ++ 0 :: post).map JSNum.ofInt)
      = if pre = [] then some (JSNum.ofInt 0)
        else (lcmList fuel (pre.map JSNum.ofInt)).map (fun _ => JSNum.ofInt 0) := by
  have e0 : JSNum.ofInt 0 = JSNum.fin 0 := by simp [JSNum.ofInt]
  cases pre with
  | nil =>
    unfold lcmList
    simp only [List.nil_append, List.map_cons, List.drop_succ_cons, List.drop_zero,
      List.headD_cons, abs_ofInt, abs_zero, if_true, e0]
    exact lcm_foldlM_from_zero fuel _
  | cons a pre =>
    unfold lcmList
    simp only [List.cons_append, List.map_cons, List.drop_succ_cons, List.drop_zero,
      List.headD_cons, List.map_append, List.foldlM_append, abs_ofInt, abs_zero, e0,
      List.foldlM_cons, reduceCtorEq, if_false]
    cases (pre.map JSNum.ofInt).foldlM (fun result x => lcm fuel result (JSNum.abs x))
        (JSNum.ofInt |a|) with
    | none => rfl
    | some r =>
      simp only [Option.some_bind, Option.bind_eq_bind, Option.map_some']
      have habs : JSNum.abs (JSNum.fin 0) = JSNum.fin 0 := by simp [JSNum.abs]
      rw [habs, lcm_zero_right]
      simp only [Option.some_bind]
      exact lcm_foldlM_from_zero fuel _

theorem lcmList_three_primes (fuel : ℕ) (hf : 1000000 ≤ fuel) :
    lcmList fuel (([999983, 999979, 999961] : List ℤ).map JSNum.ofInt)
      = some (JSNum.ofInt 999923001838986112) := by
  have h1 : lcm fuel (JSNum.ofInt 999983) (JSNum.ofInt 999979)
      = some (JSNum.ofInt 999962000357) := by
    rw [lcm_ofInt fuel 999983 999979 (by simp; omega) (by norm_num) (by norm_num)
      (by norm_num)]
    have : Int.lcm 999983 999979 = 999962000357 := by norm_num
    rw [this]
    rfl
  unfold lcmList
  simp only [List.map_cons, List.map_nil, List.drop_succ_cons, List.drop_zero,
    List.headD_cons, abs_ofInt, List.foldlM_cons, List.foldlM_nil]
  rw [abs_of_nonneg (by norm_num : (0 : ℤ) ≤ 999983),
    abs_of_nonneg (by norm_num : (0 : ℤ) ≤ 999979),
    abs_of_nonneg (by norm_num : (0 : ℤ) ≤ 999961), h1]
  simp only [Option.some_bind, Option.bind_eq_bind]
  rw [lcm_large_product fuel (by simp; omega)]
  rfl

/-- C9, as stated, fails: `[999983, 999979, 999961]` passes `validateArray` under the
default limits, and `lcmList` returns `999923001838986112` for it, which is not a
multiple of `999961` (the least common multiple is `999923001838986077`). -/
theorem lcmList_not_lcm_of_three_primes :
    validateArray defaultConfig
        (JVal.arr (([999983, 999979, 999961] : List ℤ).map
          (fun z => JVal.num (JSNum.ofInt z)))) "lcm" = none
      ∧ lcmList 1000000 (([999983, 999979, 999961] : List ℤ).map JSNum.ofInt)
        = some (JSNum.ofInt 999923001838986112)
      ∧ ¬ (999961 : ℤ) ∣ 999923001838986112 := by
  refine ⟨?_, lcmList_three_primes 1000000 (le_refl _), by norm_num⟩
  simp [validateArray, validateItems, elementOutOfBounds_ofInt, defaultConfig]

/-- C9, amended: for every non-empty integer array, (a) if every product of the running
least common multiple by the absolute value of the next element that `lcm` computes (both
factors non-zero) is exactly representable as a double, as every integer of magnitude at
most `2^53` is, then `lcmList(arr)` is the left fold of `lcm` over the absolute values
starting from `|arr[0]|`, and it is the least common multiple of the array: non-negative,
a multiple of every element, a divisor of every common multiple, and 0 when some element
is 0; (b) whatever the products, an array with an element 0 gives 0 when no element comes
before that 0, and otherwise gives 0 exactly when `lcmList` of the elements before it
returns, so that `lcmList([999983, 999979, 999961, 0]) = 0` although a product was
rounded; `lcmList([4,6]) = 12`. -/
theorem lcmList_is_lcm_within_precision (arr : List ℤ) (hne : arr ≠ []) (fuel : ℕ)
    (hf : ∀ z ∈ arr, z.natAbs < fuel) :
    ((∀ k : ℕ, k < arr.tail.length →
          (arr.tail.take k).foldl (fun acc x => (Int.lcm acc |x| : ℤ)) |arr.head hne| ≠ 0 →
          arr.tail.getD k 0 ≠ 0 →
          JSNum.IsDouble
            (((arr.tail.take k).foldl (fun acc x => (Int.lcm acc |x| : ℤ)) |arr.head hne|
                * |arr.tail.getD k 0| : ℤ) : ℚ)) →
        ∃ l : ℤ, lcmList fuel (arr.map JSNum.ofInt) = some (JSNum.ofInt l)
          ∧ l = arr.tail.foldl (fun acc x => (Int.lcm acc |x| : ℤ)) |arr.head hne|
          ∧ 0 ≤ l ∧ (∀ z ∈ arr, z ∣ l) ∧ (∀ m : ℤ, (∀ z ∈ arr, z ∣ m) → l ∣ m)
          ∧ ((0 : ℤ) ∈ arr → l = 0))
      ∧ (∀ z : ℤ, |z| ≤ 2 ^ 53 → JSNum.IsDouble (z : ℚ))
      ∧ (∀ pre post : List ℤ, arr = pre ++ 0 :: post →
          (pre = [] → lcmList fuel (arr.map JSNum.ofInt) = some (JSNum.ofInt 0))
          ∧ (pre ≠ [] →
              lcmList fuel (arr.map JSNum.ofInt)
                = (lcmList fuel (pre.map JSNum.ofInt)).map (fun _ => JSNum.ofInt 0)))
      ∧ (1000000 ≤ fuel →
          lcmList fuel (([999983, 999979, 999961, 0] : List ℤ).map JSNum.ofInt)
            = some (JSNum.ofInt 0))
      ∧ (7 ≤ fuel → lcmList fuel [JSNum.ofInt 4, JSNum.ofInt 6] = some (JSNum.ofInt 12)) := by
  have hall : ∀ z ∈ arr,
      z ∣ arr.tail.foldl (fun acc x => (Int.lcm acc |x| : ℤ)) |arr.head hne| := by
    cases arr with
    | nil => exact absurd rfl hne
    | cons a rest =>
      obtain ⟨h1, h2, _, _⟩ := foldl_lcm_dvd rest |a|
      simp only [List.tail_cons, List.head_cons]
      intro z hz
      rcases List.mem_cons.mp hz with rfl | hz'
      · exact dvd_trans ((dvd_abs _ _).mpr (dvd_refl _)) h1
      · exact h2 z hz'
  refine ⟨fun hexact => ⟨_, lcmList_ofInt fuel arr hne hf hexact, rfl, ?_, hall, ?_,
    fun h0 => zero_dvd_iff.mp (hall 0 h0)⟩, isDouble_of_abs_le, ?_, ?_, ?_⟩
  · cases arr with
    | nil => exact absurd rfl hne
    | cons a rest => exact (foldl_lcm_dvd rest |a|).2.2.2 (abs_nonneg a)
  · cases arr with
    | nil => exact absurd rfl hne
    | cons a rest =>
      obtain ⟨_, _, h3, _⟩ := foldl_lcm_dvd rest |a|
      simp only [List.tail_cons, List.head_cons]
      intro m hm
      exact h3 m ((abs_dvd _ _).mpr (hm a (List.mem_cons_self a rest)))
        (fun z hz => hm z (List.mem_cons_of_mem a hz))
  · intro pre post harr
    rw [harr, lcmList_zero_element]
    exact ⟨fun h => by rw [if_pos h], fun h => by rw [if_neg h]⟩
  · intro hfuel
    have h := lcmList_zero_element fuel [999983, 999979, 999961] []
    rw [if_neg (by simp), lcmList_three_primes fuel hfuel] at h
    exact h
  · intro h7
    have := lcmList_ofInt fuel [4, 6] (by simp) (by
      intro z hz
      simp only [List.mem_cons, List.mem_singleton, List.not_mem_nil, or_false] at hz
      rcases hz with rfl | rfl <;> simp <;> omega) (by
      intro k hk _ _
      simp only [List.tail_cons, List.length_singleton, Nat.lt_one_iff] at hk
      subst hk
      exact isDouble_of_abs_le _ (by norm_num))
    simp only [List.map_cons, List.map_nil] at this
    rw [this]
    rfl

/-- Witness of C9 (amended): the theorem at `[1000000, 1000000, 1000000]`, where each
product computed is `10^12`. -/
theorem lcmList_is_lcm_within_precision_witness :
    ∃ l : ℤ, lcmList 1000001 (([1000000, 1000000, 1000000] : List ℤ).map JSNum.ofInt)
          = some (JSNum.ofInt l)
      ∧ l = ([1000000, 1000000, 1000000] : List ℤ).tail.foldl
          (fun acc x => (Int.lcm acc |x| : ℤ))
          |([1000000, 1000000, 1000000] : List ℤ).head (by simp)|
      ∧ 0 ≤ l ∧ (∀ z ∈ ([1000000, 1000000, 1000000] : List ℤ), z ∣ l)
      ∧ (∀ m : ℤ, (∀ z ∈ ([1000000, 1000000, 1000000] : List ℤ), z ∣ m) → l ∣ m)
      ∧ ((0 : ℤ) ∈ ([1000000, 1000000, 1000000] : List ℤ) → l = 0) :=
  (lcmList_is_lcm_within_precision [1000000, 1000000, 1000000] (by simp) 1000001 (by
    intro z hz
    simp only [List.mem_cons, List.mem_singleton, List.not_mem_nil, or_false] at hz
    rcases hz with rfl | rfl | rfl <;> norm_num)).1 (by
    intro k hk _ _
    have hlcm : Int.lcm 1000000 1000000 = 1000000 := by norm_num
    rcases k with _ | _ | k
    · exact isDouble_of_abs_le _ (by norm_num)
    · refine isDouble_of_abs_le _ ?_
      simp only [List.tail_cons, List.take_succ_cons, List.take_zero, List.foldl_cons,
        List.foldl_nil, List.head_cons, List.getD_cons_succ, List.getD_cons_zero]
      rw [abs_of_nonneg (by norm_num : (0 : ℤ) ≤ 1000000), hlcm]
      norm_num
    · simp only [List.tail_cons, List.length_cons, List.length_nil] at hk
      omega)

/-! ## Validator -/

theorem elementOutOfBounds_eq_false_iff (cfg : Config) (x : JVal) :
    elementOutOfBounds cfg x = false
      ↔ ∃ z : ℤ, x.asInteger = some z ∧ |z| ≤ cfg.MAX_ABS_VALUE := by
  cases x with
  | num n =>
    cases n with
    | fin q =>
      by_cases hden : q.den = 1
      · have hq : ((q.num : ℤ) : ℚ) = q := Rat.coe_int_num_of_den_eq_one hden
        have habs : |q| = ((|q.num| : ℤ) : ℚ) := by
          rw [Int.cast_abs, hq]
        simp only [elementOutOfBounds, JSNum.isInteger, hden, decide_True, Bool.not_true,
          Bool.false_or, JSNum.abs, JSNum.ofInt, JSNum.lt, JVal.asInteger, if_true,
          Option.some.injEq, exists_eq_left', decide_eq_false_iff_not, not_lt, habs]
        exact_mod_cast Iff.rfl
      · simp [elementOutOfBounds, JSNum.isInteger, hden, JVal.asInteger]
    | posInf => simp [elementOutOfBounds, JSNum.isInteger, JVal.asInteger]
    | negInf => simp [elementOutOfBounds, JSNum.isInteger, JVal.asInteger]
    | nan => simp [elementOutOfBounds, JSNum.isInteger, JVal.asInteger]
  | undefined => simp [elementOutOfBounds, JVal.asInteger]
  | null => simp [elementOutOfBounds, JVal.asInteger]
  | bool b => simp [elementOutOfBounds, JVal.asInteger]
  | str s => simp [elementOutOfBounds, JVal.asInteger]
  | arr xs => simp [elementOutOfBounds, JVal.asInteger]
  | obj fs => simp [elementOutOfBounds, JVal.asInteger]

theorem validateItems_eq_none_iff (cfg : Config) (items : List JVal) :
    validateItems cfg items = none ↔ ∀ x ∈ items, elementOutOfBounds cfg x = false := by
  induction items with
  | nil => simp [validateItems]
  | cons x rest ih =>
    simp only [validateItems, List.mem_cons, forall_eq_or_imp]
    cases hx : elementOutOfBounds cfg x
    · simpa using ih
    · simp

theorem validateItems_cases (cfg : Config) (items : List JVal) :
    validateItems cfg items = none
      ∨ validateItems cfg items = some "array value out of bounds" := by
  cases h : validateItems cfg items with
  | none => exact Or.inl rfl
  | some e => exact Or.inr (by rw [validateItems_msg cfg items e h])

/-- C10: `validateArray(arr, label)` returns `null` exactly when `arr` is an array, is
non-empty, has at most `MAX_ARRAY_LEN` elements, and every element is an integer of
absolute value at most `MAX_ABS_VALUE`; otherwise it returns the first violation in the
order non-array or empty, then length, then an offending element. -/
theorem validateArray_first_violation (cfg : Config) (v : JVal) (label : String) :
    (validateArray cfg v label = none
        ↔ ∃ items, v = JVal.arr items ∧ items ≠ [] ∧ (items.length : ℤ) ≤ cfg.MAX_ARRAY_LEN
            ∧ ∀ x ∈ items, ∃ z : ℤ, x.asInteger = some z ∧ |z| ≤ cfg.MAX_ABS_VALUE)
      ∧ (((∀ items, v ≠ JVal.arr items) ∨ v = JVal.arr []) →
          validateArray cfg v label = some (label ++ " array must be non-empty"))
      ∧ (∀ items, v = JVal.arr items → items ≠ [] →
          cfg.MAX_ARRAY_LEN < (items.length : ℤ) →
          validateArray cfg v label = some "array length out of bounds")
      ∧ (∀ items, v = JVal.arr items → items ≠ [] →
          (items.length : ℤ) ≤ cfg.MAX_ARRAY_LEN →
          (∃ x ∈ items, ¬ ∃ z : ℤ, x.asInteger = some z ∧ |z| ≤ cfg.MAX_ABS_VALUE) →
          validateArray cfg v label = some "array value out of bounds") := by
  have hitems : ∀ items : List JVal, validateItems cfg items = none
      ↔ ∀ x ∈ items, ∃ z : ℤ, x.asInteger = some z ∧ |z| ≤ cfg.MAX_ABS_VALUE := by
    intro items
    rw [validateItems_eq_none_iff]
    exact forall₂_congr (fun x _ => elementOutOfBounds_eq_false_iff cfg x)
  refine ⟨?_, ?_, ?_, ?_⟩
  · constructor
    · intro h
      unfold validateArray at h
      split at h
      · rename_i items
        split at h
        · exact absurd h (by simp)
        · rename_i hlen
          split at h
          · exact absurd h (by simp)
          · rename_i hmax
            refine ⟨items, rfl, ?_, by omega, (hitems items).mp h⟩
            rintro rfl
            simp at hlen
      · exact absurd h (by simp)
    · rintro ⟨items, rfl, hne, hlen, hall⟩
      unfold validateArray
      have h0 : ¬ items.length = 0 := fun h => hne (List.length_eq_zero.mp h)
      simp only [h0, if_false, not_lt.mpr hlen]
      exact (hitems items).mpr hall
  · rintro (h | h)
    · unfold validateArray
      split
      · rename_i items
        exact absurd rfl (h items)
      · rfl
    · subst h
      simp [validateArray]
  · rintro items rfl hne hlen
    unfold validateArray
    have h0 : ¬ items.length = 0 := fun h => hne (List.length_eq_zero.mp h)
    simp only [h0, if_false, hlen, if_true]
  · rintro items rfl hne hlen hbad
    unfold validateArray
    have h0 : ¬ items.length = 0 := fun h => hne (List.length_eq_zero.mp h)
    simp only [h0, if_false, not_lt.mpr hlen]
    rcases validateItems_cases cfg items with h | h
    · exfalso
      obtain ⟨x, hx, hnot⟩ := hbad
      exact hnot ((hitems items).mp h x hx)
    · exact h

/-! ## Dispatcher: the branch taken for one active key -/

theorem body_of_activeKeys (reqBody : JVal) (k : String) (h : activeKeys reqBody = [k]) :
    (if reqBody.truthy then reqBody else JVal.obj []) = reqBody := by
  cases ht : reqBody.truthy
  · rw [activeKeys_of_not_truthy reqBody ht] at h
    exact absurd h (by simp)
  · simp

theorem handler_fibonacci (cfg : Config) (fuel : ℕ) (ai : String → AIOutcome)
    (reqBody : JVal) (h : activeKeys reqBody = ["fibonacci"]) :
    handler cfg fuel ai reqBody =
      match (reqBody.get "fibonacci").asInteger with
      | none => some (errorResponse cfg 400 "fibonacci must be between 0 and MAX_FIB_N")
      | some n =>
        if n < 0 ∨ cfg.MAX_FIB_N < n then
          some (errorResponse cfg 400 "fibonacci must be between 0 and MAX_FIB_N")
        else some (successResponse cfg (JVal.arr ((fibSeries n).map JVal.num))) := by
  unfold handler
  simp only [body_of_activeKeys reqBody _ h, h]
  simp

theorem handler_prime (cfg : Config) (fuel : ℕ) (ai : String → AIOutcome)
    (reqBody : JVal) (h : activeKeys reqBody = ["prime"]) :
    handler cfg fuel ai reqBody =
      match validateArray cfg (reqBody.get "prime") "prime" with
      | some err => some (errorResponse cfg 400 err)
      | none =>
        (filterPrime fuel (numbersOf (reqBody.get "prime").items)).map
          (fun ps => successResponse cfg (JVal.arr (ps.map JVal.num))) := by
  unfold handler
  simp only [body_of_activeKeys reqBody _ h, h]
  simp

theorem handler_lcm (cfg : Config) (fuel : ℕ) (ai : String → AIOutcome)
    (reqBody : JVal) (h : activeKeys reqBody = ["lcm"]) :
    handler cfg fuel ai reqBody =
      match validateArray cfg (reqBody.get "lcm") "lcm" with
      | some err => some (errorResponse cfg 400 err)
      | none =>
        (lcmList fuel (numbersOf (reqBody.get "lcm").items)).map
          (fun r => successResponse cfg (JVal.num r)) := by
  unfold handler
  simp only [body_of_activeKeys reqBody _ h, h]
  simp

theorem handler_hcf (cfg : Config) (fuel : ℕ) (ai : String → AIOutcome)
    (reqBody : JVal) (h : activeKeys reqBody = ["hcf"]) :
    handler cfg fuel ai reqBody =
      match validateArray cfg (reqBody.get "hcf") "hcf" with
      | some err => some (errorResponse cfg 400 err)
      | none =>
        (hcfList fuel (numbersOf (reqBody.get "hcf").items)).map
          (fun r => successResponse cfg (JVal.num r)) := by
  unfold handler
  simp only [body_of_activeKeys reqBody _ h, h]
  simp

theorem handler_AI (cfg : Config) (fuel : ℕ) (ai : String → AIOutcome)
    (reqBody : JVal) (h : activeKeys reqBody = ["AI"]) :
    handler cfg fuel ai reqBody =
      match reqBody.get "AI" with
      | JVal.str q =>
        if jsTrim q = "" then some (errorResponse cfg 400 "AI question must be non-empty")
        else if cfg.MAX_AI_QUESTION_LEN < (jsLength (jsTrim q) : Int) then
          some (errorResponse cfg 400 "AI question too long")
        else
          match ai (jsTrim q) with
          | AIOutcome.returned word => some (successResponse cfg word)
          | AIOutcome.threw => some (errorResponse cfg 500 "Internal server error")
      | _ => some (errorResponse cfg 400 "AI question must be a string") := by
  unfold handler
  simp only [body_of_activeKeys reqBody _ h, h]
  simp

/-! ## Validation errors of the array branches -/

theorem validateItems_of_mem_out_of_bounds (cfg : Config) (items : List JVal) (x : JVal)
    (hx : x ∈ items) (hbad : elementOutOfBounds cfg x = true) :
    validateItems cfg items = some "array value out of bounds" := by
  rcases validateItems_cases cfg items with h | h
  · have := (validateItems_eq_none_iff cfg items).mp h x hx
    rw [hbad] at this
    exact absurd this (by simp)
  · exact h

theorem validateArray_value_out_of_bounds (cfg : Config) (items : List JVal) (label : String)
    (hlen : (items.length : ℤ) ≤ cfg.MAX_ARRAY_LEN) (x : JSNum) (hx : JVal.num x ∈ items)
    (hbig : JSNum.lt (JSNum.ofInt cfg.MAX_ABS_VALUE) (JSNum.abs x) = true) :
    validateArray cfg (JVal.arr items) label = some "array value out of bounds" := by
  have hne : ¬ items.length = 0 := by
    intro h0
    rw [List.length_eq_zero.mp h0] at hx
    simp at hx
  unfold validateArray
  simp only [hne, if_false, not_lt.mpr hlen]
  exact validateItems_of_mem_out_of_bounds cfg items _ hx (by simp [elementOutOfBounds, hbig])

theorem activeKeys_single (k : String) (v : JVal) (hk : k ∈ keys) :
    activeKeys (JVal.obj [(k, v)]) = [k] := by
  simp only [keys, List.mem_cons, List.mem_singleton, List.not_mem_nil, or_false] at hk
  rcases hk with rfl | rfl | rfl | rfl | rfl <;> simp [activeKeys, keys, JVal.hasOwn]

theorem get_single (k : String) (v : JVal) : (JVal.obj [(k, v)]).get k = v := by
  simp [JVal.get, List.lookup]

/-- C11, as stated, fails: under the default limits an array of 1001 elements, all equal
to 2000000, is answered with "array length out of bounds": the length is checked before
the elements. -/
theorem handler_long_array_reports_length :
    JSNum.lt (JSNum.ofInt defaultConfig.MAX_ABS_VALUE) (JSNum.abs (JSNum.ofInt 2000000)) = true
      ∧ handler defaultConfig 0 (fun _ => AIOutcome.threw)
          (JVal.obj [("prime", JVal.arr (List.replicate 1001 (JVal.num (JSNum.ofInt 2000000))))])
        = some (errorResponse defaultConfig 400 "array length out of bounds") := by
  refine ⟨?_, ?_⟩
  · rw [abs_ofInt, lt_ofInt]
    simp [defaultConfig]
  · rw [handler_prime _ _ _ _ (activeKeys_single "prime" _ (by simp [keys])), get_single]
    unfold validateArray
    simp only [List.length_replicate]
    simp [defaultConfig]

/-- C11, amended: for every request whose single recognised key is `prime`, `lcm` or
`hcf`, whose array has at most `MAX_ARRAY_LEN` elements and contains a Number whose
absolute value exceeds `MAX_ABS_VALUE`, the response is 400 "array value out of
bounds". -/
theorem handler_array_value_out_of_bounds (cfg : Config) (fuel : ℕ)
    (ai : String → AIOutcome) (reqBody : JVal) (k : String)
    (hk : k = "prime" ∨ k = "lcm" ∨ k = "hcf") (hact : activeKeys reqBody = [k])
    (items : List JVal) (hget : reqBody.get k = JVal.arr items)
    (hlen : (items.length : ℤ) ≤ cfg.MAX_ARRAY_LEN) (x : JSNum) (hx : JVal.num x ∈ items)
    (hbig : JSNum.lt (JSNum.ofInt cfg.MAX_ABS_VALUE) (JSNum.abs x) = true) :
    handler cfg fuel ai reqBody = some (errorResponse cfg 400 "array value out of bounds") := by
  rcases hk with rfl | rfl | rfl
  · rw [handler_prime cfg fuel ai reqBody hact, hget,
      validateArray_value_out_of_bounds cfg items _ hlen x hx hbig]
  · rw [handler_lcm cfg fuel ai reqBody hact, hget,
      validateArray_value_out_of_bounds cfg items _ hlen x hx hbig]
  · rw [handler_hcf cfg fuel ai reqBody hact, hget,
      validateArray_value_out_of_bounds cfg items _ hlen x hx hbig]

/-- Witness of C11 (amended): `{"lcm": [4, 2000000]}` under the default limits. -/
theorem handler_array_value_out_of_bounds_witness :
    handler defaultConfig 0 (fun _ => AIOutcome.threw)
        (JVal.obj [("lcm", JVal.arr [JVal.num (JSNum.ofInt 4), JVal.num (JSNum.ofInt 2000000)])])
      = some (errorResponse defaultConfig 400 "array value out of bounds") :=
  handler_array_value_out_of_bounds defaultConfig 0 (fun _ => AIOutcome.threw) _ "lcm"
    (Or.inr (Or.inl rfl)) (by simp [activeKeys, keys, JVal.hasOwn])
    [JVal.num (JSNum.ofInt 4), JVal.num (JSNum.ofInt 2000000)]
    (by simp [JVal.get, List.lookup]) (by simp [defaultConfig]) (JSNum.ofInt 2000000)
    (by simp) (by rw [abs_ofInt, lt_ofInt]; simp [defaultConfig])

/-! ## The fibonacci branch -/

/-- C12: when `fibonacci` is the single recognised key, with value `v`, the request
succeeds with status 200 and data `fibSeries(n)` exactly when `v` is an integer `n` with
`0 <= n <= MAX_FIB_N` (`n = 0` gives `[]`, `n = 1` gives `[0]`); for every other value
the response is 400 "fibonacci must be between 0 and MAX_FIB_N". -/
theorem handler_fibonacci_range (cfg : Config) (fuel : ℕ) (ai : String → AIOutcome)
    (reqBody : JVal) (hact : activeKeys reqBody = ["fibonacci"]) :
    (∀ n : ℤ, (reqBody.get "fibonacci").asInteger = some n → 0 ≤ n → n ≤ cfg.MAX_FIB_N →
        handler cfg fuel ai reqBody
          = some (successResponse cfg (JVal.arr ((fibSeries n).map JVal.num))))
      ∧ ((¬ ∃ n : ℤ, (reqBody.get "fibonacci").asInteger = some n ∧ 0 ≤ n
            ∧ n ≤ cfg.MAX_FIB_N) →
          handler cfg fuel ai reqBody
            = some (errorResponse cfg 400 "fibonacci must be between 0 and MAX_FIB_N"))
      ∧ ((∃ d, handler cfg fuel ai reqBody = some (successResponse cfg d))
          ↔ ∃ n : ℤ, (reqBody.get "fibonacci").asInteger = some n ∧ 0 ≤ n
            ∧ n ≤ cfg.MAX_FIB_N)
      ∧ fibSeries 0 = [] ∧ fibSeries 1 = [JSNum.ofInt 0] := by
  have hok : ∀ n : ℤ, (reqBody.get "fibonacci").asInteger = some n → 0 ≤ n →
      n ≤ cfg.MAX_FIB_N → handler cfg fuel ai reqBody
        = some (successResponse cfg (JVal.arr ((fibSeries n).map JVal.num))) := by
    intro n hn h0 hmax
    rw [handler_fibonacci cfg fuel ai reqBody hact, hn]
    simp only [not_lt.mpr h0, not_lt.mpr hmax, or_self, if_false]
  have hbad : (¬ ∃ n : ℤ, (reqBody.get "fibonacci").asInteger = some n ∧ 0 ≤ n
      ∧ n ≤ cfg.MAX_FIB_N) → handler cfg fuel ai reqBody
        = some (errorResponse cfg 400 "fibonacci must be between 0 and MAX_FIB_N") := by
    intro hno
    rw [handler_fibonacci cfg fuel ai reqBody hact]
    cases hv : (reqBody.get "fibonacci").asInteger with
    | none => rfl
    | some n =>
      have : n < 0 ∨ cfg.MAX_FIB_N < n := by
        by_contra hcon
        push_neg at hcon
        exact hno ⟨n, hv, hcon.1, hcon.2⟩
      simp only [this, if_true]
  refine ⟨hok, hbad, ⟨?_, ?_⟩, ?_, ?_⟩
  · rintro ⟨d, hd⟩
    by_contra hno
    rw [hbad hno] at hd
    exact success_ne_error cfg d _ _ hd.symm
  · rintro ⟨n, hn, h0, hmax⟩
    exact ⟨_, hok n hn h0 hmax⟩
  · simp [fibSeries]
  · rw [fibSeries_eq_map]
    simp [fibD, JSNum.ofInt, List.range_succ]

/-- Witness of C12: `{"fibonacci": 1}` under the default limits gives `[0]`. -/
theorem handler_fibonacci_range_witness :
    handler defaultConfig 0 (fun _ => AIOutcome.threw)
        (JVal.obj [("fibonacci", JVal.num (JSNum.ofInt 1))])
      = some (successResponse defaultConfig (JVal.arr ((fibSeries 1).map JVal.num))) :=
  (handler_fibonacci_range defaultConfig 0 (fun _ => AIOutcome.threw)
    (JVal.obj [("fibonacci", JVal.num (JSNum.ofInt 1))])
    (by simp [activeKeys, keys, JVal.hasOwn])).1 1
    (by simp [JVal.get, List.lookup, JVal.asInteger, JSNum.ofInt]) (by decide)
    (by simp [defaultConfig])

/-! ## The AI branch -/

theorem handler_AI_accepted (cfg : Config) (fuel : ℕ) (ai : String → AIOutcome)
    (reqBody : JVal) (hact : activeKeys reqBody = ["AI"]) (q : String)
    (hget : reqBody.get "AI" = JVal.str q) (hne : jsTrim q ≠ "")
    (hlen : (jsLength (jsTrim q) : ℤ) ≤ cfg.MAX_AI_QUESTION_LEN) :
    handler cfg fuel ai reqBody =
      match ai (jsTrim q) with
      | AIOutcome.returned word => some (successResponse cfg word)
      | AIOutcome.threw => some (errorResponse cfg 500 "Internal server error") := by
  rw [handler_AI cfg fuel ai reqBody hact, hget]
  simp only [hne, if_false, not_lt.mpr hlen]

theorem handler_AI_rejected (cfg : Config) (fuel : ℕ) (ai : String → AIOutcome)
    (reqBody : JVal) (hact : activeKeys reqBody = ["AI"])
    (hno : ¬ ∃ q, reqBody.get "AI" = JVal.str q ∧ jsTrim q ≠ ""
      ∧ (jsLength (jsTrim q) : ℤ) ≤ cfg.MAX_AI_QUESTION_LEN) :
    ∃ msg, handler cfg fuel ai reqBody = some (errorResponse cfg 400 msg)
      ∧ ((∀ q, reqBody.get "AI" ≠ JVal.str q) → msg = "AI question must be a string")
      ∧ (∀ q, reqBody.get "AI" = JVal.str q → jsTrim q = "" →
          msg = "AI question must be non-empty")
      ∧ (∀ q, reqBody.get "AI" = JVal.str q → jsTrim q ≠ "" → msg = "AI question too long") := by
  rw [handler_AI cfg fuel ai reqBody hact]
  cases hv : reqBody.get "AI" with
  | str q =>
    by_cases hq : jsTrim q = ""
    · refine ⟨"AI question must be non-empty", by simp [hq], ?_, ?_, ?_⟩
      · intro h
        exact absurd rfl (h q)
      · intro _ _ _
        rfl
      · intro q' hq' hne
        rw [JVal.str.inj hq'] at hq
        exact absurd hq hne
    · have hlong : cfg.MAX_AI_QUESTION_LEN < (jsLength (jsTrim q) : ℤ) := by
        by_contra hcon
        exact hno ⟨q, hv, hq, not_lt.mp hcon⟩
      refine ⟨"AI question too long", by simp [hq, hlong], ?_, ?_, ?_⟩
      · intro h
        exact absurd rfl (h q)
      · intro q' hq' hemp
        rw [JVal.str.inj hq'] at hq
        exact absurd hemp hq
      · intro _ _ _
        rfl
  | undefined =>
    refine ⟨"AI question must be a string", rfl, fun _ => rfl, ?_, ?_⟩ <;>
      · intro q h
        cases h
  | null =>
    refine ⟨"AI question must be a string", rfl, fun _ => rfl, ?_, ?_⟩ <;>
      · intro q h
        cases h
  | bool b =>
    refine ⟨"AI question must be a string", rfl, fun _ => rfl, ?_, ?_⟩ <;>
      · intro q h
        cases h
  | num x =>
    refine ⟨"AI question must be a string", rfl, fun _ => rfl, ?_, ?_⟩ <;>
      · intro q h
        cases h
  | arr xs =>
    refine ⟨"AI question must be a string", rfl, fun _ => rfl, ?_, ?_⟩ <;>
      · intro q h
        cases h
  | obj fs =>
    refine ⟨"AI question must be a string", rfl, fun _ => rfl, ?_, ?_⟩ <;>
      · intro q h
        cases h

/-- C13: when `AI` is the single recognised key, the response is decided by the gateway
called on the trimmed question exactly when the value is a string whose trimmed form is
non-empty and has length at most `MAX_AI_QUESTION_LEN`; a non-string, an empty trimmed
string and a too long trimmed string are answered 400 with their own message, whatever
the gateway is. -/
theorem handler_AI_gateway_called (cfg : Config) (fuel : ℕ) (reqBody : JVal)
    (hact : activeKeys reqBody = ["AI"]) :
    (∀ q, reqBody.get "AI" = JVal.str q → jsTrim q ≠ "" →
        (jsLength (jsTrim q) : ℤ) ≤ cfg.MAX_AI_QUESTION_LEN →
        ∀ ai : String → AIOutcome, handler cfg fuel ai reqBody =
          match ai (jsTrim q) with
          | AIOutcome.returned word => some (successResponse cfg word)
          | AIOutcome.threw => some (errorResponse cfg 500 "Internal server error"))
      ∧ ((∀ q, reqBody.get "AI" ≠ JVal.str q) → ∀ ai : String → AIOutcome,
          handler cfg fuel ai reqBody
            = some (errorResponse cfg 400 "AI question must be a string"))
      ∧ (∀ q, reqBody.get "AI" = JVal.str q → jsTrim q = "" → ∀ ai : String → AIOutcome,
          handler cfg fuel ai reqBody
            = some (errorResponse cfg 400 "AI question must be non-empty"))
      ∧ (∀ q, reqBody.get "AI" = JVal.str q → jsTrim q ≠ "" →
          cfg.MAX_AI_QUESTION_LEN < (jsLength (jsTrim q) : ℤ) → ∀ ai : String → AIOutcome,
          handler cfg fuel ai reqBody = some (errorResponse cfg 400 "AI question too long"))
      ∧ ((∃ ai ai' : String → AIOutcome,
            handler cfg fuel ai reqBody ≠ handler cfg fuel ai' reqBody)
          ↔ ∃ q, reqBody.get "AI" = JVal.str q ∧ jsTrim q ≠ ""
            ∧ (jsLength (jsTrim q) : ℤ) ≤ cfg.MAX_AI_QUESTION_LEN) := by
  refine ⟨fun q hget hne hlen ai => handler_AI_accepted cfg fuel ai reqBody hact q hget hne hlen,
    ?_, ?_, ?_, ⟨?_, ?_⟩⟩
  · intro hns ai
    rw [handler_AI cfg fuel ai reqBody hact]
    split
    · rename_i q hq
      exact absurd hq (hns q)
    · rfl
  · intro q hget hemp ai
    rw [handler_AI cfg fuel ai reqBody hact, hget]
    simp only [hemp, if_true]
  · intro q hget hne hlong ai
    rw [handler_AI cfg fuel ai reqBody hact, hget]
    simp only [hne, if_false, hlong, if_true]
  · rintro ⟨ai, ai', hdiff⟩
    by_contra hno
    obtain ⟨m, hm, h1, h2, h3⟩ := handler_AI_rejected cfg fuel ai reqBody hact hno
    obtain ⟨m', hm', h1', h2', h3'⟩ := handler_AI_rejected cfg fuel ai' reqBody hact hno
    have hmm : m = m' := by
      cases hv : reqBody.get "AI" with
      | str q =>
        by_cases hq : jsTrim q = ""
        · rw [h2 q hv hq, h2' q hv hq]
        · rw [h3 q hv hq, h3' q hv hq]
      | undefined => rw [h1 (by simp [hv]), h1' (by simp [hv])]
      | null => rw [h1 (by simp [hv]), h1' (by simp [hv])]
      | bool b => rw [h1 (by simp [hv]), h1' (by simp [hv])]
      | num x => rw [h1 (by simp [hv]), h1' (by simp [hv])]
      | arr xs => rw [h1 (by simp [hv]), h1' (by simp [hv])]
      | obj fs => rw [h1 (by simp [hv]), h1' (by simp [hv])]
    exact hdiff (by rw [hm, hm', hmm])
  · rintro ⟨q, hget, hne, hlen⟩
    refine ⟨fun _ => AIOutcome.returned JVal.null, fun _ => AIOutcome.threw, ?_⟩
    rw [handler_AI_accepted cfg fuel _ reqBody hact q hget hne hlen,
      handler_AI_accepted cfg fuel _ reqBody hact q hget hne hlen]
    exact success_ne_error cfg _ _ _

/-- Witness of C13: `{"AI": "hi"}` under the default limits, with a gateway that
returns `"ok"`, is answered with the data `"ok"`. -/
theorem handler_AI_gateway_called_witness :
    handler defaultConfig 0 (fun _ => AIOutcome.returned (JVal.str "ok"))
        (JVal.obj [("AI", JVal.str "hi")])
      = some (successResponse defaultConfig (JVal.str "ok")) :=
  (handler_AI_gateway_called defaultConfig 0 (JVal.obj [("AI", JVal.str "hi")])
    (activeKeys_single "AI" _ (by simp [keys]))).1 "hi" (get_single _ _) (by decide)
    (by decide) (fun _ => AIOutcome.returned (JVal.str "ok"))

/-! ## Errors of the gateway -/

theorem gateway_threw_of_error (acfg : AIConfig) (conv : JVal → Except String String)
    (net : FetchRequest → FetchReply) (question msg : String)
    (h : (aiSingleWord acfg conv net question).outcome = Except.error msg) :
    gateway acfg conv net question = AIOutcome.threw := by
  simp [gateway, GatewayRun.toOutcome, h]

/-- C15: for a request that passes the validation of the AI branch, whenever the gateway
throws, the response is 500 "Internal server error", whatever the message of the error
is; a missing key, a transport failure and a non-success status of the provider all make
the gateway throw. -/
theorem handler_gateway_error_is_500 (cfg : Config) (fuel : ℕ) (reqBody : JVal)
    (hact : activeKeys reqBody = ["AI"]) (q : String)
    (hget : reqBody.get "AI" = JVal.str q) (hne : jsTrim q ≠ "")
    (hlen : (jsLength (jsTrim q) : ℤ) ≤ cfg.MAX_AI_QUESTION_LEN) :
    (∀ ai : String → AIOutcome, ai (jsTrim q) = AIOutcome.threw →
        handler cfg fuel ai reqBody = some (errorResponse cfg 500 "Internal server error"))
      ∧ (∀ (acfg : AIConfig) (conv : JVal → Except String String)
          (net : FetchRequest → FetchReply) (msg : String),
          (aiSingleWord acfg conv net (jsTrim q)).outcome = Except.error msg →
          handler cfg fuel (gateway acfg conv net) reqBody
            = some (errorResponse cfg 500 "Internal server error"))
      ∧ (∀ (acfg : AIConfig) (conv : JVal → Except String String)
          (net : FetchRequest → FetchReply),
          (acfg.AI_PROVIDER = "openai" → acfg.OPENAI_API_KEY = "") →
          (acfg.AI_PROVIDER ≠ "openai" → acfg.GEMINI_API_KEY = "") →
          ∃ msg, (aiSingleWord acfg conv net (jsTrim q)).outcome = Except.error msg)
      ∧ (∀ (acfg : AIConfig) (conv : JVal → Except String String)
          (net : FetchRequest → FetchReply),
          (∀ req, (∃ m, net req = FetchReply.failed m)
            ∨ ∃ status json, net req = FetchReply.replied false status json) →
          ∃ msg, (aiSingleWord acfg conv net (jsTrim q)).outcome = Except.error msg) := by
  have h1 : ∀ ai : String → AIOutcome, ai (jsTrim q) = AIOutcome.threw →
      handler cfg fuel ai reqBody = some (errorResponse cfg 500 "Internal server error") := by
    intro ai hai
    rw [handler_AI_accepted cfg fuel ai reqBody hact q hget hne hlen, hai]
  refine ⟨h1, ?_, ?_, ?_⟩
  · intro acfg conv net msg hmsg
    exact h1 _ (gateway_threw_of_error acfg conv net _ msg hmsg)
  · intro acfg conv net ho hg
    unfold aiSingleWord
    by_cases hp : acfg.AI_PROVIDER = "openai"
    · simp [hp, ho hp]
    · simp [hp, hg hp]
  · intro acfg conv net hnet
    have hG : ∃ msg, (aiGemini acfg conv net (jsTrim q)).outcome = Except.error msg := by
      unfold aiGemini
      rcases hnet (geminiRequest acfg (jsTrim q)) with ⟨m, hm⟩ | ⟨status, json, hm⟩
      · simp [hm]
      · simp [hm]
    have hO : ∃ msg, (aiOpenAI acfg conv net (jsTrim q)).outcome = Except.error msg := by
      unfold aiOpenAI
      rcases hnet (openaiRequest acfg (jsTrim q)) with ⟨m, hm⟩ | ⟨status, json, hm⟩
      · simp [hm]
      · simp [hm]
    unfold aiSingleWord
    split_ifs
    · exact ⟨_, rfl⟩
    · exact hO
    · exact ⟨_, rfl⟩
    · exact hG

/-- Witness of C15: `{"AI": "hi"}` under the default limits with a gateway that
throws. -/
theorem handler_gateway_error_is_500_witness :
    handler defaultConfig 0 (fun _ => AIOutcome.threw) (JVal.obj [("AI", JVal.str "hi")])
      = some (errorResponse defaultConfig 500 "Internal server error") :=
  (handler_gateway_error_is_500 defaultConfig 0 (JVal.obj [("AI", JVal.str "hi")])
    (activeKeys_single "AI" _ (by simp [keys])) "hi" (get_single _ _) (by decide)
    (by decide)).1 (fun _ => AIOutcome.threw) rfl

/-- C16: when the key of the selected provider is empty (`OPENAI_API_KEY` for the
provider `openai`, `GEMINI_API_KEY` for any other provider), `aiSingleWord` throws and
has made no call of `fetch`. -/
theorem aiSingleWord_missing_key_no_fetch (acfg : AIConfig)
    (conv : JVal → Except String String) (net : FetchRequest → FetchReply)
    (question : String)
    (h : (acfg.AI_PROVIDER = "openai" ∧ acfg.OPENAI_API_KEY = "")
      ∨ (acfg.AI_PROVIDER ≠ "openai" ∧ acfg.GEMINI_API_KEY = "")) :
    (aiSingleWord acfg conv net question).fetches = []
      ∧ ∃ msg, (aiSingleWord acfg conv net question).outcome = Except.error msg := by
  unfold aiSingleWord
  rcases h with ⟨hp, hk⟩ | ⟨hp, hk⟩
  · simp [hp, hk]
  · simp [hp, hk]

/-- Witness of C16: the provider `gemini` with an empty `GEMINI_API_KEY`. -/
theorem aiSingleWord_missing_key_no_fetch_witness :
    (aiSingleWord (geminiSettings "") (fun _ => Except.ok "")
        (fun _ => FetchReply.failed "down") "hi").fetches = []
      ∧ ∃ msg, (aiSingleWord (geminiSettings "") (fun _ => Except.ok "")
        (fun _ => FetchReply.failed "down") "hi").outcome = Except.error msg :=
  aiSingleWord_missing_key_no_fetch _ _ _ "hi" (Or.inr ⟨by decide, rfl⟩)

/-! ## Dispatcher: the last branch, and the keys that are not recognised -/

theorem mem_keys_of_activeKeys (body : JVal) (k : String) (h : k ∈ activeKeys body) :
    k ∈ keys := (List.mem_filter.mp h).1

theorem handler_error_message (cfg : Config) (fuel : ℕ) (ai : String → AIOutcome)
    (reqBody : JVal) (k : String) (hact : activeKeys reqBody = [k]) (r : Response)
    (h : handler cfg fuel ai reqBody = some r) :
    r.error ≠ some "unknown key" := by
  have hk : k ∈ keys := mem_keys_of_activeKeys reqBody k (by rw [hact]; simp)
  simp only [keys, List.mem_cons, List.mem_singleton, List.not_mem_nil, or_false] at hk
  rcases hk with rfl | rfl | rfl | rfl | rfl
  · rw [handler_fibonacci cfg fuel ai reqBody hact] at h
    split at h
    · rw [← Option.some.inj h]
      simp [errorResponse]
    · split_ifs at h
      · rw [← Option.some.inj h]
        simp [errorResponse]
      · rw [← Option.some.inj h]
        simp [successResponse]
  · rw [handler_prime cfg fuel ai reqBody hact] at h
    split at h
    · rename_i err herr
      rw [← Option.some.inj h]
      rcases validateArray_msg cfg _ _ _ herr with e | e | e <;> subst e <;>
        simp [errorResponse]
    · obtain ⟨ps, _, hps⟩ := Option.map_eq_some'.mp h
      rw [← hps]
      simp [successResponse]
  · rw [handler_lcm cfg fuel ai reqBody hact] at h
    split at h
    · rename_i err herr
      rw [← Option.some.inj h]
      rcases validateArray_msg cfg _ _ _ herr with e | e | e <;> subst e <;>
        simp [errorResponse]
    · obtain ⟨ps, _, hps⟩ := Option.map_eq_some'.mp h
      rw [← hps]
      simp [successResponse]
  · rw [handler_hcf cfg fuel ai reqBody hact] at h
    split at h
    · rename_i err herr
      rw [← Option.some.inj h]
      rcases validateArray_msg cfg _ _ _ herr with e | e | e <;> subst e <;>
        simp [errorResponse]
    · obtain ⟨ps, _, hps⟩ := Option.map_eq_some'.mp h
      rw [← hps]
      simp [successResponse]
  · rw [handler_AI cfg fuel ai reqBody hact] at h
    split at h
    · split_ifs at h
      · rw [← Option.some.inj h]
        simp [errorResponse]
      · rw [← Option.some.inj h]
        simp [errorResponse]
      · split at h
        · rw [← Option.some.inj h]
          simp [successResponse]
        · rw [← Option.some.inj h]
          simp [errorResponse]
    · rw [← Option.some.inj h]
      simp [errorResponse]

/-- C19: the last `else` branch of the handler is unreachable: when exactly one
recognised key is active it is one of the five names tested by the branches, and no
response of the handler carries the error "unknown key". -/
theorem handler_unknown_key_unreachable (cfg : Config) (fuel : ℕ)
    (ai : String → AIOutcome) (reqBody : JVal) :
    (∀ k, activeKeys (if reqBody.truthy then reqBody else JVal.obj []) = [k] →
        k = "fibonacci" ∨ k = "prime" ∨ k = "lcm" ∨ k = "hcf" ∨ k = "AI")
      ∧ handler cfg fuel ai reqBody ≠ some (errorResponse cfg 400 "unknown key")
      ∧ ∀ r, handler cfg fuel ai reqBody = some r → r.error ≠ some "unknown key" := by
  have hall : ∀ r, handler cfg fuel ai reqBody = some r → r.error ≠ some "unknown key" := by
    intro r hr
    by_cases hlen : (activeKeys reqBody).length = 1
    · obtain ⟨k, hk⟩ := List.length_eq_one.mp hlen
      exact handler_error_message cfg fuel ai reqBody k hk r hr
    · have hone : (activeKeys (if reqBody.truthy then reqBody else JVal.obj [])).length ≠ 1 := by
        rw [activeKeys_body]
        exact hlen
      unfold handler at hr
      simp only [hone, ne_eq, not_false_eq_true, if_true] at hr
      rw [← Option.some.inj hr]
      simp [errorResponse]
  refine ⟨?_, ?_, hall⟩
  · intro k hk
    have := mem_keys_of_activeKeys _ k (by rw [hk]; simp)
    simpa [keys] using this
  · intro h
    exact hall _ h rfl

theorem activeKeys_congr (b1 b2 : JVal) (h : ∀ k ∈ keys, b1.hasOwn k = b2.hasOwn k) :
    activeKeys b1 = activeKeys b2 := by
  unfold activeKeys
  exact List.filter_congr (fun k hk => h k hk)

/-- C20: two bodies that agree on the presence and on the value of each of the five
recognised keys get the same response from the handler, for the same gateway: the other
keys have no influence and do not count in the exactly-one-key check. -/
theorem handler_ignores_other_keys (cfg : Config) (fuel : ℕ) (ai : String → AIOutcome)
    (b1 b2 : JVal) (h : ∀ k ∈ keys, b1.hasOwn k = b2.hasOwn k ∧ b1.get k = b2.get k) :
    handler cfg fuel ai b1 = handler cfg fuel ai b2 := by
  have hact : activeKeys b1 = activeKeys b2 := activeKeys_congr b1 b2 (fun k hk => (h k hk).1)
  by_cases hlen : (activeKeys b1).length = 1
  · obtain ⟨k, hk1⟩ := List.length_eq_one.mp hlen
    have hk2 : activeKeys b2 = [k] := by rw [← hact, hk1]
    have hmem : k ∈ keys := mem_keys_of_activeKeys b1 k (by rw [hk1]; simp)
    have hget := (h k hmem).2
    simp only [keys, List.mem_cons, List.mem_singleton, List.not_mem_nil, or_false] at hmem
    rcases hmem with rfl | rfl | rfl | rfl | rfl
    · rw [handler_fibonacci cfg fuel ai b1 hk1, handler_fibonacci cfg fuel ai b2 hk2, hget]
    · rw [handler_prime cfg fuel ai b1 hk1, handler_prime cfg fuel ai b2 hk2, hget]
    · rw [handler_lcm cfg fuel ai b1 hk1, handler_lcm cfg fuel ai b2 hk2, hget]
    · rw [handler_hcf cfg fuel ai b1 hk1, handler_hcf cfg fuel ai b2 hk2, hget]
    · rw [handler_AI cfg fuel ai b1 hk1, handler_AI cfg fuel ai b2 hk2, hget]
  · have h1 : (activeKeys (if b1.truthy then b1 else JVal.obj [])).length ≠ 1 := by
      rw [activeKeys_body]
      exact hlen
    have h2 : (activeKeys (if b2.truthy then b2 else JVal.obj [])).length ≠ 1 := by
      rw [activeKeys_body, ← hact]
      exact hlen
    unfold handler
    simp only [h1, h2, ne_eq, not_false_eq_true, if_true]

/-- Witness of C20: `{"hcf": [4,6], "extra": 1}` and `{"hcf": [4,6]}`. -/
theorem handler_ignores_other_keys_witness :
    handler defaultConfig 7 (fun _ => AIOutcome.threw)
        (JVal.obj [("hcf", JVal.arr [JVal.num (JSNum.ofInt 4), JVal.num (JSNum.ofInt 6)]),
          ("extra", JVal.num (JSNum.ofInt 1))])
      = handler defaultConfig 7 (fun _ => AIOutcome.threw)
        (JVal.obj [("hcf", JVal.arr [JVal.num (JSNum.ofInt 4), JVal.num (JSNum.ofInt 6)])]) :=
  handler_ignores_other_keys defaultConfig 7 (fun _ => AIOutcome.threw) _ _ (by
    intro k hk
    simp only [keys, List.mem_cons, List.mem_singleton, List.not_mem_nil, or_false] at hk
    rcases hk with rfl | rfl | rfl | rfl | rfl <;>
      simp [JVal.hasOwn, JVal.get, List.lookup])

/-! ## First word -/

theorem not_isWordChar_of_isTrimSpace (c : Char) (h : isTrimSpace c = true) :
    isWordChar c = false := by
  simp only [isTrimSpace, isWordChar, Bool.or_eq_true, Bool.and_eq_true, decide_eq_true_eq,
    beq_iff_eq] at h
  simp only [isWordChar, Bool.or_eq_false_iff, Bool.and_eq_false_iff, decide_eq_false_iff_not]
  omega

theorem trim_decomposition (l : List Char) :
    ∃ a b : List Char,
      l = a ++ ((l.dropWhile isTrimSpace).reverse.dropWhile isTrimSpace).reverse ++ b
        ∧ (∀ c ∈ a, isTrimSpace c = true) ∧ (∀ c ∈ b, isTrimSpace c = true) := by
  refine ⟨l.takeWhile isTrimSpace,
    ((l.dropWhile isTrimSpace).reverse.takeWhile isTrimSpace).reverse, ?_, ?_, ?_⟩
  · have h1 := List.takeWhile_append_dropWhile isTrimSpace l
    have h2 := List.takeWhile_append_dropWhile isTrimSpace (l.dropWhile isTrimSpace).reverse
    have h3 : l.dropWhile isTrimSpace
        = ((l.dropWhile isTrimSpace).reverse.dropWhile isTrimSpace).reverse
          ++ ((l.dropWhile isTrimSpace).reverse.takeWhile isTrimSpace).reverse := by
      rw [← List.reverse_append, h2, List.reverse_reverse]
    rw [List.append_assoc, ← h3, h1]
  · intro c hc
    exact List.mem_takeWhile_imp hc
  · intro c hc
    exact List.mem_takeWhile_imp (List.mem_reverse.mp hc)

theorem dropWhile_head_false (p : Char → Bool) :
    ∀ (l : List Char) (x : Char) (rest : List Char), l.dropWhile p = x :: rest → p x = false := by
  intro l
  induction l with
  | nil => intro x rest h; simp at h
  | cons y ys ih =>
    intro x rest h
    rw [List.dropWhile_cons] at h
    split at h
    · exact ih x rest h
    · rename_i hy
      rw [← (List.cons.inj h).1]
      simpa using hy

theorem firstWord_toList (text : String) :
    (firstWord text).toList
      = ((jsTrim text).toList.dropWhile (fun c => !isWordChar c)).takeWhile isWordChar := by
  unfold firstWord
  split
  · rename_i h
    rw [h]
    rfl
  · rename_i c rest h
    rw [h]
    rfl

theorem string_eq_empty_iff (s : String) : s = "" ↔ s.toList = [] := by
  constructor
  · rintro rfl
    rfl
  · intro h
    exact String.ext h

/-- C17: `firstWord(text)` is the leftmost maximal run of characters of `[A-Za-z0-9]` in
`text`: `text` is `pre ++ firstWord(text) ++ post` where `pre` has no character of the
class, the word has only such characters, and `post` does not start with one; the result
is empty exactly when `text` has no character of the class. -/
theorem firstWord_leftmost_maximal_run (text : String) :
    ∃ pre post : List Char, text.toList = pre ++ (firstWord text).toList ++ post
      ∧ (∀ c ∈ pre, isWordChar c = false)
      ∧ (∀ c ∈ (firstWord text).toList, isWordChar c = true)
      ∧ (∀ c, post.head? = some c → isWordChar c = false)
      ∧ (firstWord text = "" ↔ ∀ c ∈ text.toList, isWordChar c = false) := by
  obtain ⟨a, b, hab, ha, hb⟩ := trim_decomposition text.toList
  have htrim : (jsTrim text).toList
      = ((text.toList.dropWhile isTrimSpace).reverse.dropWhile isTrimSpace).reverse := rfl
  rw [← htrim] at hab
  have hw := firstWord_toList text
  have hempty : firstWord text = "" ↔ (firstWord text).toList = [] := string_eq_empty_iff _
  rw [hempty]
  generalize (jsTrim text).toList = t at hab hw
  generalize (firstWord text).toList = w at hw
  generalize text.toList = l at hab
  have hP := List.takeWhile_append_dropWhile (fun c => !isWordChar c) t
  have hD := List.takeWhile_append_dropWhile isWordChar
    (t.dropWhile (fun c => !isWordChar c))
  rw [← hw] at hD
  have hpre : ∀ c ∈ a ++ t.takeWhile (fun c => !isWordChar c), isWordChar c = false := by
    intro c hc
    rcases List.mem_append.mp hc with h | h
    · exact not_isWordChar_of_isTrimSpace c (ha c h)
    · simpa using List.mem_takeWhile_imp h
  have hword : ∀ c ∈ w, isWordChar c = true := by
    intro c hc
    rw [hw] at hc
    exact List.mem_takeWhile_imp hc
  refine ⟨a ++ t.takeWhile (fun c => !isWordChar c),
    (t.dropWhile (fun c => !isWordChar c)).dropWhile isWordChar ++ b, ?_, hpre, hword, ?_, ?_⟩
  · calc l = a ++ t ++ b := hab
      _ = a ++ (t.takeWhile (fun c => !isWordChar c)
            ++ (w ++ (t.dropWhile (fun c => !isWordChar c)).dropWhile isWordChar)) ++ b := by
          rw [hD, hP]
      _ = _ := by simp only [List.append_assoc]
  · intro c hc
    cases hR : (t.dropWhile (fun c => !isWordChar c)).dropWhile isWordChar with
    | nil =>
      rw [hR, List.nil_append] at hc
      exact not_isWordChar_of_isTrimSpace c (hb c (List.mem_of_mem_head? hc))
    | cons x rest =>
      rw [hR] at hc
      simp only [List.cons_append, List.head?_cons, Option.some.injEq] at hc
      rw [← hc]
      exact dropWhile_head_false isWordChar _ x rest hR
  · have hwD : w = [] ↔ t.dropWhile (fun c => !isWordChar c) = [] := by
      constructor
      · intro hnil
        cases hDD : t.dropWhile (fun c => !isWordChar c) with
        | nil => rfl
        | cons x rest =>
          exfalso
          have hx := dropWhile_head_false (fun c => !isWordChar c) t x rest hDD
          rw [hDD] at hw
          simp only [Bool.not_eq_false'] at hx
          rw [List.takeWhile_cons, hx] at hw
          rw [hnil] at hw
          simp at hw
      · intro hnil
        rw [hw, hnil]
        rfl
    rw [hwD, List.dropWhile_eq_nil_iff, hab]
    constructor
    · intro h c hc
      rcases List.mem_append.mp hc with h1 | h1
      · rcases List.mem_append.mp h1 with h2 | h2
        · exact not_isWordChar_of_isTrimSpace c (ha c h2)
        · simpa using h c h2
      · exact not_isWordChar_of_isTrimSpace c (hb c h1)
    · intro h c hc
      have := h c (List.mem_append_left _ (List.mem_append_right _ hc))
      simp [this]

/-! ## Parsing of the provider's response -/

/-- C18: the code at the failing input.  With the provider `openai`, a response of
status 200 whose body is `null` makes `data.output` throw, and the request is answered
500 "Internal server error"; with the provider `gemini` the same response gives the
data `""`.  With `gemini`, a part whose `text` is `true` gives the data `"true"`. -/
theorem openai_null_body_is_500 (conv : JVal → Except String String) (fuel : ℕ) :
    handler defaultConfig fuel
        (gateway (openaiSettings "k") conv
          (fun _ => FetchReply.replied true 200 (Except.ok JVal.null)))
        (JVal.obj [("AI", JVal.str "hi")])
      = some (errorResponse defaultConfig 500 "Internal server error")
    ∧ handler defaultConfig fuel
        (gateway (geminiSettings "k") conv
          (fun _ => FetchReply.replied true 200 (Except.ok JVal.null)))
        (JVal.obj [("AI", JVal.str "hi")])
      = some (successResponse defaultConfig (JVal.str ""))
    ∧ handler defaultConfig fuel
        (gateway (geminiSettings "k") conv
          (fun _ => FetchReply.replied true 200 (Except.ok
            (JVal.obj [("candidates", JVal.arr [JVal.obj [("content",
              JVal.obj [("parts", JVal.arr [JVal.obj [("text", JVal.bool true)]])])]])]))))
        (JVal.obj [("AI", JVal.str "hi")])
      = some (successResponse defaultConfig (JVal.str "true")) := by
  have hact : activeKeys (JVal.obj [("AI", JVal.str "hi")]) = ["AI"] :=
    activeKeys_single "AI" _ (by simp [keys])
  have hget : (JVal.obj [("AI", JVal.str "hi")]).get "AI" = JVal.str "hi" := get_single _ _
  have hne : jsTrim "hi" ≠ "" := by decide
  have hlen : (jsLength (jsTrim "hi") : ℤ) ≤ defaultConfig.MAX_AI_QUESTION_LEN := by decide
  refine ⟨?_, ?_, ?_⟩
  · rw [handler_AI_accepted _ fuel _ _ hact "hi" hget hne hlen]
    simp [gateway, aiSingleWord, openaiSettings, aiOpenAI, openaiText, JVal.prop,
      GatewayRun.toOutcome]
  · rw [handler_AI_accepted _ fuel _ _ hact "hi" hget hne hlen]
    have hf : firstWord "" = "" := by decide
    simp [gateway, aiSingleWord, geminiSettings, aiGemini, extractGeminiText,
      extractGeminiTextTry, JVal.prop, GatewayRun.toOutcome, hf]
  · rw [handler_AI_accepted _ fuel _ _ hact "hi" hget hne hlen]
    have hf : firstWord (" ".intercalate ["true"]) = "true" := by decide
    simp [gateway, aiSingleWord, geminiSettings, aiGemini, extractGeminiText,
      extractGeminiTextTry, JVal.prop, JVal.orElse, JVal.truthy, JVal.lengthOf, JVal.first,
      JVal.optProp, geminiPartTexts, textString, List.lookup, GatewayRun.toOutcome, hf,
      JSNum.ofInt]

/-! ## Overflow of the running product in `lcmList` -/

theorem fl_overflow (q : ℚ) (h : 2 ^ 1024 ≤ q) : fl q = JSNum.posInf := by
  have hpos : 0 < q := lt_of_lt_of_le (by positivity) h
  have hq : q ≠ 0 := ne_of_gt hpos
  have habs : |q| = q := abs_of_pos hpos
  have he : 1024 ≤ Int.log 2 q :=
    (Int.zpow_le_iff_le_log (b := 2) (by norm_num) hpos).mp (by
      have h53 : ((2 : ℕ) : ℚ) ^ (1024 : ℤ) = 2 ^ 1024 := by norm_num
      rw [h53]
      exact h)
  have hlow := Int.zpow_log_le_self (b := 2) (by norm_num) hpos
  unfold fl
  simp only [hq, if_false, habs, hpos, if_true]
  rw [max_eq_left (by omega)]
  obtain ⟨e, hedef⟩ : ∃ e, Int.log 2 q = e := ⟨_, rfl⟩
  rw [hedef] at he hlow ⊢
  have hu : (0 : ℚ) < 2 ^ (e - 52) := by positivity
  have hx : ((2 ^ 52 : ℤ) : ℚ) ≤ q / 2 ^ (e - 52) := by
    rw [le_div_iff₀ hu]
    have h52 : ((2 ^ 52 : ℤ) : ℚ) = (2 : ℚ) ^ (52 : ℤ) := by norm_num
    rw [h52, ← zpow_add₀ (by norm_num : (2 : ℚ) ≠ 0)]
    have : (52 : ℤ) + (e - 52) = e := by ring
    rw [this]
    simpa using hlow
  have hfl : (2 ^ 52 : ℤ) ≤ ⌊q / 2 ^ (e - 52)⌋ := Int.le_floor.mpr hx
  have hm := le_trans hfl (floor_le_roundHalfEven _)
  have hmq : ((2 ^ 52 : ℤ) : ℚ) ≤ (roundHalfEven (q / 2 ^ (e - 52)) : ℚ) := by
    exact_mod_cast hm
  have hbig : (2 : ℚ) ^ 1024 ≤ roundHalfEven (q / 2 ^ (e - 52)) * 2 ^ (e - 52) := by
    calc (2 : ℚ) ^ 1024 = 2 ^ 52 * 2 ^ (972 : ℤ) := by norm_num
      _ ≤ 2 ^ 52 * 2 ^ (e - 52) := by
          apply mul_le_mul_of_nonneg_left _ (by positivity)
          exact zpow_le_zpow_right₀ (by norm_num) (by omega)
      _ ≤ roundHalfEven (q / 2 ^ (e - 52)) * 2 ^ (e - 52) := by
          apply mul_le_mul_of_nonneg_right _ (le_of_lt hu)
          simpa using hmq
  rw [if_pos (le_trans hbig (le_abs_self _))]

theorem gcdLoop_nan (fuel : ℕ) : ∀ x : JSNum, gcdLoop fuel x JSNum.nan = none := by
  induction fuel with
  | zero => intro x; rfl
  | succ fuel ih =>
    intro x
    unfold gcdLoop
    have h1 : JSNum.strictEq JSNum.nan (JSNum.fin 0) = false := rfl
    have h2 : JSNum.mod x JSNum.nan = JSNum.nan := by cases x <;> rfl
    simp only [h1, Bool.not_false, if_true, h2]
    exact ih _

/-- Once the running value is `Infinity`, `gcd` never returns: `Infinity % y` is NaN,
and NaN is never `=== 0`. -/
theorem lcm_posInf (fuel : ℕ) (x : ℤ) (hx : x ≠ 0) :
    lcm fuel JSNum.posInf (JSNum.ofInt x) = none := by
  have hxq : ¬ ((x : ℚ) = 0) := by exact_mod_cast hx
  have habs : ¬ (|(x : ℚ)| = 0) := by simpa using hxq
  have h1 : JSNum.strictEq JSNum.posInf (JSNum.fin 0) = false := by
    simp [JSNum.strictEq]
  have h2 : JSNum.strictEq (JSNum.ofInt x) (JSNum.fin 0) = false := by
    simp [JSNum.strictEq, JSNum.ofInt, hxq]
  have hg : gcd fuel JSNum.posInf (JSNum.ofInt x) = none := by
    unfold gcd
    cases fuel with
    | zero => rfl
    | succ fuel =>
      unfold gcdLoop
      have h3 : JSNum.strictEq (JSNum.abs (JSNum.ofInt x)) (JSNum.fin 0) = false := by
        simp [JSNum.strictEq, JSNum.ofInt, JSNum.abs, habs]
      have h4 : JSNum.mod (JSNum.abs JSNum.posInf) (JSNum.abs (JSNum.ofInt x)) = JSNum.nan := by
        simp [JSNum.abs, JSNum.ofInt, JSNum.mod]
      simp only [h3, Bool.not_false, if_true, h4]
      exact gcdLoop_nan fuel _
  unfold lcm
  simp only [h1, h2, Bool.or_self, Bool.false_eq_true, if_false, hg, Option.map_none']

theorem lcm_overflow (fuel : ℕ) (r p : ℤ) (hf : p.natAbs < fuel) (hg : Int.gcd r p = 1)
    (hbig : 2 ^ 1024 ≤ r * p) :
    lcm fuel (JSNum.ofInt r) (JSNum.ofInt p) = some JSNum.posInf := by
  have hpos : 0 < r * p := lt_of_lt_of_le (by positivity) hbig
  have hr : r ≠ 0 := by
    rintro rfl
    rw [zero_mul] at hpos
    exact lt_irrefl _ hpos
  have hp : p ≠ 0 := by
    rintro rfl
    rw [mul_zero] at hpos
    exact lt_irrefl _ hpos
  have e0 : JSNum.fin 0 = JSNum.ofInt 0 := by simp [JSNum.ofInt]
  have hq : (2 : ℚ) ^ 1024 ≤ (r : ℚ) * (p : ℚ) := by
    have h := (Int.cast_le (R := ℚ)).mpr hbig
    rw [Int.cast_mul, Int.cast_pow, Int.cast_ofNat] at h
    exact h
  have hmul : JSNum.mul (JSNum.ofInt r) (JSNum.ofInt p) = JSNum.posInf := by
    simp only [JSNum.ofInt, JSNum.mul]
    exact fl_overflow _ hq
  unfold lcm
  rw [e0, strictEq_ofInt, strictEq_ofInt]
  simp only [hr, hp, decide_False, Bool.or_self, Bool.false_eq_true, if_false]
  rw [gcd_ofInt fuel r p hf, hg, hmul]
  simp [JSNum.abs, JSNum.ofInt, JSNum.div, JSNum.ofSign]

theorem lcm_rounded (fuel : ℕ) (r p m : ℤ) (k : ℕ) (hf : p.natAbs < fuel)
    (hg : Int.gcd r p = 1) (h1 : 2 ^ (52 + k) ≤ r * p) (h2 : r * p < 2 ^ (53 + k))
    (hm : roundHalfEven (((r * p : ℤ) : ℚ) / 2 ^ k) = m) (hm53 : m < 2 ^ 53)
    (hk : k + 53 ≤ 1024) :
    lcm fuel (JSNum.ofInt r) (JSNum.ofInt p) = some (JSNum.ofInt (m * 2 ^ k)) := by
  have hpos : 0 < r * p := lt_of_lt_of_le (by positivity) h1
  have hr : r ≠ 0 := by
    rintro rfl
    simp at hpos
  have hp : p ≠ 0 := by
    rintro rfl
    simp at hpos
  have e0 : JSNum.fin 0 = JSNum.ofInt 0 := by simp [JSNum.ofInt]
  have hzk : (2 : ℚ) ^ (((52 + k : ℕ) : ℤ) - 52) = 2 ^ k := by
    have : ((52 + k : ℕ) : ℤ) - 52 = (k : ℤ) := by push_cast; ring
    rw [this, zpow_natCast]
  have hq1 : (2 : ℚ) ^ ((52 + k : ℕ) : ℤ) ≤ ((r * p : ℤ) : ℚ) := by
    rw [zpow_natCast]
    exact_mod_cast h1
  have hq2 : ((r * p : ℤ) : ℚ) < (2 : ℚ) ^ (((52 + k : ℕ) : ℤ) + 1) := by
    have : (((52 + k : ℕ) : ℤ) + 1) = ((53 + k : ℕ) : ℤ) := by push_cast; ring
    rw [this, zpow_natCast]
    exact_mod_cast h2
  have hm52 : 2 ^ 52 ≤ m := by
    rw [← hm]
    refine le_trans (Int.le_floor.mpr ?_) (floor_le_roundHalfEven _)
    rw [le_div_iff₀ (by positivity)]
    have : ((2 ^ 52 : ℤ) : ℚ) * 2 ^ k = ((2 ^ (52 + k) : ℤ) : ℚ) := by
      push_cast
      rw [pow_add]
      norm_num
    rw [this]
    exact_mod_cast h1
  have hmk1 : (2 : ℤ) ^ (52 + k) ≤ m * 2 ^ k := by
    rw [pow_add]
    exact mul_le_mul_of_nonneg_right hm52 (by positivity)
  have hmk2 : m * 2 ^ k < (2 : ℤ) ^ (53 + k) := by
    rw [pow_add]
    exact mul_lt_mul_of_pos_right hm53 (by positivity)
  have hlim : (2 : ℤ) ^ (53 + k) ≤ 2 ^ 1024 :=
    pow_le_pow_right₀ (by norm_num) (by omega)
  have hmkpos : 0 ≤ m * 2 ^ k := le_trans (by positivity) hmk1
  have hlt : |(m : ℚ) * 2 ^ (((52 + k : ℕ) : ℤ) - 52)| < 2 ^ 1024 := by
    rw [hzk]
    have hnn : (0 : ℚ) ≤ (m : ℚ) * 2 ^ k := by exact_mod_cast hmkpos
    rw [abs_of_nonneg hnn]
    have h := (Int.cast_lt (R := ℚ)).mpr (lt_of_lt_of_le hmk2 hlim)
    rw [Int.cast_mul, Int.cast_pow, Int.cast_pow, Int.cast_ofNat] at h
    exact h
  have hmul : JSNum.mul (JSNum.ofInt r) (JSNum.ofInt p) = JSNum.ofInt (m * 2 ^ k) := by
    simp only [JSNum.ofInt, JSNum.mul]
    rw [← Int.cast_mul]
    have hab : |((r * p : ℤ) : ℚ)| = ((r * p : ℤ) : ℚ) :=
      abs_of_pos (by exact_mod_cast hpos)
    rw [fl_eval ((r * p : ℤ) : ℚ) ((52 + k : ℕ) : ℤ) m (by rw [hab]; exact hq1)
      (by rw [hab]; exact hq2) (by omega) (by rw [hzk]; exact hm) hlt, hzk]
    push_cast
    rfl
  have hdiv : JSNum.div (JSNum.ofInt (m * 2 ^ k)) (JSNum.ofInt ((1 : ℕ) : ℤ))
      = JSNum.ofInt (m * 2 ^ k) := by
    have h0 : ¬ ((((1 : ℕ) : ℤ) : ℚ) = 0) := by norm_num
    have hd1 : ((m * 2 ^ k : ℤ) : ℚ) / (((1 : ℕ) : ℤ) : ℚ) = ((m * 2 ^ k : ℤ) : ℚ) := by
      norm_num
    simp only [JSNum.ofInt, JSNum.div, h0, if_false, hd1]
    have hab : |((m * 2 ^ k : ℤ) : ℚ)| = ((m * 2 ^ k : ℤ) : ℚ) :=
      abs_of_nonneg (by exact_mod_cast hmkpos)
    have hmm : roundHalfEven (((m * 2 ^ k : ℤ) : ℚ) / 2 ^ (((52 + k : ℕ) : ℤ) - 52)) = m := by
      rw [hzk]
      have : ((m * 2 ^ k : ℤ) : ℚ) / 2 ^ k = (m : ℚ) := by
        push_cast
        field_simp
      rw [this, roundHalfEven_intCast]
    rw [fl_eval ((m * 2 ^ k : ℤ) : ℚ) ((52 + k : ℕ) : ℤ) m
      (by rw [hab, zpow_natCast]; exact_mod_cast hmk1)
      (by
        rw [hab]
        have : (((52 + k : ℕ) : ℤ) + 1) = ((53 + k : ℕ) : ℤ) := by push_cast; ring
        rw [this, zpow_natCast]
        exact_mod_cast hmk2)
      (by omega) hmm hlt, hzk]
    push_cast
    rfl
  unfold lcm
  rw [e0, strictEq_ofInt, strictEq_ofInt]
  simp only [hr, hp, decide_False, Bool.or_self, Bool.false_eq_true, if_false]
  rw [gcd_ofInt fuel r p hf, hg, hmul, abs_ofInt, Option.map_some', abs_of_nonneg hmkpos,
    hdiv]

theorem lcm_foldlM_step (fuel : ℕ) (r : JSNum) (x : ℤ) (rest : List JSNum) (next : JSNum)
    (hx : 0 ≤ x) (h : lcm fuel r (JSNum.ofInt x) = some next) :
    (JSNum.ofInt x :: rest).foldlM (fun result y => lcm fuel result (JSNum.abs y)) r
      = rest.foldlM (fun result y => lcm fuel result (JSNum.abs y)) next := by
  rw [List.foldlM_cons, abs_ofInt, abs_of_nonneg hx, h]
  rfl

theorem lcm_foldlM_posInf (fuel : ℕ) (x : ℤ) (rest : List JSNum) (hx : 0 < x) :
    (JSNum.ofInt x :: rest).foldlM (fun result y => lcm fuel result (JSNum.abs y))
      JSNum.posInf = none := by
  rw [List.foldlM_cons, abs_ofInt, abs_of_nonneg (le_of_lt hx),
    lcm_posInf fuel x (ne_of_gt hx)]
  rfl

theorem lcm_chain_1 (fuel : ℕ) (hf : 1000000 ≤ fuel) :
    lcm fuel (JSNum.ofInt 999983) (JSNum.ofInt 999979) = some (JSNum.ofInt 999962000357) := by
  rw [lcm_ofInt fuel 999983 999979 (by simp; omega) (by norm_num) (by norm_num) (by norm_num)]
  have : Int.lcm 999983 999979 = 999962000357 := by norm_num
  rw [this]
  rfl

theorem lcm_chain_2 (fuel : ℕ) (hf : 1000000 ≤ fuel) :
    lcm fuel (JSNum.ofInt (999962000357)) (JSNum.ofInt 999961)
      = some (JSNum.ofInt (7811898451867079 * 2 ^ 7)) :=
  lcm_rounded fuel (999962000357) 999961 7811898451867079 7 (by simp; omega) (by norm_num) (by norm_num)
    (by norm_num) (by norm_num [roundHalfEven]) (by norm_num) (by norm_num)

theorem lcm_chain_3 (fuel : ℕ) (hf : 1000000 ≤ fuel) :
    lcm fuel (JSNum.ofInt (7811898451867079 * 2 ^ 7)) (JSNum.ofInt 999959)
      = some (JSNum.ofInt (7449701465635827 * 2 ^ 27)) :=
  lcm_rounded fuel (7811898451867079 * 2 ^ 7) 999959 7449701465635827 27 (by simp; omega) (by norm_num) (by norm_num)
    (by norm_num) (by norm_num [roundHalfEven]) (by norm_num) (by norm_num)

theorem lcm_chain_4 (fuel : ℕ) (hf : 1000000 ≤ fuel) :
    lcm fuel (JSNum.ofInt (7449701465635827 * 2 ^ 27)) (JSNum.ofInt 999953)
      = some (JSNum.ofInt (7104255036990111 * 2 ^ 47)) :=
  lcm_rounded fuel (7449701465635827 * 2 ^ 27) 999953 7104255036990111 47 (by simp; omega) (by norm_num) (by norm_num)
    (by norm_num) (by norm_num [roundHalfEven]) (by norm_num) (by norm_num)

theorem lcm_chain_5 (fuel : ℕ) (hf : 1000000 ≤ fuel) :
    lcm fuel (JSNum.ofInt (7104255036990111 * 2 ^ 47)) (JSNum.ofInt 999931)
      = some (JSNum.ofInt (6774678080933150 * 2 ^ 67)) :=
  lcm_rounded fuel (7104255036990111 * 2 ^ 47) 999931 6774678080933150 67 (by simp; omega) (by norm_num) (by norm_num)
    (by norm_num) (by norm_num [roundHalfEven]) (by norm_num) (by norm_num)

theorem lcm_chain_6 (fuel : ℕ) (hf : 1000000 ≤ fuel) :
    lcm fuel (JSNum.ofInt (6774678080933150 * 2 ^ 67)) (JSNum.ofInt 999917)
      = some (JSNum.ofInt (6460300238277848 * 2 ^ 87)) :=
  lcm_rounded fuel (6774678080933150 * 2 ^ 67) 999917 6460300238277848 87 (by simp; omega) (by norm_num) (by norm_num)
    (by norm_num) (by norm_num [roundHalfEven]) (by norm_num) (by norm_num)

theorem lcm_chain_7 (fuel : ℕ) (hf : 1000000 ≤ fuel) :
    lcm fuel (JSNum.ofInt (6460300238277848 * 2 ^ 87)) (JSNum.ofInt 999907)
      = some (JSNum.ofInt (6160449438434303 * 2 ^ 107)) :=
  lcm_rounded fuel (6460300238277848 * 2 ^ 87) 999907 6160449438434303 107 (by simp; omega) (by norm_num) (by norm_num)
    (by norm_num) (by norm_num [roundHalfEven]) (by norm_num) (by norm_num)

theorem lcm_chain_8 (fuel : ℕ) (hf : 1000000 ≤ fuel) :
    lcm fuel (JSNum.ofInt (6160449438434303 * 2 ^ 107)) (JSNum.ofInt 999883)
      = some (JSNum.ofInt (5874375024652487 * 2 ^ 127)) :=
  lcm_rounded fuel (6160449438434303 * 2 ^ 107) 999883 5874375024652487 127 (by simp; omega) (by norm_num) (by norm_num)
    (by norm_num) (by norm_num [roundHalfEven]) (by norm_num) (by norm_num)

theorem lcm_chain_9 (fuel : ℕ) (hf : 1000000 ≤ fuel) :
    lcm fuel (JSNum.ofInt (5874375024652487 * 2 ^ 127)) (JSNum.ofInt 999863)
      = some (JSNum.ofInt (5601473078989133 * 2 ^ 147)) :=
  lcm_rounded fuel (5874375024652487 * 2 ^ 127) 999863 5601473078989133 147 (by simp; omega) (by norm_num) (by norm_num)
    (by norm_num) (by norm_num [roundHalfEven]) (by norm_num) (by norm_num)

theorem lcm_chain_10 (fuel : ℕ) (hf : 1000000 ≤ fuel) :
    lcm fuel (JSNum.ofInt (5601473078989133 * 2 ^ 147)) (JSNum.ofInt 999853)
      = some (JSNum.ofInt (5341195738264581 * 2 ^ 167)) :=
  lcm_rounded fuel (5601473078989133 * 2 ^ 147) 999853 5341195738264581 167 (by simp; omega) (by norm_num) (by norm_num)
    (by norm_num) (by norm_num [roundHalfEven]) (by norm_num) (by norm_num)

theorem lcm_chain_11 (fuel : ℕ) (hf : 1000000 ≤ fuel) :
    lcm fuel (JSNum.ofInt (5341195738264581 * 2 ^ 167)) (JSNum.ofInt 999809)
      = some (JSNum.ofInt (5092788286093304 * 2 ^ 187)) :=
  lcm_rounded fuel (5341195738264581 * 2 ^ 167) 999809 5092788286093304 187 (by simp; omega) (by norm_num) (by norm_num)
    (by norm_num) (by norm_num [roundHalfEven]) (by norm_num) (by norm_num)

theorem lcm_chain_12 (fuel : ℕ) (hf : 1000000 ≤ fuel) :
    lcm fuel (JSNum.ofInt (5092788286093304 * 2 ^ 187)) (JSNum.ofInt 999773)
      = some (JSNum.ofInt (4855758879806863 * 2 ^ 207)) :=
  lcm_rounded fuel (5092788286093304 * 2 ^ 187) 999773 4855758879806863 207 (by simp; omega) (by norm_num) (by norm_num)
    (by norm_num) (by norm_num [roundHalfEven]) (by norm_num) (by norm_num)

theorem lcm_chain_13 (fuel : ℕ) (hf : 1000000 ≤ fuel) :
    lcm fuel (JSNum.ofInt (4855758879806863 * 2 ^ 207)) (JSNum.ofInt 999769)
      = some (JSNum.ofInt (4629742812638881 * 2 ^ 227)) :=
  lcm_rounded fuel (4855758879806863 * 2 ^ 207) 999769 4629742812638881 227 (by simp; omega) (by norm_num) (by norm_num)
    (by norm_num) (by norm_num [roundHalfEven]) (by norm_num) (by norm_num)

theorem lcm_chain_14 (fuel : ℕ) (hf : 1000000 ≤ fuel) :
    lcm fuel (JSNum.ofInt (4629742812638881 * 2 ^ 227)) (JSNum.ofInt 999763)
      = some (JSNum.ofInt (8828440787491389 * 2 ^ 246)) :=
  lcm_rounded fuel (4629742812638881 * 2 ^ 227) 999763 8828440787491389 246 (by simp; omega) (by norm_num) (by norm_num)
    (by norm_num) (by norm_num [roundHalfEven]) (by norm_num) (by norm_num)

theorem lcm_chain_15 (fuel : ℕ) (hf : 1000000 ≤ fuel) :
    lcm fuel (JSNum.ofInt (8828440787491389 * 2 ^ 246)) (JSNum.ofInt 999749)
      = some (JSNum.ofInt (8417343949178437 * 2 ^ 266)) :=
  lcm_rounded fuel (8828440787491389 * 2 ^ 246) 999749 8417343949178437 266 (by simp; omega) (by norm_num) (by norm_num)
    (by norm_num) (by norm_num [roundHalfEven]) (by norm_num) (by norm_num)

theorem lcm_chain_16 (fuel : ℕ) (hf : 1000000 ≤ fuel) :
    lcm fuel (JSNum.ofInt (8417343949178437 * 2 ^ 266)) (JSNum.ofInt 999727)
      = some (JSNum.ofInt (8025213255195915 * 2 ^ 286)) :=
  lcm_rounded fuel (8417343949178437 * 2 ^ 266) 999727 8025213255195915 286 (by simp; omega) (by norm_num) (by norm_num)
    (by norm_num) (by norm_num [roundHalfEven]) (by norm_num) (by norm_num)

theorem lcm_chain_17 (fuel : ℕ) (hf : 1000000 ≤ fuel) :
    lcm fuel (JSNum.ofInt (8025213255195915 * 2 ^ 286)) (JSNum.ofInt 999721)
      = some (JSNum.ofInt (7651304455468860 * 2 ^ 306)) :=
  lcm_rounded fuel (8025213255195915 * 2 ^ 286) 999721 7651304455468860 306 (by simp; omega) (by norm_num) (by norm_num)
    (by norm_num) (by norm_num [roundHalfEven]) (by norm_num) (by norm_num)

theorem lcm_chain_18 (fuel : ℕ) (hf : 1000000 ≤ fuel) :
    lcm fuel (JSNum.ofInt (7651304455468860 * 2 ^ 306)) (JSNum.ofInt 999683)
      = some (JSNum.ofInt (7294539443928219 * 2 ^ 326)) :=
  lcm_rounded fuel (7651304455468860 * 2 ^ 306) 999683 7294539443928219 326 (by simp; omega) (by norm_num) (by norm_num)
    (by norm_num) (by norm_num [roundHalfEven]) (by norm_num) (by norm_num)

theorem lcm_chain_19 (fuel : ℕ) (hf : 1000000 ≤ fuel) :
    lcm fuel (JSNum.ofInt (7294539443928219 * 2 ^ 326)) (JSNum.ofInt 999671)
      = some (JSNum.ofInt (6954326191378752 * 2 ^ 346)) :=
  lcm_rounded fuel (7294539443928219 * 2 ^ 326) 999671 6954326191378752 346 (by simp; omega) (by norm_num) (by norm_num)
    (by norm_num) (by norm_num [roundHalfEven]) (by norm_num) (by norm_num)

theorem lcm_chain_20 (fuel : ℕ) (hf : 1000000 ≤ fuel) :
    lcm fuel (JSNum.ofInt (6954326191378752 * 2 ^ 346)) (JSNum.ofInt 999667)
      = some (JSNum.ofInt (6629953766591094 * 2 ^ 366)) :=
  lcm_rounded fuel (6954326191378752 * 2 ^ 346) 999667 6629953766591094 366 (by simp; omega) (by norm_num) (by norm_num)
    (by norm_num) (by norm_num [roundHalfEven]) (by norm_num) (by norm_num)

theorem lcm_chain_21 (fuel : ℕ) (hf : 1000000 ≤ fuel) :
    lcm fuel (JSNum.ofInt (6629953766591094 * 2 ^ 366)) (JSNum.ofInt 999653)
      = some (JSNum.ofInt (6320622608789527 * 2 ^ 386)) :=
  lcm_rounded fuel (6629953766591094 * 2 ^ 366) 999653 6320622608789527 386 (by simp; omega) (by norm_num) (by norm_num)
    (by norm_num) (by norm_num [roundHalfEven]) (by norm_num) (by norm_num)

theorem lcm_chain_22 (fuel : ℕ) (hf : 1000000 ≤ fuel) :
    lcm fuel (JSNum.ofInt (6320622608789527 * 2 ^ 386)) (JSNum.ofInt 999631)
      = some (JSNum.ofInt (6025591181799778 * 2 ^ 406)) :=
  lcm_rounded fuel (6320622608789527 * 2 ^ 386) 999631 6025591181799778 406 (by simp; omega) (by norm_num) (by norm_num)
    (by norm_num) (by norm_num [roundHalfEven]) (by norm_num) (by norm_num)

theorem lcm_chain_23 (fuel : ℕ) (hf : 1000000 ≤ fuel) :
    lcm fuel (JSNum.ofInt (6025591181799778 * 2 ^ 406)) (JSNum.ofInt 999623)
      = some (JSNum.ofInt (5744285139011611 * 2 ^ 426)) :=
  lcm_rounded fuel (6025591181799778 * 2 ^ 406) 999623 5744285139011611 426 (by simp; omega) (by norm_num) (by norm_num)
    (by norm_num) (by norm_num [roundHalfEven]) (by norm_num) (by norm_num)

theorem lcm_chain_24 (fuel : ℕ) (hf : 1000000 ≤ fuel) :
    lcm fuel (JSNum.ofInt (5744285139011611 * 2 ^ 426)) (JSNum.ofInt 999613)
      = some (JSNum.ofInt (5476057148611845 * 2 ^ 446)) :=
  lcm_rounded fuel (5744285139011611 * 2 ^ 426) 999613 5476057148611845 446 (by simp; omega) (by norm_num) (by norm_num)
    (by norm_num) (by norm_num [roundHalfEven]) (by norm_num) (by norm_num)

theorem lcm_chain_25 (fuel : ℕ) (hf : 1000000 ≤ fuel) :
    lcm fuel (JSNum.ofInt (5476057148611845 * 2 ^ 446)) (JSNum.ofInt 999611)
      = some (JSNum.ofInt (5220343553906474 * 2 ^ 466)) :=
  lcm_rounded fuel (5476057148611845 * 2 ^ 446) 999611 5220343553906474 466 (by simp; omega) (by norm_num) (by norm_num)
    (by norm_num) (by norm_num [roundHalfEven]) (by norm_num) (by norm_num)

theorem lcm_chain_26 (fuel : ℕ) (hf : 1000000 ≤ fuel) :
    lcm fuel (JSNum.ofInt (5220343553906474 * 2 ^ 466)) (JSNum.ofInt 999599)
      = some (JSNum.ofInt (4976511188641889 * 2 ^ 486)) :=
  lcm_rounded fuel (5220343553906474 * 2 ^ 466) 999599 4976511188641889 486 (by simp; omega) (by norm_num) (by norm_num)
    (by norm_num) (by norm_num [roundHalfEven]) (by norm_num) (by norm_num)

theorem lcm_chain_27 (fuel : ℕ) (hf : 1000000 ≤ fuel) :
    lcm fuel (JSNum.ofInt (4976511188641889 * 2 ^ 486)) (JSNum.ofInt 999563)
      = some (JSNum.ofInt (4743896916630223 * 2 ^ 506)) :=
  lcm_rounded fuel (4976511188641889 * 2 ^ 486) 999563 4743896916630223 506 (by simp; omega) (by norm_num) (by norm_num)
    (by norm_num) (by norm_num [roundHalfEven]) (by norm_num) (by norm_num)

theorem lcm_chain_28 (fuel : ℕ) (hf : 1000000 ≤ fuel) :
    lcm fuel (JSNum.ofInt (4743896916630223 * 2 ^ 506)) (JSNum.ofInt 999553)
      = some (JSNum.ofInt (4522110361774911 * 2 ^ 526)) :=
  lcm_rounded fuel (4743896916630223 * 2 ^ 506) 999553 4522110361774911 526 (by simp; omega) (by norm_num) (by norm_num)
    (by norm_num) (by norm_num [roundHalfEven]) (by norm_num) (by norm_num)

theorem lcm_chain_29 (fuel : ℕ) (hf : 1000000 ≤ fuel) :
    lcm fuel (JSNum.ofInt (4522110361774911 * 2 ^ 526)) (JSNum.ofInt 999541)
      = some (JSNum.ofInt (8621282030332291 * 2 ^ 545)) :=
  lcm_rounded fuel (4522110361774911 * 2 ^ 526) 999541 8621282030332291 545 (by simp; omega) (by norm_num) (by norm_num)
    (by norm_num) (by norm_num [roundHalfEven]) (by norm_num) (by norm_num)

theorem lcm_chain_30 (fuel : ℕ) (hf : 1000000 ≤ fuel) :
    lcm fuel (JSNum.ofInt (8621282030332291 * 2 ^ 545)) (JSNum.ofInt 999529)
      = some (JSNum.ofInt (8218022734161381 * 2 ^ 565)) :=
  lcm_rounded fuel (8621282030332291 * 2 ^ 545) 999529 8218022734161381 565 (by simp; omega) (by norm_num) (by norm_num)
    (by norm_num) (by norm_num [roundHalfEven]) (by norm_num) (by norm_num)

theorem lcm_chain_31 (fuel : ℕ) (hf : 1000000 ≤ fuel) :
    lcm fuel (JSNum.ofInt (8218022734161381 * 2 ^ 565)) (JSNum.ofInt 999521)
      = some (JSNum.ofInt (7833563138267248 * 2 ^ 585)) :=
  lcm_rounded fuel (8218022734161381 * 2 ^ 565) 999521 7833563138267248 585 (by simp; omega) (by norm_num) (by norm_num)
    (by norm_num) (by norm_num [roundHalfEven]) (by norm_num) (by norm_num)

theorem lcm_chain_32 (fuel : ℕ) (hf : 1000000 ≤ fuel) :
    lcm fuel (JSNum.ofInt (7833563138267248 * 2 ^ 585)) (JSNum.ofInt 999499)
      = some (JSNum.ofInt (7466925166258789 * 2 ^ 605)) :=
  lcm_rounded fuel (7833563138267248 * 2 ^ 585) 999499 7466925166258789 605 (by simp; omega) (by norm_num) (by norm_num)
    (by norm_num) (by norm_num [roundHalfEven]) (by norm_num) (by norm_num)

theorem lcm_chain_33 (fuel : ℕ) (hf : 1000000 ≤ fuel) :
    lcm fuel (JSNum.ofInt (7466925166258789 * 2 ^ 605)) (JSNum.ofInt 999491)
      = some (JSNum.ofInt (7117390157078899 * 2 ^ 625)) :=
  lcm_rounded fuel (7466925166258789 * 2 ^ 605) 999491 7117390157078899 625 (by simp; omega) (by norm_num) (by norm_num)
    (by norm_num) (by norm_num [roundHalfEven]) (by norm_num) (by norm_num)

theorem lcm_chain_34 (fuel : ℕ) (hf : 1000000 ≤ fuel) :
    lcm fuel (JSNum.ofInt (7117390157078899 * 2 ^ 625)) (JSNum.ofInt 999451)
      = some (JSNum.ofInt (6783945760615027 * 2 ^ 645)) :=
  lcm_rounded fuel (7117390157078899 * 2 ^ 625) 999451 6783945760615027 645 (by simp; omega) (by norm_num) (by norm_num)
    (by norm_num) (by norm_num [roundHalfEven]) (by norm_num) (by norm_num)

theorem lcm_chain_35 (fuel : ℕ) (hf : 1000000 ≤ fuel) :
    lcm fuel (JSNum.ofInt (6783945760615027 * 2 ^ 645)) (JSNum.ofInt 999437)
      = some (JSNum.ofInt (6466032408859063 * 2 ^ 665)) :=
  lcm_rounded fuel (6783945760615027 * 2 ^ 645) 999437 6466032408859063 665 (by simp; omega) (by norm_num) (by norm_num)
    (by norm_num) (by norm_num [roundHalfEven]) (by norm_num) (by norm_num)

theorem lcm_chain_36 (fuel : ℕ) (hf : 1000000 ≤ fuel) :
    lcm fuel (JSNum.ofInt (6466032408859063 * 2 ^ 665)) (JSNum.ofInt 999433)
      = some (JSNum.ofInt (6162992638095131 * 2 ^ 685)) :=
  lcm_rounded fuel (6466032408859063 * 2 ^ 665) 999433 6162992638095131 685 (by simp; omega) (by norm_num) (by norm_num)
    (by norm_num) (by norm_num [roundHalfEven]) (by norm_num) (by norm_num)

theorem lcm_chain_37 (fuel : ℕ) (hf : 1000000 ≤ fuel) :
    lcm fuel (JSNum.ofInt (6162992638095131 * 2 ^ 685)) (JSNum.ofInt 999431)
      = some (JSNum.ofInt (5874143500598960 * 2 ^ 705)) :=
  lcm_rounded fuel (6162992638095131 * 2 ^ 685) 999431 5874143500598960 705 (by simp; omega) (by norm_num) (by norm_num)
    (by norm_num) (by norm_num [roundHalfEven]) (by norm_num) (by norm_num)

theorem lcm_chain_38 (fuel : ℕ) (hf : 1000000 ≤ fuel) :
    lcm fuel (JSNum.ofInt (5874143500598960 * 2 ^ 705)) (JSNum.ofInt 999389)
      = some (JSNum.ofInt (5598596953315825 * 2 ^ 725)) :=
  lcm_rounded fuel (5874143500598960 * 2 ^ 705) 999389 5598596953315825 725 (by simp; omega) (by norm_num) (by norm_num)
    (by norm_num) (by norm_num [roundHalfEven]) (by norm_num) (by norm_num)

theorem lcm_chain_39 (fuel : ℕ) (hf : 1000000 ≤ fuel) :
    lcm fuel (JSNum.ofInt (5598596953315825 * 2 ^ 725)) (JSNum.ofInt 999377)
      = some (JSNum.ofInt (5335911776937398 * 2 ^ 745)) :=
  lcm_rounded fuel (5598596953315825 * 2 ^ 725) 999377 5335911776937398 745 (by simp; omega) (by norm_num) (by norm_num)
    (by norm_num) (by norm_num [roundHalfEven]) (by norm_num) (by norm_num)

theorem lcm_chain_40 (fuel : ℕ) (hf : 1000000 ≤ fuel) :
    lcm fuel (JSNum.ofInt (5335911776937398 * 2 ^ 745)) (JSNum.ofInt 999371)
      = some (JSNum.ofInt (5085521210126595 * 2 ^ 765)) :=
  lcm_rounded fuel (5335911776937398 * 2 ^ 745) 999371 5085521210126595 765 (by simp; omega) (by norm_num) (by norm_num)
    (by norm_num) (by norm_num [roundHalfEven]) (by norm_num) (by norm_num)

theorem lcm_chain_41 (fuel : ℕ) (hf : 1000000 ≤ fuel) :
    lcm fuel (JSNum.ofInt (5085521210126595 * 2 ^ 765)) (JSNum.ofInt 999359)
      = some (JSNum.ofInt (4846822157889274 * 2 ^ 785)) :=
  lcm_rounded fuel (5085521210126595 * 2 ^ 765) 999359 4846822157889274 785 (by simp; omega) (by norm_num) (by norm_num)
    (by norm_num) (by norm_num [roundHalfEven]) (by norm_num) (by norm_num)

theorem lcm_chain_42 (fuel : ℕ) (hf : 1000000 ≤ fuel) :
    lcm fuel (JSNum.ofInt (4846822157889274 * 2 ^ 785)) (JSNum.ofInt 999331)
      = some (JSNum.ofInt (4619197496286055 * 2 ^ 805)) :=
  lcm_rounded fuel (4846822157889274 * 2 ^ 785) 999331 4619197496286055 805 (by simp; omega) (by norm_num) (by norm_num)
    (by norm_num) (by norm_num [roundHalfEven]) (by norm_num) (by norm_num)

theorem lcm_chain_43 (fuel : ℕ) (hf : 1000000 ≤ fuel) :
    lcm fuel (JSNum.ofInt (4619197496286055 * 2 ^ 805)) (JSNum.ofInt 999329)
      = some (JSNum.ofInt (8804508237392515 * 2 ^ 824)) :=
  lcm_rounded fuel (4619197496286055 * 2 ^ 805) 999329 8804508237392515 824 (by simp; omega) (by norm_num) (by norm_num)
    (by norm_num) (by norm_num [roundHalfEven]) (by norm_num) (by norm_num)

theorem lcm_chain_44 (fuel : ℕ) (hf : 1000000 ≤ fuel) :
    lcm fuel (JSNum.ofInt (8804508237392515 * 2 ^ 824)) (JSNum.ofInt 999307)
      = some (JSNum.ofInt (8390814507659914 * 2 ^ 844)) :=
  lcm_rounded fuel (8804508237392515 * 2 ^ 824) 999307 8390814507659914 844 (by simp; omega) (by norm_num) (by norm_num)
    (by norm_num) (by norm_num [roundHalfEven]) (by norm_num) (by norm_num)

theorem lcm_chain_45 (fuel : ℕ) (hf : 1000000 ≤ fuel) :
    lcm fuel (JSNum.ofInt (8390814507659914 * 2 ^ 844)) (JSNum.ofInt 999287)
      = some (JSNum.ofInt (7996398789325669 * 2 ^ 864)) :=
  lcm_rounded fuel (8390814507659914 * 2 ^ 844) 999287 7996398789325669 864 (by simp; omega) (by norm_num) (by norm_num)
    (by norm_num) (by norm_num [roundHalfEven]) (by norm_num) (by norm_num)

theorem lcm_chain_46 (fuel : ℕ) (hf : 1000000 ≤ fuel) :
    lcm fuel (JSNum.ofInt (7996398789325669 * 2 ^ 864)) (JSNum.ofInt 999269)
      = some (JSNum.ofInt (7620385572252914 * 2 ^ 884)) :=
  lcm_rounded fuel (7996398789325669 * 2 ^ 864) 999269 7620385572252914 884 (by simp; omega) (by norm_num) (by norm_num)
    (by norm_num) (by norm_num [roundHalfEven]) (by norm_num) (by norm_num)

theorem lcm_chain_47 (fuel : ℕ) (hf : 1000000 ≤ fuel) :
    lcm fuel (JSNum.ofInt (7620385572252914 * 2 ^ 884)) (JSNum.ofInt 999239)
      = some (JSNum.ofInt (7261835535843305 * 2 ^ 904)) :=
  lcm_rounded fuel (7620385572252914 * 2 ^ 884) 999239 7261835535843305 904 (by simp; omega) (by norm_num) (by norm_num)
    (by norm_num) (by norm_num [roundHalfEven]) (by norm_num) (by norm_num)

theorem lcm_chain_48 (fuel : ℕ) (hf : 1000000 ≤ fuel) :
    lcm fuel (JSNum.ofInt (7261835535843305 * 2 ^ 904)) (JSNum.ofInt 999233)
      = some (JSNum.ofInt (6920114238726915 * 2 ^ 924)) :=
  lcm_rounded fuel (7261835535843305 * 2 ^ 904) 999233 6920114238726915 924 (by simp; omega) (by norm_num) (by norm_num)
    (by norm_num) (by norm_num [roundHalfEven]) (by norm_num) (by norm_num)

theorem lcm_chain_49 (fuel : ℕ) (hf : 1000000 ≤ fuel) :
    lcm fuel (JSNum.ofInt (6920114238726915 * 2 ^ 924)) (JSNum.ofInt 999221)
      = some (JSNum.ofInt (6594394178137728 * 2 ^ 944)) :=
  lcm_rounded fuel (6920114238726915 * 2 ^ 924) 999221 6594394178137728 944 (by simp; omega) (by norm_num) (by norm_num)
    (by norm_num) (by norm_num [roundHalfEven]) (by norm_num) (by norm_num)

theorem lcm_chain_50 (fuel : ℕ) (hf : 1000000 ≤ fuel) :
    lcm fuel (JSNum.ofInt (6594394178137728 * 2 ^ 944)) (JSNum.ofInt 999217)
      = some (JSNum.ofInt (6283980147835013 * 2 ^ 964)) :=
  lcm_rounded fuel (6594394178137728 * 2 ^ 944) 999217 6283980147835013 964 (by simp; omega) (by norm_num) (by norm_num)
    (by norm_num) (by norm_num [roundHalfEven]) (by norm_num) (by norm_num)

theorem lcm_chain_51 (fuel : ℕ) (hf : 1000000 ≤ fuel) :
    lcm fuel (JSNum.ofInt (6283980147835013 * 2 ^ 964)) (JSNum.ofInt 999199) = some JSNum.posInf :=
  lcm_overflow fuel (6283980147835013 * 2 ^ 964) 999199 (by simp; omega) (by norm_num) (by norm_num)

theorem lcmList_overflowArray_none (fuel : ℕ) (hf : 1000000 ≤ fuel) :
    lcmList fuel (overflowArray.map JSNum.ofInt) = none := by
  unfold lcmList overflowArray
  simp only [List.map_cons, List.map_nil, List.drop_succ_cons, List.drop_zero,
    List.headD_cons, abs_ofInt]
  rw [abs_of_nonneg (by norm_num : (0 : ℤ) ≤ 999983)]
  rw [lcm_foldlM_step fuel _ _ _ _ (by norm_num) (lcm_chain_1 fuel hf)]
  rw [lcm_foldlM_step fuel _ _ _ _ (by norm_num) (lcm_chain_2 fuel hf)]
  rw [lcm_foldlM_step fuel _ _ _ _ (by norm_num) (lcm_chain_3 fuel hf)]
  rw [lcm_foldlM_step fuel _ _ _ _ (by norm_num) (lcm_chain_4 fuel hf)]
  rw [lcm_foldlM_step fuel _ _ _ _ (by norm_num) (lcm_chain_5 fuel hf)]
  rw [lcm_foldlM_step fuel _ _ _ _ (by norm_num) (lcm_chain_6 fuel hf)]
  rw [lcm_foldlM_step fuel _ _ _ _ (by norm_num) (lcm_chain_7 fuel hf)]
  rw [lcm_foldlM_step fuel _ _ _ _ (by norm_num) (lcm_chain_8 fuel hf)]
  rw [lcm_foldlM_step fuel _ _ _ _ (by norm_num) (lcm_chain_9 fuel hf)]
  rw [lcm_foldlM_step fuel _ _ _ _ (by norm_num) (lcm_chain_10 fuel hf)]
  rw [lcm_foldlM_step fuel _ _ _ _ (by norm_num) (lcm_chain_11 fuel hf)]
  rw [lcm_foldlM_step fuel _ _ _ _ (by norm_num) (lcm_chain_12 fuel hf)]
  rw [lcm_foldlM_step fuel _ _ _ _ (by norm_num) (lcm_chain_13 fuel hf)]
  rw [lcm_foldlM_step fuel _ _ _ _ (by norm_num) (lcm_chain_14 fuel hf)]
  rw [lcm_foldlM_step fuel _ _ _ _ (by norm_num) (lcm_chain_15 fuel hf)]
  rw [lcm_foldlM_step fuel _ _ _ _ (by norm_num) (lcm_chain_16 fuel hf)]
  rw [lcm_foldlM_step fuel _ _ _ _ (by norm_num) (lcm_chain_17 fuel hf)]
  rw [lcm_foldlM_step fuel _ _ _ _ (by norm_num) (lcm_chain_18 fuel hf)]
  rw [lcm_foldlM_step fuel _ _ _ _ (by norm_num) (lcm_chain_19 fuel hf)]
  rw [lcm_foldlM_step fuel _ _ _ _ (by norm_num) (lcm_chain_20 fuel hf)]
  rw [lcm_foldlM_step fuel _ _ _ _ (by norm_num) (lcm_chain_21 fuel hf)]
  rw [lcm_foldlM_step fuel _ _ _ _ (by norm_num) (lcm_chain_22 fuel hf)]
  rw [lcm_foldlM_step fuel _ _ _ _ (by norm_num) (lcm_chain_23 fuel hf)]
  rw [lcm_foldlM_step fuel _ _ _ _ (by norm_num) (lcm_chain_24 fuel hf)]
  rw [lcm_foldlM_step fuel _ _ _ _ (by norm_num) (lcm_chain_25 fuel hf)]
  rw [lcm_foldlM_step fuel _ _ _ _ (by norm_num) (lcm_chain_26 fuel hf)]
  rw [lcm_foldlM_step fuel _ _ _ _ (by norm_num) (lcm_chain_27 fuel hf)]
  rw [lcm_foldlM_step fuel _ _ _ _ (by norm_num) (lcm_chain_28 fuel hf)]
  rw [lcm_foldlM_step fuel _ _ _ _ (by norm_num) (lcm_chain_29 fuel hf)]
  rw [lcm_foldlM_step fuel _ _ _ _ (by norm_num) (lcm_chain_30 fuel hf)]
  rw [lcm_foldlM_step fuel _ _ _ _ (by norm_num) (lcm_chain_31 fuel hf)]
  rw [lcm_foldlM_step fuel _ _ _ _ (by norm_num) (lcm_chain_32 fuel hf)]
  rw [lcm_foldlM_step fuel _ _ _ _ (by norm_num) (lcm_chain_33 fuel hf)]
  rw [lcm_foldlM_step fuel _ _ _ _ (by norm_num) (lcm_chain_34 fuel hf)]
  rw [lcm_foldlM_step fuel _ _ _ _ (by norm_num) (lcm_chain_35 fuel hf)]
  rw [lcm_foldlM_step fuel _ _ _ _ (by norm_num) (lcm_chain_36 fuel hf)]
  rw [lcm_foldlM_step fuel _ _ _ _ (by norm_num) (lcm_chain_37 fuel hf)]
  rw [lcm_foldlM_step fuel _ _ _ _ (by norm_num) (lcm_chain_38 fuel hf)]
  rw [lcm_foldlM_step fuel _ _ _ _ (by norm_num) (lcm_chain_39 fuel hf)]
  rw [lcm_foldlM_step fuel _ _ _ _ (by norm_num) (lcm_chain_40 fuel hf)]
  rw [lcm_foldlM_step fuel _ _ _ _ (by norm_num) (lcm_chain_41 fuel hf)]
  rw [lcm_foldlM_step fuel _ _ _ _ (by norm_num) (lcm_chain_42 fuel hf)]
  rw [lcm_foldlM_step fuel _ _ _ _ (by norm_num) (lcm_chain_43 fuel hf)]
  rw [lcm_foldlM_step fuel _ _ _ _ (by norm_num) (lcm_chain_44 fuel hf)]
  rw [lcm_foldlM_step fuel _ _ _ _ (by norm_num) (lcm_chain_45 fuel hf)]
  rw [lcm_foldlM_step fuel _ _ _ _ (by norm_num) (lcm_chain_46 fuel hf)]
  rw [lcm_foldlM_step fuel _ _ _ _ (by norm_num) (lcm_chain_47 fuel hf)]
  rw [lcm_foldlM_step fuel _ _ _ _ (by norm_num) (lcm_chain_48 fuel hf)]
  rw [lcm_foldlM_step fuel _ _ _ _ (by norm_num) (lcm_chain_49 fuel hf)]
  rw [lcm_foldlM_step fuel _ _ _ _ (by norm_num) (lcm_chain_50 fuel hf)]
  rw [lcm_foldlM_step fuel _ _ _ _ (by norm_num) (lcm_chain_51 fuel hf)]
  exact lcm_foldlM_posInf fuel _ _ (by norm_num)

theorem gcdLoop_succ_of_some (fuel : ℕ) :
    ∀ (x y r : JSNum), gcdLoop fuel x y = some r → gcdLoop (fuel + 1) x y = some r := by
  induction fuel with
  | zero => intro x y r h; exact absurd h (by simp [gcdLoop])
  | succ fuel ih =>
    intro x y r h
    rw [gcdLoop] at h ⊢
    split_ifs at h ⊢ with hc
    · exact ih _ _ _ h
    · exact h

theorem gcdLoop_mono (f g : ℕ) (hfg : f ≤ g) (x y r : JSNum) (h : gcdLoop f x y = some r) :
    gcdLoop g x y = some r := by
  induction hfg with
  | refl => exact h
  | step _ ih => exact gcdLoop_succ_of_some _ _ _ _ ih

theorem lcm_mono (f g : ℕ) (hfg : f ≤ g) (a b r : JSNum) (h : lcm f a b = some r) :
    lcm g a b = some r := by
  unfold lcm at h ⊢
  split_ifs at h ⊢
  · exact h
  · obtain ⟨d, hd, hr⟩ := Option.map_eq_some'.mp h
    unfold gcd at hd ⊢
    rw [gcdLoop_mono f g hfg _ _ d hd]
    simpa using hr

theorem lcm_foldlM_mono (f g : ℕ) (hfg : f ≤ g) :
    ∀ (l : List JSNum) (a r : JSNum),
      l.foldlM (fun result y => lcm f result (JSNum.abs y)) a = some r →
      l.foldlM (fun result y => lcm g result (JSNum.abs y)) a = some r := by
  intro l
  induction l with
  | nil => intro a r h; exact h
  | cons x rest ih =>
    intro a r h
    rw [List.foldlM_cons] at h ⊢
    cases hstep : lcm f a (JSNum.abs x) with
    | none =>
      rw [hstep] at h
      exact absurd h (by simp)
    | some next =>
      rw [hstep] at h
      rw [lcm_mono f g hfg _ _ next hstep]
      exact ih next r h

theorem lcmList_mono (f g : ℕ) (hfg : f ≤ g) (arr : List JSNum) (r : JSNum)
    (h : lcmList f arr = some r) : lcmList g arr = some r :=
  lcm_foldlM_mono f g hfg _ _ r h

theorem lcmList_overflowArray_never (fuel : ℕ) :
    lcmList fuel (overflowArray.map JSNum.ofInt) = none := by
  cases h : lcmList fuel (overflowArray.map JSNum.ofInt) with
  | none => rfl
  | some r =>
    have h1 := lcmList_mono fuel (max fuel 1000000) (le_max_left _ _) _ r h
    rw [lcmList_overflowArray_none (max fuel 1000000) (le_max_right _ _)] at h1
    exact absurd h1 (by simp)

theorem validateArray_overflowArray :
    validateArray defaultConfig
      (JVal.arr (overflowArray.map (fun z => JVal.num (JSNum.ofInt z)))) "lcm" = none := by
  simp [validateArray, validateItems, elementOutOfBounds_ofInt, defaultConfig, overflowArray]

theorem handler_envelope (cfg : Config) (fuel : ℕ) (ai : String → AIOutcome)
    (reqBody : JVal) (r : Response) (h : handler cfg fuel ai reqBody = some r) :
    (∃ d, r = successResponse cfg d) ∨ (∃ m, r = errorResponse cfg 400 m)
      ∨ ∃ m, r = errorResponse cfg 500 m := by
  by_cases hlen : (activeKeys reqBody).length = 1
  · obtain ⟨k, hact⟩ := List.length_eq_one.mp hlen
    have hk : k ∈ keys := mem_keys_of_activeKeys reqBody k (by rw [hact]; simp)
    simp only [keys, List.mem_cons, List.mem_singleton, List.not_mem_nil, or_false] at hk
    rcases hk with rfl | rfl | rfl | rfl | rfl
    · rw [handler_fibonacci cfg fuel ai reqBody hact] at h
      split at h
      · exact Or.inr (Or.inl ⟨_, (Option.some.inj h).symm⟩)
      · split_ifs at h
        · exact Or.inr (Or.inl ⟨_, (Option.some.inj h).symm⟩)
        · exact Or.inl ⟨_, (Option.some.inj h).symm⟩
    · rw [handler_prime cfg fuel ai reqBody hact] at h
      split at h
      · exact Or.inr (Or.inl ⟨_, (Option.some.inj h).symm⟩)
      · obtain ⟨ps, _, hps⟩ := Option.map_eq_some'.mp h
        exact Or.inl ⟨_, hps.symm⟩
    · rw [handler_lcm cfg fuel ai reqBody hact] at h
      split at h
      · exact Or.inr (Or.inl ⟨_, (Option.some.inj h).symm⟩)
      · obtain ⟨ps, _, hps⟩ := Option.map_eq_some'.mp h
        exact Or.inl ⟨_, hps.symm⟩
    · rw [handler_hcf cfg fuel ai reqBody hact] at h
      split at h
      · exact Or.inr (Or.inl ⟨_, (Option.some.inj h).symm⟩)
      · obtain ⟨ps, _, hps⟩ := Option.map_eq_some'.mp h
        exact Or.inl ⟨_, hps.symm⟩
    · rw [handler_AI cfg fuel ai reqBody hact] at h
      split at h
      · split_ifs at h
        · exact Or.inr (Or.inl ⟨_, (Option.some.inj h).symm⟩)
        · exact Or.inr (Or.inl ⟨_, (Option.some.inj h).symm⟩)
        · split at h
          · exact Or.inl ⟨_, (Option.some.inj h).symm⟩
          · exact Or.inr (Or.inr ⟨_, (Option.some.inj h).symm⟩)
      · exact Or.inr (Or.inl ⟨_, (Option.some.inj h).symm⟩)
  · have hone : (activeKeys (if reqBody.truthy then reqBody else JVal.obj [])).length ≠ 1 := by
      rw [activeKeys_body]
      exact hlen
    unfold handler at h
    simp only [hone, ne_eq, not_false_eq_true, if_true] at h
    exact Or.inr (Or.inl ⟨_, (Option.some.inj h).symm⟩)

/-- C14: the code at the failing input.  The array `overflowArray` passes
`validateArray` under the default limits, and for `{"lcm": overflowArray}` the handler
produces no response, however many loop tests are allowed: the running product
overflows to `Infinity`, and `gcd(Infinity, x)` never leaves its loop.  Whenever the
handler does respond, the response has one of the two shapes of the envelope. -/
theorem handler_lcm_overflow_never_responds (fuel : ℕ) (ai : String → AIOutcome) :
    validateArray defaultConfig
        (JVal.arr (overflowArray.map (fun z => JVal.num (JSNum.ofInt z)))) "lcm" = none
      ∧ handler defaultConfig fuel ai
          (JVal.obj [("lcm", JVal.arr (overflowArray.map (fun z => JVal.num (JSNum.ofInt z))))])
        = none
      ∧ ∀ (cfg : Config) (reqBody : JVal) (r : Response),
          handler cfg fuel ai reqBody = some r →
          (r.status = 200 ∧ r.is_success = true ∧ r.official_email = cfg.OFFICIAL_EMAIL
              ∧ r.data ≠ none ∧ r.error = none)
            ∨ ((r.status = 400 ∨ r.status = 500) ∧ r.is_success = false
              ∧ r.official_email = cfg.OFFICIAL_EMAIL ∧ r.data = none ∧ r.error ≠ none) := by
  refine ⟨validateArray_overflowArray, ?_, ?_⟩
  · rw [handler_lcm _ _ _ _ (activeKeys_single "lcm" _ (by simp [keys])), get_single,
      validateArray_overflowArray]
    simp only [JVal.items, numbersOf_map, lcmList_overflowArray_never, Option.map_none']
  · intro cfg reqBody r h
    rcases handler_envelope cfg fuel ai reqBody r h with ⟨d, rfl⟩ | ⟨m, rfl⟩ | ⟨m, rfl⟩
    · exact Or.inl (by simp [successResponse])
    · exact Or.inr (by simp [errorResponse])
    · exact Or.inr (by simp [errorResponse])

end Bfhl
